import Mathlib

/-!
The Prometheus collector of solidfire-exporter (`pkg/prom/collector.go`).

A shallow embedding of the collector's metric derivation.  Each `collectX`
method of `SolidfireCollector` becomes a pure function from the decoded API
result (and the metadata cache) to the list of samples it sends on the channel.

Go's `float64` is modelled by `F64`, IEEE-754 binary64 with round-to-nearest,
ties-to-even, which is the arithmetic the Go specification prescribes.
-/

set_option exponentiation.threshold 4200

namespace Solidfire

/-! ## float64 -/

/-- A `float64`.  Every finite binary64 number is an integer multiple of
`2^-1074`; `fin neg v` is the number `(-1)^neg * v * 2^-1074`, so `fin false 0`
is `+0` and `fin true 0` is `-0`. -/
inductive F64 where
  | nan : F64
  | inf (neg : Bool) : F64
  | fin (neg : Bool) (v : Nat) : F64
  deriving DecidableEq, Repr

namespace F64

/-- Auxiliary for `log2`: at most `fuel` halvings. -/
def log2Fuel : Nat → Nat → Nat
  | 0, _ => 0
  | fuel + 1, n => if n < 2 then 0 else log2Fuel fuel (n / 2) + 1

/-- Position of the highest set bit: `2 ^ log2 n ≤ n < 2 ^ (log2 n + 1)` for
`n ≥ 1`. -/
def log2 (n : Nat) : Nat := log2Fuel n n

/-- Number of low bits dropped when a magnitude whose integer part (in units of
`2^-1074`) is `t` is rounded to 53 significant bits; `0` in the subnormal and
lowest normal range, where the spacing is `2^-1074`. -/
def shiftOf (t : Nat) : Nat := if t < 2 ^ 53 then 0 else log2 t - 52

/-- The magnitude `2^1024` in units of `2^-1074`: rounded results at or above
it overflow to infinity. -/
def overflowAt : Nat := 2 ^ 2098

/-- Round the non-negative rational `n / d` (in units of `2^-1074`, `d > 0`) to
the nearest binary64 magnitude, ties to even, and attach the sign `neg`. -/
def round (neg : Bool) (n d : Nat) : F64 :=
  let k := shiftOf (n / d)
  let e := d * 2 ^ k
  let q := n / e
  let r := n % e
  let m := if e < 2 * r ∨ (2 * r = e ∧ q % 2 = 1) then q + 1 else q
  if m * 2 ^ k < overflowAt then fin neg (m * 2 ^ k) else inf neg

/-- The scale factor `2^1074` between a number and its stored magnitude. -/
def unit : Nat := 2 ^ 1074

/-- Conversion `float64(n)` of a non-negative integer. -/
def ofNat (n : Nat) : F64 := round false (n * unit) 1

/-- Conversion `float64(n)` of an integer (`int`, `int64`). -/
def ofInt (n : Int) : F64 := round (decide (n < 0)) (n.natAbs * unit) 1

/-- Conversion to `float64` of the exact decimal constant `n / d`, as the Go
compiler converts an untyped constant such as `0.93`. -/
def ofRatio (n d : Nat) : F64 := round false (n * unit) d

/-- The constant `0`. -/
def zero : F64 := fin false 0

/-- The constant `1`. -/
def one : F64 := ofNat 1

/-- Go's `x + y` on `float64`. -/
def add : F64 → F64 → F64
  | nan, _ => nan
  | _, nan => nan
  | inf a, inf b => if a = b then inf a else nan
  | inf a, fin _ _ => inf a
  | fin _ _, inf b => inf b
  | fin a x, fin b y =>
    if a = b then round a (x + y) 1
    else if y < x then round a (x - y) 1
    else if x < y then round b (y - x) 1
    else fin false 0

/-- Go's `x * y` on `float64`. -/
def mul : F64 → F64 → F64
  | nan, _ => nan
  | _, nan => nan
  | inf a, inf b => inf (xor a b)
  | inf a, fin b y => if y = 0 then nan else inf (xor a b)
  | fin a x, inf b => if x = 0 then nan else inf (xor a b)
  | fin a x, fin b y => round (xor a b) (x * y) unit

/-- Go's `x / y` on `float64`; division by zero does not trap, it yields an
infinity, or NaN for `0 / 0`. -/
def div : F64 → F64 → F64
  | nan, _ => nan
  | _, nan => nan
  | inf _, inf _ => nan
  | inf a, fin b _ => inf (xor a b)
  | fin a _, inf b => fin (xor a b) 0
  | fin a x, fin b y =>
    if y = 0 then (if x = 0 then nan else inf (xor a b))
    else round (xor a b) (x * unit) y

/-- Go's `x == y` on `float64`: NaN equals nothing, and `+0 == -0`. -/
def eq : F64 → F64 → Bool
  | fin a x, fin b y => (x == 0 && y == 0) || (a == b && x == y)
  | inf a, inf b => a == b
  | _, _ => false

/-- Go's `x <= y` on `float64`: false when either side is NaN, and `-0 <= +0`
as well as `+0 <= -0`. -/
def le : F64 → F64 → Bool
  | nan, _ => false
  | _, nan => false
  | inf a, inf b => a || !b
  | inf a, fin _ _ => a
  | fin _ _, inf b => !b
  | fin true _, fin false _ => true
  | fin false x, fin true y => x == 0 && y == 0
  | fin false x, fin false y => decide (x ≤ y)
  | fin true x, fin true y => decide (y ≤ x)

/-- The value is neither NaN nor an infinity. -/
def isFinite : F64 → Bool
  | fin _ _ => true
  | _ => false

/-- The value `fin neg v` is a binary64 number: rounding leaves it unchanged. -/
def isRepr : F64 → Bool
  | fin neg v => decide (round neg v 1 = fin neg v)
  | _ => true

/-- The rational value of a finite float, `0` for NaN and the infinities. -/
def toRat : F64 → ℚ
  | fin neg v => (if neg then -1 else 1) * ((v : ℚ) / (2 : ℚ) ^ 1074)
  | _ => 0

/-- The value is finite and either zero or of magnitude between `2^-100` and
`2^100`. -/
def inWindow : F64 → Bool
  | fin _ v => v == 0 || (decide (2 ^ 974 ≤ v) && decide (v ≤ 2 ^ 1174))
  | _ => false

/-- Finite, with magnitude at most `2^hi` units of `2^-1074`. -/
def MagLe (hi : Nat) (x : F64) : Prop := ∃ s v, x = fin s v ∧ v ≤ 2 ^ hi

/-- Finite, with magnitude at least `2^lo` units of `2^-1074`. -/
def MagGe (lo : Nat) (x : F64) : Prop := ∃ s v, x = fin s v ∧ 2 ^ lo ≤ v

end F64

/-! ## Samples -/

/-- The descriptors of `MetricDescriptions` (declared outside this file of the
repository); each constructor is the name of the field the collector uses. -/
inductive Desc where
  | upDesc | VolumeActualIOPS | VolumeAverageIOPSizeBytes | VolumeBurstIOPSCredit
  | VolumeClientQueueDepth | VolumeLatencySeconds | VolumeNonZeroBlocks | VolumeReadBytesTotal
  | VolumeReadLatencySecondsTotal | VolumeReadOpsTotal | VolumeThrottle
  | VolumeUnalignedReadsTotal | VolumeUnalignedWritesTotal | VolumeSizeBytes
  | VolumeUtilization | VolumeWriteBytesTotal | VolumeWriteLatencyTotal | VolumeWriteOpsTotal
  | VolumeStatsZeroBlocks | ClusterActiveBlockSpaceBytes | ClusterActiveSessions
  | ClusterAverageIOPS | ClusterClusterRecentIOSizeBytes | ClusterCurrentIOPS | ClusterMaxIOPS
  | ClusterMaxOverProvisionableSpaceBytes | ClusterMaxProvisionedSpaceBytes
  | ClusterMaxUsedMetadataSpaceBytes | ClusterMaxUsedSpaceBytes | ClusterNonZeroBlocks
  | ClusterPeakActiveSessions | ClusterPeakIOPS | ClusterProvisionedSpaceBytes
  | ClusterSnapshotNonZeroBlocks | ClusterIOPSTotal | ClusterUniqueBlocks
  | ClusterUniqueBlocksUsedSpaceBytes | ClusterUsedMetadataSpaceBytes
  | ClusterUsedMetadataSpaceInSnapshotsBytes | ClusterUsedSpaceBytes | ClusterZeroBlocks
  | ClusterThinProvisioningFactor | ClusterDeDuplicationFactor | ClusterCompressionFactor
  | ClusterEfficiencyFactor | ClusterActiveFaults | NodeSamples | NodeCPUPercentage
  | NodeCPUSecondsTotal | NodeInterfaceInBytesTotal | NodeInterfaceOutBytesTotal
  | NodeInterfaceUtilizationPercentage | NodeReadLatencyTotal | NodeUsedMemoryBytes
  | NodeWriteLatencyTotal | NodeLoadHistogram | NodeInfo | ClusterActualIOPS
  | ClusterAverageIOBytes | ClusterClientQueueDepth | ClusterThroughputUtilization
  | ClusterLatencySeconds | ClusterNormalizedIOPS | ClusterReadBytesTotal
  | ClusterLastSampleReadBytes | ClusterReadLatencySeconds | ClusterReadLatencyTotal
  | ClusterReadOpsTotal | ClusterLastSampleReadOps | ClusterSamplePeriodSeconds
  | ClusterServices | ClusterExpectedServices | ClusterUnalignedReadsTotal
  | ClusterUnalignedWritesTotal | ClusterWriteBytesTotal | ClusterLastSampleWriteBytes
  | ClusterWriteLatency | ClusterWriteLatencyTotal | ClusterWriteOpsTotal
  | ClusterLastSampleWriteOps | ClusterBlockFullness | ClusterFullness
  | ClusterMaxMetadataOverProvisionFactor | ClusterMetadataFullness
  | ClusterSliceReserveUsedThresholdPercentage | ClusterStage2AwareThresholdPercentage
  | ClusterStage2BlockThresholdBytes | ClusterStage3BlockThresholdBytes
  | ClusterStage3BlockThresholdPercentage | ClusterStage3LowThresholdPercentage
  | ClusterStage4BlockThresholdBytes | ClusterStage4CriticalThreshold
  | ClusterStage5BlockThresholdBytes | ClusterTotalBytes | ClusterTotalMetadataBytes
  | ClusterUsedBytes | ClusterUsedMetadataBytes | DriveStatus | DriveCapacityBytes
  | NodeISCSISessions | VolumeCount | AccountCount | ClusterAdminCount | InitiatorCount
  | VolumeAccessGroupCount | VirtualVolumeTasks | BulkVolumeJobs | AsyncResultsActive
  | AsyncResults | MaxAsyncResultID | NodeTotalMemoryBytes
  | VolumeQoSBelowMinIopsPercentagesHistogram | VolumeQoSMinToMaxIopsPercentagesHistogram
  | VolumeQoSReadBlockSizesHistogram | VolumeQoSTargetUtilizationPercentagesHistogram
  | VolumeQoSThrottlePercentagesHistogram | VolumeQoSWriteBlockSizesHistogram
  deriving DecidableEq, Repr

/-- The `prometheus.ValueType` constants the collector passes. -/
inductive ValueType where
  | GaugeValue | CounterValue
  deriving DecidableEq, Repr

/-- What a collector sends on the channel `ch`: the arguments given to
`prometheus.MustNewConstMetric` or to `prometheus.MustNewConstHistogram`.  A
bucket map `map[float64]uint64` is the list of its entries. -/
inductive Metric where
  | const (desc : Desc) (valueType : ValueType) (value : F64) (labelValues : List String)
  | histogram (desc : Desc) (count : Nat) (sum : F64) (buckets : List (F64 × Nat))
      (labelValues : List String)
  deriving DecidableEq, Repr

/-- An `error` returned by a client call. -/
structure GoError where
  msg : String
  deriving DecidableEq, Repr

/-- The descriptor of a sample. -/
def Metric.desc : Metric → Desc
  | .const d _ _ _ => d
  | .histogram d _ _ _ _ => d

/-- The label values of a sample. -/
def Metric.labelValues : Metric → List String
  | .const _ _ _ l => l
  | .histogram _ _ _ _ l => l

/-- The values of the constant samples sent for the descriptor `d`, in the order
they were sent. -/
def valuesOf (d : Desc) : List Metric → List F64
  | [] => []
  | Metric.const d0 _ v _ :: ms => if d0 = d then v :: valuesOf d ms else valuesOf d ms
  | Metric.histogram _ _ _ _ _ :: ms => valuesOf d ms

/-! ## collectClusterCapacity -/

/-- The fields of `clusterCapacity.Result.ClusterCapacity` the collector reads;
all are `float64` in the client's response type. -/
structure ClusterCapacity where
  ActiveBlockSpace : F64
  ActiveSessions : F64
  AverageIOPS : F64
  ClusterRecentIOSize : F64
  CurrentIOPS : F64
  MaxIOPS : F64
  MaxOverProvisionableSpace : F64
  MaxProvisionedSpace : F64
  MaxUsedMetadataSpace : F64
  MaxUsedSpace : F64
  NonZeroBlocks : F64
  PeakActiveSessions : F64
  PeakIOPS : F64
  ProvisionedSpace : F64
  SnapshotNonZeroBlocks : F64
  TotalOps : F64
  UniqueBlocks : F64
  UniqueBlocksUsedSpace : F64
  UsedMetadataSpace : F64
  UsedMetadataSpaceInSnapshots : F64
  UsedSpace : F64
  ZeroBlocks : F64
  deriving DecidableEq, Repr

/-- Local `clusterThinProvisioningFactor` of `collectClusterCapacity`: the
quotient is computed first and then overwritten by `1` when
`cluster.NonZeroBlocks == 0`. -/
def clusterThinProvisioningFactor (cluster : ClusterCapacity) : F64 :=
  let clusterThinProvisioningFactor :=
    F64.div (F64.add cluster.NonZeroBlocks cluster.ZeroBlocks) cluster.NonZeroBlocks
  if F64.eq cluster.NonZeroBlocks F64.zero then F64.one else clusterThinProvisioningFactor

/-- Local `clusterDeDuplicationFactor` of `collectClusterCapacity`. -/
def clusterDeDuplicationFactor (cluster : ClusterCapacity) : F64 :=
  let clusterDeDuplicationFactor :=
    F64.div (F64.add cluster.NonZeroBlocks cluster.SnapshotNonZeroBlocks) cluster.UniqueBlocks
  if F64.eq cluster.UniqueBlocks F64.zero then F64.one else clusterDeDuplicationFactor

/-- Local `clusterCompressionFactor` of `collectClusterCapacity`; `4096` and
`0.93` are untyped constants converted to `float64`. -/
def clusterCompressionFactor (cluster : ClusterCapacity) : F64 :=
  let clusterCompressionFactor :=
    F64.div (F64.mul cluster.UniqueBlocks (F64.ofNat 4096))
      (F64.mul cluster.UniqueBlocksUsedSpace (F64.ofRatio 93 100))
  if F64.eq cluster.UniqueBlocksUsedSpace F64.zero then F64.one else clusterCompressionFactor

/-- The method `collectClusterCapacity`: `resp` is what `GetClusterCapacity`
returned; the result is the error returned, or the samples sent in order. -/
def collectClusterCapacity (resp : Except GoError ClusterCapacity) :
    Except GoError (List Metric) :=
  match resp with
  | .error err => .error err
  | .ok cluster =>
    .ok [
      Metric.const .ClusterActiveBlockSpaceBytes .GaugeValue cluster.ActiveBlockSpace [],
      Metric.const .ClusterActiveSessions .GaugeValue cluster.ActiveSessions [],
      Metric.const .ClusterAverageIOPS .GaugeValue cluster.AverageIOPS [],
      Metric.const .ClusterClusterRecentIOSizeBytes .GaugeValue cluster.ClusterRecentIOSize [],
      Metric.const .ClusterCurrentIOPS .GaugeValue cluster.CurrentIOPS [],
      Metric.const .ClusterMaxIOPS .GaugeValue cluster.MaxIOPS [],
      Metric.const .ClusterMaxOverProvisionableSpaceBytes .GaugeValue cluster.MaxOverProvisionableSpace [],
      Metric.const .ClusterMaxProvisionedSpaceBytes .GaugeValue cluster.MaxProvisionedSpace [],
      Metric.const .ClusterMaxUsedMetadataSpaceBytes .GaugeValue cluster.MaxUsedMetadataSpace [],
      Metric.const .ClusterMaxUsedSpaceBytes .GaugeValue cluster.MaxUsedSpace [],
      Metric.const .ClusterNonZeroBlocks .GaugeValue cluster.NonZeroBlocks [],
      Metric.const .ClusterPeakActiveSessions .GaugeValue cluster.PeakActiveSessions [],
      Metric.const .ClusterPeakIOPS .GaugeValue cluster.PeakIOPS [],
      Metric.const .ClusterProvisionedSpaceBytes .GaugeValue cluster.ProvisionedSpace [],
      Metric.const .ClusterSnapshotNonZeroBlocks .GaugeValue cluster.SnapshotNonZeroBlocks [],
      Metric.const .ClusterIOPSTotal .CounterValue cluster.TotalOps [],
      Metric.const .ClusterUniqueBlocks .GaugeValue cluster.UniqueBlocks [],
      Metric.const .ClusterUniqueBlocksUsedSpaceBytes .GaugeValue cluster.UniqueBlocksUsedSpace [],
      Metric.const .ClusterUsedMetadataSpaceBytes .GaugeValue cluster.UsedMetadataSpace [],
      Metric.const .ClusterUsedMetadataSpaceInSnapshotsBytes .GaugeValue cluster.UsedMetadataSpaceInSnapshots [],
      Metric.const .ClusterUsedSpaceBytes .GaugeValue cluster.UsedSpace [],
      Metric.const .ClusterZeroBlocks .GaugeValue cluster.ZeroBlocks [],
      Metric.const .ClusterThinProvisioningFactor .GaugeValue
        (clusterThinProvisioningFactor cluster) [],
      Metric.const .ClusterDeDuplicationFactor .GaugeValue
        (clusterDeDuplicationFactor cluster) [],
      Metric.const .ClusterCompressionFactor .GaugeValue
        (clusterCompressionFactor cluster) [],
      Metric.const .ClusterEfficiencyFactor .GaugeValue
        (F64.mul (F64.mul (clusterThinProvisioningFactor cluster)
          (clusterDeDuplicationFactor cluster)) (clusterCompressionFactor cluster)) []]

/-- A snapshot with every field `0`. -/
def zeroCapacity : ClusterCapacity :=
  { ActiveBlockSpace := F64.zero, ActiveSessions := F64.zero, AverageIOPS := F64.zero,
    ClusterRecentIOSize := F64.zero, CurrentIOPS := F64.zero, MaxIOPS := F64.zero,
    MaxOverProvisionableSpace := F64.zero, MaxProvisionedSpace := F64.zero,
    MaxUsedMetadataSpace := F64.zero, MaxUsedSpace := F64.zero, NonZeroBlocks := F64.zero,
    PeakActiveSessions := F64.zero, PeakIOPS := F64.zero, ProvisionedSpace := F64.zero,
    SnapshotNonZeroBlocks := F64.zero, TotalOps := F64.zero, UniqueBlocks := F64.zero,
    UniqueBlocksUsedSpace := F64.zero, UsedMetadataSpace := F64.zero,
    UsedMetadataSpaceInSnapshots := F64.zero, UsedSpace := F64.zero, ZeroBlocks := F64.zero }

/-- The snapshot NonZeroBlocks=100, ZeroBlocks=50, SnapshotNonZeroBlocks=20,
UniqueBlocks=40, UniqueBlocksUsedSpace=30 (other fields `0`). -/
def exampleCapacity : ClusterCapacity :=
  { zeroCapacity with
    NonZeroBlocks := F64.ofNat 100, ZeroBlocks := F64.ofNat 50,
    SnapshotNonZeroBlocks := F64.ofNat 20, UniqueBlocks := F64.ofNat 40,
    UniqueBlocksUsedSpace := F64.ofNat 30 }

/-- The largest finite `float64`, `(2^53 - 1) * 2^971` (about `1.797e308`). -/
def F64.maxFloat : F64 := F64.fin false ((2 ^ 53 - 1) * 2 ^ 2045)

/-- A snapshot whose NonZeroBlocks and ZeroBlocks are both the largest finite
`float64` (other fields `0`). -/
def hugeCapacity : ClusterCapacity :=
  { zeroCapacity with NonZeroBlocks := F64.maxFloat, ZeroBlocks := F64.maxFloat }

/-! ## Regular expressions (`regexp.MatchString`) -/

/-- Abstract syntax of the regular expressions the collector uses: literal
characters, concatenation, alternation `|` and the star `*`. -/
inductive Regex where
  | fail : Regex
  | empty : Regex
  | char (c : Char) : Regex
  | cat (a b : Regex) : Regex
  | alt (a b : Regex) : Regex
  | star (a : Regex) : Regex
  deriving DecidableEq, Repr

namespace Regex

/-- One alternative of a pattern: a sequence of literal characters, each
optionally followed by `*`, which binds to that single character. -/
def parseConcat : List Char → Regex
  | [] => empty
  | [c] => cat (char c) empty
  | c :: d :: rest =>
    if d = '*' then cat (star (char c)) (parseConcat rest)
    else cat (char c) (parseConcat (d :: rest))

/-- Split the pattern text at every `|`. -/
def splitAlt : List Char → List (List Char)
  | [] => [[]]
  | c :: rest =>
    match splitAlt rest with
    | [] => [[]]
    | cur :: others => if c = '|' then [] :: cur :: others else (c :: cur) :: others

/-- The alternation of a non-empty list of alternatives. -/
def alts : List Regex → Regex
  | [] => fail
  | [r] => r
  | r :: rs => alt r (alts rs)

/-- Parser for patterns made of literal characters, `*` and `|` (alternation
binds loosest, `*` tightest), as `regexp/syntax` reads them. -/
def parse (pattern : String) : Regex :=
  alts ((splitAlt pattern.data).map parseConcat)

/-- The expression matches the empty string. -/
def nullable : Regex → Bool
  | fail => false
  | empty => true
  | char _ => false
  | cat a b => nullable a && nullable b
  | alt a b => nullable a || nullable b
  | star _ => true

/-- Brzozowski derivative: what remains to be matched after reading `c`. -/
def deriv (c : Char) : Regex → Regex
  | fail => fail
  | empty => fail
  | char a => if a = c then empty else fail
  | cat a b => if nullable a then alt (cat (deriv c a) b) (deriv c b) else cat (deriv c a) b
  | alt a b => alt (deriv c a) (deriv c b)
  | star a => cat (deriv c a) (star a)

/-- Some prefix of the input matches the expression. -/
def matchPrefix (r : Regex) : List Char → Bool
  | [] => nullable r
  | c :: cs => nullable r || matchPrefix (deriv c r) cs

/-- Some substring of the input matches the expression. -/
def find (r : Regex) : List Char → Bool
  | [] => matchPrefix r []
  | c :: cs => matchPrefix r (c :: cs) || find r cs

/-- The expression for the literal text `w` followed by `r`. -/
def lit (w : List Char) (r : Regex) : Regex := w.foldr (fun c acc => cat (char c) acc) r

end Regex

/-- Go's `regexp.MatchString(pattern, s)`: reports whether `s` contains any
match of the pattern (the match is not anchored). -/
def MatchString (pattern : String) (s : String) : Bool :=
  Regex.find (Regex.parse pattern) s.data

/-- Go's `strings.HasPrefix(s, prefix)`. -/
def HasPrefix (s pre : String) : Bool := pre.data.isPrefixOf s.data

/-! ## The metadata cache -/

/-- The struct `volumeMetadata`. -/
structure volumeMetadata where
  VolumeId : String
  Name : String
  AccountId : String
  deriving DecidableEq, Repr

/-- The method `volumeMetadata.Values`. -/
def volumeMetadata.Values (v : volumeMetadata) : List String :=
  [v.VolumeId, v.Name, v.AccountId]

/-- The zero value of `volumeMetadata`, which a Go map lookup yields for a
missing key. -/
def volumeMetadata.zeroValue : volumeMetadata := { VolumeId := "", Name := "", AccountId := "" }

/-- The two maps of `SolidfireCollector` (the client and the timeout are inputs
of the functions that use them).  A map is the partial function of its
entries. -/
structure SolidfireCollector where
  volumeMetadataByID : Int → Option volumeMetadata
  nodesNamesByID : Int → Option String

/-- The expression `c.volumeMetadataByID[id]`. -/
def SolidfireCollector.volumeMetadataAt (c : SolidfireCollector) (id : Int) : volumeMetadata :=
  (c.volumeMetadataByID id).getD volumeMetadata.zeroValue

/-- The expression `c.nodesNamesByID[id]`. -/
def SolidfireCollector.nodeNameAt (c : SolidfireCollector) (id : Int) : String :=
  (c.nodesNamesByID id).getD ""

/-- The collector `NewCollector` returns: both maps empty. -/
def NewCollector : SolidfireCollector :=
  { volumeMetadataByID := fun _ => none, nodesNamesByID := fun _ => none }

/-- Go's `strconv.Itoa`. -/
def Itoa (n : Int) : String := toString n

/-- The function `MicrosecondsToSeconds`; `1e-6` is an untyped constant
converted to `float64`. -/
def MicrosecondsToSeconds (microSeconds : F64) : F64 :=
  F64.mul microSeconds (F64.ofRatio 1 1000000)

/-- The function `MillisecondsToSeconds`. -/
def MillisecondsToSeconds (milliseconds : F64) : F64 :=
  F64.mul milliseconds (F64.ofRatio 1 1000)

/-- The function `GigabytesToBytes`. -/
def GigabytesToBytes (gb : F64) : F64 := F64.mul gb (F64.ofNat 1000000000)

/-- The pattern literal of `collectVolumeStats` and `collectVolumeQosHistograms`. -/
def volumeExclusionPattern : String := "snapshot-clone-src-*|replica-vol-*"

/-! ## collectVolumeMeta -/

/-- A Go `map[string]int` built by `m[k]++`, as the list of its entries in
order of first insertion (Go leaves the iteration order unspecified). -/
def mapIncr (m : List (String × Int)) (k : String) : List (String × Int) :=
  match m with
  | [] => [(k, 1)]
  | (k0, v) :: rest => if k0 = k then (k0, v + 1) :: rest else (k0, v) :: mapIncr rest k

/-- The statement `if _, ok := m[k]; !ok { m[k] = 0 }`. -/
def mapEnsure (m : List (String × Int)) (k : String) : List (String × Int) :=
  match m with
  | [] => [(k, 0)]
  | (k0, v) :: rest => if k0 = k then (k0, v) :: rest else (k0, v) :: mapEnsure rest k

/-- The expression `m[k]` with its `ok` flag. -/
def mapGet (m : List (String × Int)) (k : String) : Option Int :=
  match m with
  | [] => none
  | (k0, v) :: rest => if k0 = k then some v else mapGet rest k

/-- The fields of an element of `volumes.Result.Volumes` the collector reads;
`Attributes` is a `map[string]string`. -/
structure Volume where
  VolumeID : Int
  Name : String
  Status : String
  Attributes : String → Option String

/-- Body of the first loop of `collectVolumeMeta`: the metadata stored for
`vol`. -/
def volumeMetadataOf (vol : Volume) : volumeMetadata :=
  let metadata : volumeMetadata :=
    { Name := vol.Name, VolumeId := Itoa vol.VolumeID, AccountId := "" }
  match vol.Attributes "owner_id" with
  | some ownerId => { metadata with AccountId := ownerId }
  | none => metadata

/-- The assignment `c.volumeMetadataByID[id] = metadata`. -/
def SolidfireCollector.setVolumeMetadata (c : SolidfireCollector) (id : Int)
    (metadata : volumeMetadata) : SolidfireCollector :=
  { c with volumeMetadataByID := fun i => if i = id then some metadata else c.volumeMetadataByID i }

/-- The assignment `c.nodesNamesByID[id] = name`. -/
def SolidfireCollector.setNodeName (c : SolidfireCollector) (id : Int) (name : String) :
    SolidfireCollector :=
  { c with nodesNamesByID := fun i => if i = id then some name else c.nodesNamesByID i }

/-- First loop of `collectVolumeMeta`: the cache and `volumeCntByStatus` after
the volumes have been visited in order. -/
def volumeMetaLoop (c : SolidfireCollector) (volumeCntByStatus : List (String × Int)) :
    List Volume → SolidfireCollector × List (String × Int)
  | [] => (c, volumeCntByStatus)
  | vol :: rest =>
    volumeMetaLoop (c.setVolumeMetadata vol.VolumeID (volumeMetadataOf vol))
      (mapIncr volumeCntByStatus vol.Status) rest

/-- The method `collectVolumeMeta`: `resp` is what `ListVolumes` returned; the
result is the error returned, or the updated collector and the samples sent. -/
def collectVolumeMeta (c : SolidfireCollector) (resp : Except GoError (List Volume)) :
    Except GoError (SolidfireCollector × List Metric) :=
  match resp with
  | .error err => .error err
  | .ok volumes =>
    let (c1, volumeCntByStatus) := volumeMetaLoop c [] volumes
    .ok (c1, volumeCntByStatus.map fun (status, count) =>
      Metric.const .VolumeCount .CounterValue (F64.ofInt count) [status])

/-! ## collectVolumeStats -/

/-- The fields of an element of `volumeStats.Result.VolumeStats` the collector
reads. -/
structure VolumeStats where
  VolumeID : Int
  ActualIOPS : F64
  AverageIOPSize : F64
  BurstIOPSCredit : F64
  ClientQueueDepth : F64
  LatencyUSec : F64
  NonZeroBlocks : F64
  ReadBytes : F64
  ReadLatencyUSecTotal : F64
  ReadOps : F64
  Throttle : F64
  UnalignedReads : F64
  UnalignedWrites : F64
  VolumeSize : F64
  VolumeUtilization : F64
  WriteBytes : F64
  WriteLatencyUSecTotal : F64
  WriteOps : F64
  ZeroBlocks : F64
  deriving DecidableEq, Repr

/-- Body of the loop of `collectVolumeStats`: the samples sent for one element,
none when the cached name matches the exclusion pattern (`continue`). -/
def volumeStatsBody (c : SolidfireCollector) (vol : VolumeStats) : List Metric :=
  let metadata := c.volumeMetadataAt vol.VolumeID
  let name := metadata.Name
  let values := metadata.Values
  if MatchString volumeExclusionPattern name then []
  else [
    Metric.const .VolumeActualIOPS .GaugeValue vol.ActualIOPS values,
    Metric.const .VolumeAverageIOPSizeBytes .GaugeValue vol.AverageIOPSize values,
    Metric.const .VolumeBurstIOPSCredit .GaugeValue vol.BurstIOPSCredit values,
    Metric.const .VolumeClientQueueDepth .GaugeValue vol.ClientQueueDepth values,
    Metric.const .VolumeLatencySeconds .GaugeValue (MicrosecondsToSeconds vol.LatencyUSec) values,
    Metric.const .VolumeNonZeroBlocks .GaugeValue vol.NonZeroBlocks values,
    Metric.const .VolumeReadBytesTotal .CounterValue vol.ReadBytes values,
    Metric.const .VolumeReadLatencySecondsTotal .CounterValue
      (MicrosecondsToSeconds vol.ReadLatencyUSecTotal) values,
    Metric.const .VolumeReadOpsTotal .CounterValue vol.ReadOps values,
    Metric.const .VolumeThrottle .GaugeValue vol.Throttle values,
    Metric.const .VolumeUnalignedReadsTotal .CounterValue vol.UnalignedReads values,
    Metric.const .VolumeUnalignedWritesTotal .CounterValue vol.UnalignedWrites values,
    Metric.const .VolumeSizeBytes .GaugeValue vol.VolumeSize values,
    Metric.const .VolumeUtilization .GaugeValue vol.VolumeUtilization values,
    Metric.const .VolumeWriteBytesTotal .CounterValue vol.WriteBytes values,
    Metric.const .VolumeWriteLatencyTotal .CounterValue
      (MicrosecondsToSeconds vol.WriteLatencyUSecTotal) values,
    Metric.const .VolumeWriteOpsTotal .CounterValue vol.WriteOps values,
    Metric.const .VolumeStatsZeroBlocks .GaugeValue vol.ZeroBlocks values]

/-- The method `collectVolumeStats`: `resp` is what `ListVolumeStats` returned. -/
def collectVolumeStats (c : SolidfireCollector) (resp : Except GoError (List VolumeStats)) :
    Except GoError (List Metric) :=
  match resp with
  | .error err => .error err
  | .ok volumeStats => .ok (volumeStats.flatMap (volumeStatsBody c))

/-! ## collectVolumeQosHistograms -/

/-- The function `sumHistogram`: the `uint64` sum of the bucket counts, which
wraps modulo `2^64`. -/
def sumHistogram (m : List (F64 × Nat)) : Nat :=
  m.foldl (fun r kv => (r + kv.2) % 2 ^ 64) 0

/-- Positive infinity, `math.Inf(1)`. -/
def F64.posInf : F64 := F64.inf false

/-- The percentage buckets of a QoS or load histogram the collector reads
(`uint64` counts). -/
structure PercentBuckets where
  Bucket0 : Nat
  Bucket1To19 : Nat
  Bucket20To39 : Nat
  Bucket40To59 : Nat
  Bucket60To79 : Nat
  Bucket80To100 : Nat
  Bucket101Plus : Nat
  deriving DecidableEq, Repr

/-- The block-size buckets of a QoS histogram the collector reads. -/
structure BlockSizeBuckets where
  Bucket4096To8191 : Nat
  Bucket8192To16383 : Nat
  Bucket16384To32767 : Nat
  Bucket32768To65535 : Nat
  Bucket65536To131071 : Nat
  Bucket131072Plus : Nat
  deriving DecidableEq, Repr

/-- The field `Histograms` of an element of `QosHistograms`. -/
structure Histograms where
  BelowMinIopsPercentages : PercentBuckets
  MinToMaxIopsPercentages : PercentBuckets
  ReadBlockSizes : BlockSizeBuckets
  TargetUtilizationPercentages : PercentBuckets
  ThrottlePercentages : PercentBuckets
  WriteBlockSizes : BlockSizeBuckets
  deriving DecidableEq, Repr

/-- An element of `VolumeQoSHistograms.Result.QosHistograms`. -/
structure QosHistogram where
  VolumeID : Int
  Histograms : Histograms
  deriving DecidableEq, Repr

/-- The map literal for the block-size histograms. -/
def blockSizeMap (b : BlockSizeBuckets) : List (F64 × Nat) :=
  [(F64.ofNat 8191, b.Bucket4096To8191),
   (F64.ofNat 16383, b.Bucket8192To16383),
   (F64.ofNat 32767, b.Bucket16384To32767),
   (F64.ofNat 65535, b.Bucket32768To65535),
   (F64.ofNat 131071, b.Bucket65536To131071),
   (F64.posInf, b.Bucket131072Plus)]

/-- Body of the loop of `collectVolumeQosHistograms`: the six histogram samples
sent for one element, none when the cached name matches the exclusion
pattern. -/
def volumeQosBody (c : SolidfireCollector) (h : QosHistogram) : List Metric :=
  let metadata := c.volumeMetadataAt h.VolumeID
  let name := metadata.Name
  let values := metadata.Values
  if MatchString volumeExclusionPattern name then []
  else
    let BelowMinIopsPercentages : List (F64 × Nat) :=
      [(F64.ofNat 19, h.Histograms.BelowMinIopsPercentages.Bucket1To19),
       (F64.ofNat 39, h.Histograms.BelowMinIopsPercentages.Bucket20To39),
       (F64.ofNat 59, h.Histograms.BelowMinIopsPercentages.Bucket40To59),
       (F64.ofNat 79, h.Histograms.BelowMinIopsPercentages.Bucket60To79),
       (F64.ofNat 100, h.Histograms.BelowMinIopsPercentages.Bucket80To100)]
    let MinToMaxIopsPercentages : List (F64 × Nat) :=
      [(F64.ofNat 19, h.Histograms.MinToMaxIopsPercentages.Bucket1To19),
       (F64.ofNat 39, h.Histograms.MinToMaxIopsPercentages.Bucket20To39),
       (F64.ofNat 59, h.Histograms.MinToMaxIopsPercentages.Bucket40To59),
       (F64.ofNat 79, h.Histograms.MinToMaxIopsPercentages.Bucket60To79),
       (F64.ofNat 100, h.Histograms.MinToMaxIopsPercentages.Bucket80To100),
       (F64.posInf, h.Histograms.MinToMaxIopsPercentages.Bucket101Plus)]
    let ReadBlockSizes := blockSizeMap h.Histograms.ReadBlockSizes
    let TargetUtilizationPercentages : List (F64 × Nat) :=
      [(F64.ofNat 0, h.Histograms.TargetUtilizationPercentages.Bucket0),
       (F64.ofNat 19, h.Histograms.TargetUtilizationPercentages.Bucket1To19),
       (F64.ofNat 39, h.Histograms.TargetUtilizationPercentages.Bucket20To39),
       (F64.ofNat 59, h.Histograms.TargetUtilizationPercentages.Bucket40To59),
       (F64.ofNat 79, h.Histograms.TargetUtilizationPercentages.Bucket60To79),
       (F64.ofNat 100, h.Histograms.TargetUtilizationPercentages.Bucket80To100),
       (F64.posInf, h.Histograms.TargetUtilizationPercentages.Bucket101Plus)]
    let ThrottlePercentages : List (F64 × Nat) :=
      [(F64.ofNat 0, h.Histograms.ThrottlePercentages.Bucket0),
       (F64.ofNat 19, h.Histograms.ThrottlePercentages.Bucket1To19),
       (F64.ofNat 39, h.Histograms.ThrottlePercentages.Bucket20To39),
       (F64.ofNat 59, h.Histograms.ThrottlePercentages.Bucket40To59),
       (F64.ofNat 79, h.Histograms.ThrottlePercentages.Bucket60To79),
       (F64.ofNat 100, h.Histograms.ThrottlePercentages.Bucket80To100)]
    let WriteBlockSizes := blockSizeMap h.Histograms.WriteBlockSizes
    [Metric.histogram .VolumeQoSBelowMinIopsPercentagesHistogram 0
       (F64.ofNat (sumHistogram BelowMinIopsPercentages)) BelowMinIopsPercentages values,
     Metric.histogram .VolumeQoSMinToMaxIopsPercentagesHistogram 0
       (F64.ofNat (sumHistogram MinToMaxIopsPercentages)) MinToMaxIopsPercentages values,
     Metric.histogram .VolumeQoSReadBlockSizesHistogram 0
       (F64.ofNat (sumHistogram ReadBlockSizes)) ReadBlockSizes values,
     Metric.histogram .VolumeQoSTargetUtilizationPercentagesHistogram 0
       (F64.ofNat (sumHistogram TargetUtilizationPercentages)) TargetUtilizationPercentages
       values,
     Metric.histogram .VolumeQoSThrottlePercentagesHistogram 0
       (F64.ofNat (sumHistogram ThrottlePercentages)) ThrottlePercentages values,
     Metric.histogram .VolumeQoSWriteBlockSizesHistogram 0
       (F64.ofNat (sumHistogram WriteBlockSizes)) WriteBlockSizes values]

/-- The method `collectVolumeQosHistograms`: `resp` is what
`ListVolumeQoSHistograms` returned. -/
def collectVolumeQosHistograms (c : SolidfireCollector)
    (resp : Except GoError (List QosHistogram)) : Except GoError (List Metric) :=
  match resp with
  | .error err => .error err
  | .ok qosHistograms => .ok (qosHistograms.flatMap (volumeQosBody c))

/-! ## strCompare and collectClusterFullThreshold -/

/-- Go's `strings.ToLower` on a valid UTF-8 string: every rune is mapped by
`unicode.ToLower`, which is the parameter `toLowerRune`. -/
def ToLower (toLowerRune : Char → Char) (s : String) : String :=
  String.mk (s.data.map toLowerRune)

/-- Go's `strings.Compare`. -/
def Compare (a b : String) : Int :=
  if a = b then 0 else if a < b then -1 else 1

/-- The function `strCompare`. -/
def strCompare (toLowerRune : Char → Char) (str1 str2 : String) : Int :=
  if Compare (ToLower toLowerRune str1) (ToLower toLowerRune str2) = 0 then 1 else 0

/-- The fields of `clusterFullThreshold.Result` the collector reads. -/
structure ClusterFullThreshold where
  BlockFullness : String
  Fullness : String
  MaxMetadataOverProvisionFactor : F64
  MetadataFullness : String
  SliceReserveUsedThresholdPct : F64
  Stage2AwareThreshold : F64
  Stage2BlockThresholdBytes : F64
  Stage3BlockThresholdBytes : F64
  Stage3BlockThresholdPercent : F64
  Stage3LowThreshold : F64
  Stage4BlockThresholdBytes : F64
  Stage4CriticalThreshold : F64
  Stage5BlockThresholdBytes : F64
  SumTotalClusterBytes : F64
  SumTotalMetadataClusterBytes : F64
  SumUsedClusterBytes : F64
  SumUsedMetadataClusterBytes : F64
  deriving DecidableEq, Repr

/-- The method `collectClusterFullThreshold`: `resp` is what
`GetClusterFullThreshold` returned. -/
def collectClusterFullThreshold (toLowerRune : Char → Char)
    (resp : Except GoError ClusterFullThreshold) : Except GoError (List Metric) :=
  match resp with
  | .error err => .error err
  | .ok r =>
    .ok [
      Metric.const .ClusterBlockFullness .GaugeValue
        (F64.ofInt (strCompare toLowerRune r.BlockFullness "stage1Happy")) ["stage1Happy"],
      Metric.const .ClusterBlockFullness .GaugeValue
        (F64.ofInt (strCompare toLowerRune r.BlockFullness "stage2Aware")) ["stage2Aware"],
      Metric.const .ClusterBlockFullness .GaugeValue
        (F64.ofInt (strCompare toLowerRune r.BlockFullness "stage3Low")) ["stage3Low"],
      Metric.const .ClusterBlockFullness .GaugeValue
        (F64.ofInt (strCompare toLowerRune r.BlockFullness "stage4Critical")) ["stage4Critical"],
      Metric.const .ClusterBlockFullness .GaugeValue
        (F64.ofInt (strCompare toLowerRune r.BlockFullness "stage5CompletelyConsumed"))
        ["stage5CompletelyConsumed"],
      Metric.const .ClusterFullness .GaugeValue
        (F64.ofInt (strCompare toLowerRune r.Fullness "blockFullness")) ["blockFullness"],
      Metric.const .ClusterFullness .GaugeValue
        (F64.ofInt (strCompare toLowerRune r.Fullness "metadataFullness")) ["metadataFullness"],
      Metric.const .ClusterMaxMetadataOverProvisionFactor .GaugeValue
        r.MaxMetadataOverProvisionFactor [],
      Metric.const .ClusterMetadataFullness .GaugeValue
        (F64.ofInt (strCompare toLowerRune r.MetadataFullness "stage1Happy")) ["stage1Happy"],
      Metric.const .ClusterMetadataFullness .GaugeValue
        (F64.ofInt (strCompare toLowerRune r.MetadataFullness "stage2Aware")) ["stage2Aware"],
      Metric.const .ClusterMetadataFullness .GaugeValue
        (F64.ofInt (strCompare toLowerRune r.MetadataFullness "stage3Low")) ["stage3Low"],
      Metric.const .ClusterMetadataFullness .GaugeValue
        (F64.ofInt (strCompare toLowerRune r.MetadataFullness "stage4Critical"))
        ["stage4Critical"],
      Metric.const .ClusterMetadataFullness .GaugeValue
        (F64.ofInt (strCompare toLowerRune r.MetadataFullness "stage5CompletelyConsumed"))
        ["stage5CompletelyConsumed"],
      Metric.const .ClusterSliceReserveUsedThresholdPercentage .GaugeValue
        r.SliceReserveUsedThresholdPct [],
      Metric.const .ClusterStage2AwareThresholdPercentage .GaugeValue r.Stage2AwareThreshold [],
      Metric.const .ClusterStage2BlockThresholdBytes .GaugeValue r.Stage2BlockThresholdBytes [],
      Metric.const .ClusterStage3BlockThresholdBytes .GaugeValue r.Stage3BlockThresholdBytes [],
      Metric.const .ClusterStage3BlockThresholdPercentage .GaugeValue
        r.Stage3BlockThresholdPercent [],
      Metric.const .ClusterStage3LowThresholdPercentage .GaugeValue r.Stage3LowThreshold [],
      Metric.const .ClusterStage4BlockThresholdBytes .GaugeValue r.Stage4BlockThresholdBytes [],
      Metric.const .ClusterStage4CriticalThreshold .GaugeValue r.Stage4CriticalThreshold [],
      Metric.const .ClusterStage5BlockThresholdBytes .GaugeValue r.Stage5BlockThresholdBytes [],
      Metric.const .ClusterTotalBytes .GaugeValue r.SumTotalClusterBytes [],
      Metric.const .ClusterTotalMetadataBytes .GaugeValue r.SumTotalMetadataClusterBytes [],
      Metric.const .ClusterUsedBytes .GaugeValue r.SumUsedClusterBytes [],
      Metric.const .ClusterUsedMetadataBytes .GaugeValue r.SumUsedMetadataClusterBytes []]

/-- The five fullness stages the collector compares a fullness label with, in
the order of its samples. -/
def fullnessStages : List String :=
  ["stage1Happy", "stage2Aware", "stage3Low", "stage4Critical", "stage5CompletelyConsumed"]

/-- The label values and values of the constant samples sent for the descriptor
`d`, in the order they were sent. -/
def samplesOf (d : Desc) : List Metric → List (List String × F64)
  | [] => []
  | Metric.const d0 _ v l :: ms => if d0 = d then (l, v) :: samplesOf d ms else samplesOf d ms
  | Metric.histogram _ _ _ _ _ :: ms => samplesOf d ms

/-! ## collectAsyncResults -/

/-- The fields of an element of `ar.Result.AsyncHandles` the collector reads;
`AsyncResultID` is an `int64`. -/
structure AsyncHandle where
  AsyncResultID : Int
  Completed : Bool
  Success : Bool
  ResultType : String
  deriving DecidableEq, Repr

/-- The locals `maxAsyncResultID`, `activeAsyncResults` and `allAsyncResults`
of `collectAsyncResults`. -/
structure AsyncState where
  maxAsyncResultID : Int
  activeAsyncResults : List (String × Int)
  allAsyncResults : List (String × Int)
  deriving DecidableEq, Repr

/-- Body of the first loop of `collectAsyncResults`. -/
def asyncStep (st : AsyncState) (v : AsyncHandle) : AsyncState :=
  let allAsyncResults := mapIncr st.allAsyncResults v.ResultType
  let activeAsyncResults :=
    if !v.Completed && !v.Success then mapIncr st.activeAsyncResults v.ResultType
    else st.activeAsyncResults
  let maxAsyncResultID :=
    if v.AsyncResultID > st.maxAsyncResultID then v.AsyncResultID else st.maxAsyncResultID
  { maxAsyncResultID := maxAsyncResultID, activeAsyncResults := activeAsyncResults,
    allAsyncResults := allAsyncResults }

/-- The local `types` of `collectAsyncResults`. -/
def asyncTypes : List String :=
  ["DriveAdd", "BulkVolume", "Clone", "DriveRemoval", "RtfiPendingNode"]

/-- Body of the second loop of `collectAsyncResults`. -/
def asyncEnsure (st : AsyncState) (t : String) : AsyncState :=
  { st with
    activeAsyncResults := mapEnsure st.activeAsyncResults t,
    allAsyncResults := mapEnsure st.allAsyncResults t }

/-- The locals of `collectAsyncResults` after its first two loops. -/
def asyncMaps (handles : List AsyncHandle) : AsyncState :=
  asyncTypes.foldl asyncEnsure
    (handles.foldl asyncStep
      { maxAsyncResultID := 0, activeAsyncResults := [], allAsyncResults := [] })

/-- The method `collectAsyncResults`: `resp` is what `ListAsyncResults`
returned. -/
def collectAsyncResults (resp : Except GoError (List AsyncHandle)) :
    Except GoError (List Metric) :=
  match resp with
  | .error err => .error err
  | .ok handles =>
    let st := asyncMaps handles
    .ok ((st.activeAsyncResults.map fun (k, v) =>
            Metric.const .AsyncResultsActive .GaugeValue (F64.ofInt v) [k]) ++
         (st.allAsyncResults.map fun (k, v) =>
            Metric.const .AsyncResults .GaugeValue (F64.ofInt v) [k]) ++
         [Metric.const .MaxAsyncResultID .GaugeValue (F64.ofInt st.maxAsyncResultID) []])

/-! ## collectNodeMeta -/

/-- The field `PlatformInfo` of a node, as far as the collector reads it. -/
structure PlatformInfo where
  ChassisType : String
  CPUModel : String
  NodeType : String
  PlatformConfigVersion : String
  NodeMemoryGB : F64
  deriving DecidableEq, Repr

/-- The fields of an element of `nodes.Result.Nodes` the collector reads. -/
structure Node where
  NodeID : Int
  Name : String
  ChassisName : String
  AssociatedFServiceID : Int
  AssociatedMasterServiceID : Int
  PlatformInfo : PlatformInfo
  Sip : String
  Sipi : String
  SoftwareVersion : String
  UUID : String
  deriving DecidableEq, Repr

/-- The two samples the loop of `collectNodeMeta` sends for one node. -/
def nodeMetaSamples (node : Node) : List Metric :=
  [Metric.const .NodeInfo .GaugeValue F64.one
     [Itoa node.NodeID, node.Name, node.ChassisName, Itoa node.AssociatedFServiceID,
      Itoa node.AssociatedMasterServiceID, node.PlatformInfo.ChassisType,
      node.PlatformInfo.CPUModel, node.PlatformInfo.NodeType,
      node.PlatformInfo.PlatformConfigVersion, node.Sip, node.Sipi, node.SoftwareVersion,
      node.UUID],
   Metric.const .NodeTotalMemoryBytes .GaugeValue
     (GigabytesToBytes node.PlatformInfo.NodeMemoryGB) [Itoa node.NodeID, node.Name]]

/-- The loop of `collectNodeMeta`: the cache after the nodes have been visited
in order, and the samples sent. -/
def nodeMetaLoop (c : SolidfireCollector) : List Node → SolidfireCollector × List Metric
  | [] => (c, [])
  | node :: rest =>
    let r := nodeMetaLoop (c.setNodeName node.NodeID node.Name) rest
    (r.1, nodeMetaSamples node ++ r.2)

/-- The method `collectNodeMeta`: `resp` is what `ListAllNodes` returned; the
result is the error returned, or the updated collector and the samples sent. -/
def collectNodeMeta (c : SolidfireCollector) (resp : Except GoError (List Node)) :
    Except GoError (SolidfireCollector × List Metric) :=
  match resp with
  | .error err => .error err
  | .ok nodes => .ok (nodeMetaLoop c nodes)

/-! ## collectClusterFaults -/

/-- The fields of an element of `ClusterActiveFaults.Result.Faults` the
collector reads; `Type_` is the Go field `Type`. -/
structure Fault where
  NodeID : Int
  Code : String
  Severity : String
  Type_ : String
  ServiceID : F64
  Resolved : Bool
  NodeHardwareFaultID : F64
  DriveID : F64
  Details : String
  deriving DecidableEq, Repr

/-- Go's `strconv.FormatBool`. -/
def FormatBool (b : Bool) : String := if b then "true" else "false"

/-- The method `collectClusterFaults`: `resp` is what `ListClusterFaults`
returned and `sprintfF` is Go's `fmt.Sprintf("%f", x)` on a `float64`. -/
def collectClusterFaults (sprintfF : F64 → String) (c : SolidfireCollector)
    (resp : Except GoError (List Fault)) : Except GoError (List Metric) :=
  match resp with
  | .error err => .error err
  | .ok faults =>
    .ok (faults.map fun f =>
      Metric.const .ClusterActiveFaults .GaugeValue F64.one
        [Itoa f.NodeID, c.nodeNameAt f.NodeID, f.Code, f.Severity, f.Type_,
         sprintfF f.ServiceID, FormatBool f.Resolved, sprintfF f.NodeHardwareFaultID,
         sprintfF f.DriveID, f.Details])

/-! ## collectClusterNodeStats -/

/-- The fields of an element of `ClusterNodeStats.Result.NodeStats.Nodes` the
collector reads; `Count` is a `uint64`. -/
structure NodeStats where
  NodeID : Int
  Count : Nat
  SsLoadHistogram : PercentBuckets
  CBytesIn : F64
  CBytesOut : F64
  CPU : F64
  CPUTotal : F64
  MBytesIn : F64
  MBytesOut : F64
  NetworkUtilizationCluster : F64
  NetworkUtilizationStorage : F64
  ReadLatencyUSecTotal : F64
  SBytesIn : F64
  SBytesOut : F64
  UsedMemory : F64
  WriteLatencyUSecTotal : F64
  deriving DecidableEq, Repr

/-- The map literal `SsLoadHistogram` of `collectClusterNodeStats`. -/
def ssLoadHistogramMap (h : PercentBuckets) : List (F64 × Nat) :=
  [(F64.ofNat 0, h.Bucket0),
   (F64.ofNat 19, h.Bucket1To19),
   (F64.ofNat 39, h.Bucket20To39),
   (F64.ofNat 59, h.Bucket40To59),
   (F64.ofNat 79, h.Bucket60To79),
   (F64.ofNat 100, h.Bucket80To100)]

/-- Body of the loop of `collectClusterNodeStats`: the samples sent for one
node. -/
def nodeStatsBody (c : SolidfireCollector) (stats : NodeStats) : List Metric :=
  let SsLoadHistogram := ssLoadHistogramMap stats.SsLoadHistogram
  let id := Itoa stats.NodeID
  let name := c.nodeNameAt stats.NodeID
  [Metric.histogram .NodeLoadHistogram stats.Count (F64.ofNat (sumHistogram SsLoadHistogram))
     SsLoadHistogram [id, name],
   Metric.const .NodeInterfaceInBytesTotal .CounterValue stats.CBytesIn [id, name, "cluster"],
   Metric.const .NodeInterfaceOutBytesTotal .CounterValue stats.CBytesOut [id, name, "cluster"],
   Metric.const .NodeSamples .GaugeValue (F64.ofNat stats.Count) [id, name],
   Metric.const .NodeCPUPercentage .GaugeValue stats.CPU [id, name],
   Metric.const .NodeCPUSecondsTotal .CounterValue stats.CPUTotal [id, name],
   Metric.const .NodeInterfaceInBytesTotal .CounterValue stats.MBytesIn [id, name, "management"],
   Metric.const .NodeInterfaceOutBytesTotal .CounterValue stats.MBytesOut
     [id, name, "management"],
   Metric.const .NodeInterfaceUtilizationPercentage .GaugeValue stats.NetworkUtilizationCluster
     [id, name, "cluster"],
   Metric.const .NodeInterfaceUtilizationPercentage .GaugeValue stats.NetworkUtilizationStorage
     [id, name, "storage"],
   Metric.const .NodeReadLatencyTotal .CounterValue
     (MicrosecondsToSeconds stats.ReadLatencyUSecTotal) [id, name],
   Metric.const .NodeInterfaceInBytesTotal .CounterValue stats.SBytesIn [id, name, "storage"],
   Metric.const .NodeInterfaceOutBytesTotal .CounterValue stats.SBytesOut [id, name, "storage"],
   Metric.const .NodeUsedMemoryBytes .GaugeValue stats.UsedMemory [id, name],
   Metric.const .NodeWriteLatencyTotal .CounterValue
     (MicrosecondsToSeconds stats.WriteLatencyUSecTotal) [id, name]]

/-- The method `collectClusterNodeStats`: `resp` is what `ListNodeStats`
returned. -/
def collectClusterNodeStats (c : SolidfireCollector) (resp : Except GoError (List NodeStats)) :
    Except GoError (List Metric) :=
  match resp with
  | .error err => .error err
  | .ok nodes => .ok (nodes.flatMap (nodeStatsBody c))

/-! ## collectClusterStats -/

/-- The fields of `clusterStats.Result.ClusterStats` the collector reads. -/
structure ClusterStats where
  ActualIOPS : F64
  AverageIOPSize : F64
  ClientQueueDepth : F64
  ClusterUtilization : F64
  LatencyUSec : F64
  NormalizedIOPS : F64
  ReadBytes : F64
  ReadBytesLastSample : F64
  ReadLatencyUSec : F64
  ReadLatencyUSecTotal : F64
  ReadOps : F64
  ReadOpsLastSample : F64
  SamplePeriodMsec : F64
  ServicesCount : F64
  ServicesTotal : F64
  UnalignedReads : F64
  UnalignedWrites : F64
  WriteBytes : F64
  WriteBytesLastSample : F64
  WriteLatencyUSec : F64
  WriteLatencyUSecTotal : F64
  WriteOps : F64
  WriteOpsLastSample : F64
  deriving DecidableEq, Repr

/-- The method `collectClusterStats`: `resp` is what `GetClusterStats`
returned. -/
def collectClusterStats (resp : Except GoError ClusterStats) : Except GoError (List Metric) :=
  match resp with
  | .error err => .error err
  | .ok s =>
    .ok [
      Metric.const .ClusterActualIOPS .GaugeValue s.ActualIOPS [],
      Metric.const .ClusterAverageIOBytes .GaugeValue s.AverageIOPSize [],
      Metric.const .ClusterClientQueueDepth .GaugeValue s.ClientQueueDepth [],
      Metric.const .ClusterThroughputUtilization .GaugeValue s.ClusterUtilization [],
      Metric.const .ClusterLatencySeconds .GaugeValue (MicrosecondsToSeconds s.LatencyUSec) [],
      Metric.const .ClusterNormalizedIOPS .GaugeValue s.NormalizedIOPS [],
      Metric.const .ClusterReadBytesTotal .CounterValue s.ReadBytes [],
      Metric.const .ClusterLastSampleReadBytes .GaugeValue s.ReadBytesLastSample [],
      Metric.const .ClusterReadLatencySeconds .GaugeValue (MicrosecondsToSeconds s.ReadLatencyUSec) [],
      Metric.const .ClusterReadLatencyTotal .CounterValue (MicrosecondsToSeconds s.ReadLatencyUSecTotal) [],
      Metric.const .ClusterReadOpsTotal .CounterValue s.ReadOps [],
      Metric.const .ClusterLastSampleReadOps .GaugeValue s.ReadOpsLastSample [],
      Metric.const .ClusterSamplePeriodSeconds .GaugeValue (MillisecondsToSeconds s.SamplePeriodMsec) [],
      Metric.const .ClusterServices .GaugeValue s.ServicesCount [],
      Metric.const .ClusterExpectedServices .GaugeValue s.ServicesTotal [],
      Metric.const .ClusterUnalignedReadsTotal .CounterValue s.UnalignedReads [],
      Metric.const .ClusterUnalignedWritesTotal .CounterValue s.UnalignedWrites [],
      Metric.const .ClusterWriteBytesTotal .CounterValue s.WriteBytes [],
      Metric.const .ClusterLastSampleWriteBytes .GaugeValue s.WriteBytesLastSample [],
      Metric.const .ClusterWriteLatency .GaugeValue (MicrosecondsToSeconds s.WriteLatencyUSec) [],
      Metric.const .ClusterWriteLatencyTotal .CounterValue (MicrosecondsToSeconds s.WriteLatencyUSecTotal) [],
      Metric.const .ClusterWriteOpsTotal .CounterValue s.WriteOps [],
      Metric.const .ClusterLastSampleWriteOps .GaugeValue s.WriteOpsLastSample []]

/-! ## collectDriveDetails -/

/-- The variable `possibleDriveStatuses`. -/
def possibleDriveStatuses : List String :=
  ["active", "available", "erasing", "failed", "removing"]

/-- The fields of an element of `ListDrives.Result.Drives` the collector reads;
`Type_` is the Go field `Type`. -/
structure Drive where
  NodeID : Int
  DriveID : Int
  Serial : String
  Slot : Int
  Status : String
  Type_ : String
  Capacity : F64
  deriving DecidableEq, Repr

/-- Body of the inner loop of `collectDriveDetails`: the status sample for the
drive `d` and the status `ds`. -/
def driveStatusSample (c : SolidfireCollector) (d : Drive) (ds : String) : Metric :=
  let driveStatusValue : F64 := F64.zero
  let driveStatusValue := if ds = d.Status then F64.one else driveStatusValue
  Metric.const .DriveStatus .GaugeValue driveStatusValue
    [Itoa d.NodeID, c.nodeNameAt d.NodeID, Itoa d.DriveID, d.Serial, Itoa d.Slot, ds, d.Type_]

/-- Body of the outer loop of `collectDriveDetails`: the samples sent for one
drive. -/
def driveBody (c : SolidfireCollector) (d : Drive) : List Metric :=
  possibleDriveStatuses.map (driveStatusSample c d) ++
    [Metric.const .DriveCapacityBytes .GaugeValue d.Capacity
      [Itoa d.NodeID, c.nodeNameAt d.NodeID, Itoa d.DriveID, d.Serial, Itoa d.Slot, d.Type_]]

/-- The method `collectDriveDetails`: `resp` is what `ListDrives` returned. -/
def collectDriveDetails (c : SolidfireCollector) (resp : Except GoError (List Drive)) :
    Except GoError (List Metric) :=
  match resp with
  | .error err => .error err
  | .ok drives => .ok (drives.flatMap (driveBody c))

/-! ## collectISCSISessions and the count collectors -/

/-- The statement `sessions[k]++` on a `map[int]float64`, the map being the list
of its entries in order of first insertion. -/
def sessionsIncr (m : List (Int × F64)) (k : Int) : List (Int × F64) :=
  match m with
  | [] => [(k, F64.add F64.zero F64.one)]
  | (k0, v) :: rest =>
    if k0 = k then (k0, F64.add v F64.one) :: rest else (k0, v) :: sessionsIncr rest k

/-- The method `collectISCSISessions`: `resp` is what `ListISCSISessions`
returned, each session given by its `NodeID`. -/
def collectISCSISessions (c : SolidfireCollector) (resp : Except GoError (List Int)) :
    Except GoError (List Metric) :=
  match resp with
  | .error err => .error err
  | .ok sessionNodeIDs =>
    let sessions := sessionNodeIDs.foldl sessionsIncr []
    .ok (sessions.map fun (node, val) =>
      Metric.const .NodeISCSISessions .GaugeValue val [Itoa node, c.nodeNameAt node])

/-- The five collectors that send one sample, `float64(len(list))`:
`collectAccounts`, `collectInitiators`, `collectVolumeAccessGroups`,
`collectVirtualVolumeTasks` and `collectBulkVolumeJobs`; `resp` is the length of
the list the client returned. -/
def collectCount (desc : Desc) (resp : Except GoError Nat) : Except GoError (List Metric) :=
  match resp with
  | .error err => .error err
  | .ok len => .ok [Metric.const desc .CounterValue (F64.ofNat len) []]

/-- The method `collectAccounts`. -/
def collectAccounts := collectCount .AccountCount

/-- The method `collectInitiators`. -/
def collectInitiators := collectCount .InitiatorCount

/-- The method `collectVolumeAccessGroups`. -/
def collectVolumeAccessGroups := collectCount .VolumeAccessGroupCount

/-- The method `collectVirtualVolumeTasks`. -/
def collectVirtualVolumeTasks := collectCount .VirtualVolumeTasks

/-- The method `collectBulkVolumeJobs`. -/
def collectBulkVolumeJobs := collectCount .BulkVolumeJobs

/-! ## Describe -/

/-- The method `Describe`: the descriptors it sends, in order. -/
def Describe : List Desc :=
  [Desc.upDesc, Desc.VolumeActualIOPS, Desc.VolumeAverageIOPSizeBytes,
   Desc.VolumeBurstIOPSCredit, Desc.VolumeClientQueueDepth, Desc.VolumeLatencySeconds,
   Desc.VolumeNonZeroBlocks, Desc.VolumeReadBytesTotal, Desc.VolumeReadLatencySecondsTotal,
   Desc.VolumeReadOpsTotal, Desc.VolumeThrottle, Desc.VolumeUnalignedReadsTotal,
   Desc.VolumeUnalignedWritesTotal, Desc.VolumeSizeBytes, Desc.VolumeUtilization,
   Desc.VolumeWriteBytesTotal, Desc.VolumeWriteLatencyTotal, Desc.VolumeWriteOpsTotal,
   Desc.VolumeStatsZeroBlocks, Desc.ClusterActiveBlockSpaceBytes, Desc.ClusterActiveSessions,
   Desc.ClusterAverageIOPS, Desc.ClusterClusterRecentIOSizeBytes, Desc.ClusterCurrentIOPS,
   Desc.ClusterMaxIOPS, Desc.ClusterMaxOverProvisionableSpaceBytes,
   Desc.ClusterMaxProvisionedSpaceBytes, Desc.ClusterMaxUsedMetadataSpaceBytes,
   Desc.ClusterMaxUsedSpaceBytes, Desc.ClusterNonZeroBlocks, Desc.ClusterPeakActiveSessions,
   Desc.ClusterPeakIOPS, Desc.ClusterProvisionedSpaceBytes, Desc.ClusterSnapshotNonZeroBlocks,
   Desc.ClusterIOPSTotal, Desc.ClusterUniqueBlocks, Desc.ClusterUniqueBlocksUsedSpaceBytes,
   Desc.ClusterUsedMetadataSpaceBytes, Desc.ClusterUsedMetadataSpaceInSnapshotsBytes,
   Desc.ClusterUsedSpaceBytes, Desc.ClusterZeroBlocks, Desc.ClusterThinProvisioningFactor,
   Desc.ClusterDeDuplicationFactor, Desc.ClusterCompressionFactor, Desc.ClusterEfficiencyFactor,
   Desc.ClusterActiveFaults, Desc.NodeSamples, Desc.NodeCPUPercentage, Desc.NodeCPUSecondsTotal,
   Desc.NodeInterfaceInBytesTotal, Desc.NodeInterfaceOutBytesTotal,
   Desc.NodeInterfaceUtilizationPercentage, Desc.NodeReadLatencyTotal, Desc.NodeUsedMemoryBytes,
   Desc.NodeWriteLatencyTotal, Desc.NodeLoadHistogram, Desc.NodeInfo, Desc.ClusterActualIOPS,
   Desc.ClusterAverageIOBytes, Desc.ClusterClientQueueDepth, Desc.ClusterThroughputUtilization,
   Desc.ClusterLatencySeconds, Desc.ClusterNormalizedIOPS, Desc.ClusterReadBytesTotal,
   Desc.ClusterLastSampleReadBytes, Desc.ClusterReadLatencySeconds, Desc.ClusterReadLatencyTotal,
   Desc.ClusterReadOpsTotal, Desc.ClusterLastSampleReadOps, Desc.ClusterSamplePeriodSeconds,
   Desc.ClusterServices, Desc.ClusterExpectedServices, Desc.ClusterUnalignedReadsTotal,
   Desc.ClusterUnalignedWritesTotal, Desc.ClusterWriteBytesTotal,
   Desc.ClusterLastSampleWriteBytes, Desc.ClusterWriteLatency, Desc.ClusterWriteLatencyTotal,
   Desc.ClusterWriteOpsTotal, Desc.ClusterLastSampleWriteOps, Desc.ClusterBlockFullness,
   Desc.ClusterFullness, Desc.ClusterMaxMetadataOverProvisionFactor,
   Desc.ClusterMetadataFullness, Desc.ClusterSliceReserveUsedThresholdPercentage,
   Desc.ClusterStage2AwareThresholdPercentage, Desc.ClusterStage2BlockThresholdBytes,
   Desc.ClusterStage3BlockThresholdBytes, Desc.ClusterStage3BlockThresholdPercentage,
   Desc.ClusterStage3LowThresholdPercentage, Desc.ClusterStage4BlockThresholdBytes,
   Desc.ClusterStage4CriticalThreshold, Desc.ClusterStage5BlockThresholdBytes,
   Desc.ClusterTotalBytes, Desc.ClusterTotalMetadataBytes, Desc.ClusterUsedBytes,
   Desc.ClusterUsedMetadataBytes, Desc.DriveStatus, Desc.DriveCapacityBytes,
   Desc.NodeISCSISessions, Desc.VolumeCount, Desc.AccountCount, Desc.ClusterAdminCount,
   Desc.InitiatorCount, Desc.VolumeAccessGroupCount, Desc.VirtualVolumeTasks,
   Desc.BulkVolumeJobs, Desc.AsyncResultsActive, Desc.AsyncResults, Desc.MaxAsyncResultID]

/-! ## Collect -/

/-- The methods of the client (`solidfire.Interface`) the collector calls. -/
inductive RPC where
  | ListVolumes | ListAllNodes | ListVolumeStats | GetClusterCapacity | ListClusterFaults
  | ListNodeStats | ListVolumeQoSHistograms | GetClusterStats | GetClusterFullThreshold
  | ListDrives | ListISCSISessions | ListAccounts | ListInitiators | ListVolumeAccessGroups
  | ListVirtualVolumeTasks | ListBulkVolumeJobs | ListAsyncResults
  deriving DecidableEq, Repr

/-- What each method of the client returns when it is called during one
`Collect`: the decoded result, or the error.  The count collectors read only
the length of the list returned. -/
structure Client where
  ListVolumes : Except GoError (List Volume)
  ListAllNodes : Except GoError (List Node)
  ListVolumeStats : Except GoError (List VolumeStats)
  GetClusterCapacity : Except GoError ClusterCapacity
  ListClusterFaults : Except GoError (List Fault)
  ListNodeStats : Except GoError (List NodeStats)
  ListVolumeQoSHistograms : Except GoError (List QosHistogram)
  GetClusterStats : Except GoError ClusterStats
  GetClusterFullThreshold : Except GoError ClusterFullThreshold
  ListDrives : Except GoError (List Drive)
  ListISCSISessions : Except GoError (List Int)
  ListAccounts : Except GoError Nat
  ListInitiators : Except GoError Nat
  ListVolumeAccessGroups : Except GoError Nat
  ListVirtualVolumeTasks : Except GoError Nat
  ListBulkVolumeJobs : Except GoError Nat
  ListAsyncResults : Except GoError (List AsyncHandle)

/-- What a task given to `errgroup.Group.Go` did: the client method it called,
and the error it returned or the samples it sent.  Every collector returns its
error before it sends anything. -/
structure Task where
  query : RPC
  result : Except GoError (List Metric)

/-- The samples a task sent. -/
def Task.sent (t : Task) : List Metric :=
  match t.result with
  | .ok ms => ms
  | .error _ => []

/-- The task returned a non-nil error. -/
def Task.failed (t : Task) : Bool :=
  match t.result with
  | .ok _ => false
  | .error _ => true

/-- The test `err != nil` on what `errgroup.Group.Wait` returns: `Wait` blocks
until every task has returned and yields an error if one of them did. -/
def waitFailed (group : List Task) : Bool := group.any Task.failed

/-- The tasks of `metadataGroup`, and the collector once both have returned.
The two tasks write different maps under the mutex, so the order in which they
run does not change the maps. -/
def metadataGroup (c : SolidfireCollector) (client : Client) : SolidfireCollector × List Task :=
  let volumeMeta := collectVolumeMeta c client.ListVolumes
  let c1 := match volumeMeta with
    | .ok r => r.1
    | .error _ => c
  let nodeMeta := collectNodeMeta c1 client.ListAllNodes
  let c2 := match nodeMeta with
    | .ok r => r.1
    | .error _ => c1
  (c2, [{ query := .ListVolumes, result := volumeMeta.map Prod.snd },
        { query := .ListAllNodes, result := nodeMeta.map Prod.snd }])

/-- The tasks of `metricsGroup`, in the order `Collect` starts them; they read
the maps of `c` and do not write them. -/
def metricsGroup (toLowerRune : Char → Char) (sprintfF : F64 → String)
    (c : SolidfireCollector) (client : Client) : List Task :=
  [{ query := .ListVolumeStats, result := collectVolumeStats c client.ListVolumeStats },
   { query := .GetClusterCapacity, result := collectClusterCapacity client.GetClusterCapacity },
   { query := .ListClusterFaults,
     result := collectClusterFaults sprintfF c client.ListClusterFaults },
   { query := .ListNodeStats, result := collectClusterNodeStats c client.ListNodeStats },
   { query := .ListVolumeQoSHistograms,
     result := collectVolumeQosHistograms c client.ListVolumeQoSHistograms },
   { query := .GetClusterStats, result := collectClusterStats client.GetClusterStats },
   { query := .GetClusterFullThreshold,
     result := collectClusterFullThreshold toLowerRune client.GetClusterFullThreshold },
   { query := .ListDrives, result := collectDriveDetails c client.ListDrives },
   { query := .ListISCSISessions, result := collectISCSISessions c client.ListISCSISessions },
   { query := .ListAccounts, result := collectAccounts client.ListAccounts },
   { query := .ListInitiators, result := collectInitiators client.ListInitiators },
   { query := .ListVolumeAccessGroups,
     result := collectVolumeAccessGroups client.ListVolumeAccessGroups },
   { query := .ListVirtualVolumeTasks,
     result := collectVirtualVolumeTasks client.ListVirtualVolumeTasks },
   { query := .ListBulkVolumeJobs, result := collectBulkVolumeJobs client.ListBulkVolumeJobs },
   { query := .ListAsyncResults, result := collectAsyncResults client.ListAsyncResults }]

/-- The liveness sample the deferred function of `Collect` sends. -/
def upSample (up : F64) : Metric := Metric.const .upDesc .GaugeValue up []

/-- One run of `Collect`: the collector afterwards, the tasks started in each
group, and the value of `up` when `Collect` returns. -/
structure CollectRun where
  collector : SolidfireCollector
  metadataTasks : List Task
  metricsTasks : List Task
  up : F64

/-- The method `Collect`, up to the order in which the concurrent tasks of a
group send their samples. -/
def Collect (toLowerRune : Char → Char) (sprintfF : F64 → String) (c : SolidfireCollector)
    (client : Client) : CollectRun :=
  let up : F64 := F64.zero
  let (c1, metadataTasks) := metadataGroup c client
  if waitFailed metadataTasks then
    { collector := c1, metadataTasks := metadataTasks, metricsTasks := [], up := up }
  else
    let metricsTasks := metricsGroup toLowerRune sprintfF c1 client
    if waitFailed metricsTasks then
      { collector := c1, metadataTasks := metadataTasks, metricsTasks := metricsTasks, up := up }
    else
      let up := F64.one
      { collector := c1, metadataTasks := metadataTasks, metricsTasks := metricsTasks, up := up }

/-- The client methods called during a run. -/
def CollectRun.queries (r : CollectRun) : List RPC :=
  r.metadataTasks.map Task.query ++ r.metricsTasks.map Task.query

/-- The list `out` is an interleaving of the lists `ls`: it takes the elements
of each list in that list's order. -/
inductive Interleaving : List (List Metric) → List Metric → Prop where
  | done {ls : List (List Metric)} : (∀ l ∈ ls, l = []) → Interleaving ls []
  | step {pre post : List (List Metric)} {x : Metric} {xs out : List Metric} :
      Interleaving (pre ++ xs :: post) out → Interleaving (pre ++ (x :: xs) :: post) (x :: out)

/-- What a run of `Collect` can send on `ch`: some interleaving of what the
metadata tasks sent, then some interleaving of what the metrics tasks sent
(`Wait` returns after every task of the group has), then the liveness sample,
sent by the deferred function when `Collect` returns. -/
def CollectRun.Sends (r : CollectRun) (out : List Metric) : Prop :=
  ∃ p1 p2, Interleaving (r.metadataTasks.map Task.sent) p1 ∧
    Interleaving (r.metricsTasks.map Task.sent) p2 ∧ out = p1 ++ p2 ++ [upSample r.up]

/-- The samples of a run when the tasks of each group send one after the
other, in the order they were started. -/
def CollectRun.sentInOrder (r : CollectRun) : List Metric :=
  (r.metadataTasks.map Task.sent).flatten ++ (r.metricsTasks.map Task.sent).flatten ++
    [upSample r.up]

/-- The collector after a sequence of scrapes: each `Collect` starts from the
maps the previous one left. -/
def scrapes (toLowerRune : Char → Char) (sprintfF : F64 → String) (c : SolidfireCollector) :
    List Client → SolidfireCollector
  | [] => c
  | client :: rest =>
    scrapes toLowerRune sprintfF (Collect toLowerRune sprintfF c client).collector rest

/-! ## Example inputs -/

/-- The collector after `NewCollector` whose cache names volume `1` as `name`. -/
def cacheWithName (name : String) : SolidfireCollector :=
  NewCollector.setVolumeMetadata 1 { VolumeId := "1", Name := name, AccountId := "" }

/-- A statistics element for the volume `id` with every counter `0`. -/
def zeroVolumeStats (id : Int) : VolumeStats :=
  { VolumeID := id, ActualIOPS := F64.zero, AverageIOPSize := F64.zero,
    BurstIOPSCredit := F64.zero, ClientQueueDepth := F64.zero, LatencyUSec := F64.zero,
    NonZeroBlocks := F64.zero, ReadBytes := F64.zero, ReadLatencyUSecTotal := F64.zero,
    ReadOps := F64.zero, Throttle := F64.zero, UnalignedReads := F64.zero,
    UnalignedWrites := F64.zero, VolumeSize := F64.zero, VolumeUtilization := F64.zero,
    WriteBytes := F64.zero, WriteLatencyUSecTotal := F64.zero, WriteOps := F64.zero,
    ZeroBlocks := F64.zero }

/-- A QoS element for the volume `id` with every bucket `0`. -/
def zeroQosHistogram (id : Int) : QosHistogram :=
  let p : PercentBuckets :=
    { Bucket0 := 0, Bucket1To19 := 0, Bucket20To39 := 0, Bucket40To59 := 0, Bucket60To79 := 0,
      Bucket80To100 := 0, Bucket101Plus := 0 }
  let b : BlockSizeBuckets :=
    { Bucket4096To8191 := 0, Bucket8192To16383 := 0, Bucket16384To32767 := 0,
      Bucket32768To65535 := 0, Bucket65536To131071 := 0, Bucket131072Plus := 0 }
  { VolumeID := id,
    Histograms :=
      { BelowMinIopsPercentages := p, MinToMaxIopsPercentages := p, ReadBlockSizes := b,
        TargetUtilizationPercentages := p, ThrottlePercentages := p, WriteBlockSizes := b } }

/-- An async handle whose AsyncResultID is `-5`. -/
def negativeHandle : AsyncHandle :=
  { AsyncResultID := -5, Completed := false, Success := false, ResultType := "Clone" }

/-- The bucket maps of the histogram samples sent for the descriptor `d`, in
the order they were sent. -/
def bucketsOf (d : Desc) : List Metric → List (List (F64 × Nat))
  | [] => []
  | Metric.const _ _ _ _ :: ms => bucketsOf d ms
  | Metric.histogram d0 _ _ b _ :: ms => if d0 = d then b :: bucketsOf d ms else bucketsOf d ms

/-- The sample count and the bucket map of every histogram sample, in the order
they were sent. -/
def histogramCounts : List Metric → List (Nat × List (F64 × Nat))
  | [] => []
  | Metric.const _ _ _ _ :: ms => histogramCounts ms
  | Metric.histogram _ count _ b _ :: ms => (count, b) :: histogramCounts ms

/-- A QoS element for the volume `id` in which the first bucket the collector
reads of every histogram holds `5` and the others `0`. -/
def fiveQosHistogram (id : Int) : QosHistogram :=
  let p : PercentBuckets :=
    { Bucket0 := 0, Bucket1To19 := 5, Bucket20To39 := 0, Bucket40To59 := 0, Bucket60To79 := 0,
      Bucket80To100 := 0, Bucket101Plus := 0 }
  let b : BlockSizeBuckets :=
    { Bucket4096To8191 := 5, Bucket8192To16383 := 0, Bucket16384To32767 := 0,
      Bucket32768To65535 := 0, Bucket65536To131071 := 0, Bucket131072Plus := 0 }
  { VolumeID := id,
    Histograms :=
      { BelowMinIopsPercentages := p, MinToMaxIopsPercentages := p, ReadBlockSizes := b,
        TargetUtilizationPercentages := p, ThrottlePercentages := p, WriteBlockSizes := b } }

/-- A cluster every method of which succeeds and reports nothing: empty lists,
zero counters and empty strings. -/
def quietClient : Client :=
  { ListVolumes := .ok [],
    ListAllNodes := .ok [],
    ListVolumeStats := .ok [],
    GetClusterCapacity := .ok
      { ActiveBlockSpace := F64.zero, ActiveSessions := F64.zero, AverageIOPS := F64.zero,
        ClusterRecentIOSize := F64.zero, CurrentIOPS := F64.zero, MaxIOPS := F64.zero,
        MaxOverProvisionableSpace := F64.zero, MaxProvisionedSpace := F64.zero,
        MaxUsedMetadataSpace := F64.zero, MaxUsedSpace := F64.zero, NonZeroBlocks := F64.zero,
        PeakActiveSessions := F64.zero, PeakIOPS := F64.zero, ProvisionedSpace := F64.zero,
        SnapshotNonZeroBlocks := F64.zero, TotalOps := F64.zero, UniqueBlocks := F64.zero,
        UniqueBlocksUsedSpace := F64.zero, UsedMetadataSpace := F64.zero,
        UsedMetadataSpaceInSnapshots := F64.zero, UsedSpace := F64.zero, ZeroBlocks := F64.zero },
    ListClusterFaults := .ok [],
    ListNodeStats := .ok [],
    ListVolumeQoSHistograms := .ok [],
    GetClusterStats := .ok
      { ActualIOPS := F64.zero, AverageIOPSize := F64.zero, ClientQueueDepth := F64.zero,
        ClusterUtilization := F64.zero, LatencyUSec := F64.zero, NormalizedIOPS := F64.zero,
        ReadBytes := F64.zero, ReadBytesLastSample := F64.zero, ReadLatencyUSec := F64.zero,
        ReadLatencyUSecTotal := F64.zero, ReadOps := F64.zero, ReadOpsLastSample := F64.zero,
        SamplePeriodMsec := F64.zero, ServicesCount := F64.zero, ServicesTotal := F64.zero,
        UnalignedReads := F64.zero, UnalignedWrites := F64.zero, WriteBytes := F64.zero,
        WriteBytesLastSample := F64.zero, WriteLatencyUSec := F64.zero,
        WriteLatencyUSecTotal := F64.zero, WriteOps := F64.zero, WriteOpsLastSample := F64.zero },
    GetClusterFullThreshold := .ok
      { BlockFullness := "", Fullness := "", MaxMetadataOverProvisionFactor := F64.zero,
        MetadataFullness := "", SliceReserveUsedThresholdPct := F64.zero,
        Stage2AwareThreshold := F64.zero, Stage2BlockThresholdBytes := F64.zero,
        Stage3BlockThresholdBytes := F64.zero, Stage3BlockThresholdPercent := F64.zero,
        Stage3LowThreshold := F64.zero, Stage4BlockThresholdBytes := F64.zero,
        Stage4CriticalThreshold := F64.zero, Stage5BlockThresholdBytes := F64.zero,
        SumTotalClusterBytes := F64.zero, SumTotalMetadataClusterBytes := F64.zero,
        SumUsedClusterBytes := F64.zero, SumUsedMetadataClusterBytes := F64.zero },
    ListDrives := .ok [],
    ListISCSISessions := .ok [],
    ListAccounts := .ok 0,
    ListInitiators := .ok 0,
    ListVolumeAccessGroups := .ok 0,
    ListVirtualVolumeTasks := .ok 0,
    ListBulkVolumeJobs := .ok 0,
    ListAsyncResults := .ok [] }

/-- A node with the identifier `7`. -/
def exampleNode : Node :=
  { NodeID := 7, Name := "node-7", ChassisName := "", AssociatedFServiceID := 0,
    AssociatedMasterServiceID := 0,
    PlatformInfo :=
      { ChassisType := "", CPUModel := "", NodeType := "", PlatformConfigVersion := "",
        NodeMemoryGB := F64.zero },
    Sip := "", Sipi := "", SoftwareVersion := "", UUID := "" }

/-- The quiet cluster with one node and one QoS element. -/
def oneNodeClient : Client :=
  { quietClient with
    ListAllNodes := .ok [exampleNode],
    ListVolumeQoSHistograms := .ok [fiveQosHistogram 1] }

/-- The quiet cluster when the call of `ListAllNodes` fails. -/
def nodesDownClient : Client :=
  { quietClient with ListAllNodes := .error { msg := "context deadline exceeded" } }

/-! ## Theorems: float64 rounding -/

namespace F64

theorem log2Fuel_spec (fuel : Nat) : ∀ n, 1 ≤ n → n ≤ fuel →
    2 ^ log2Fuel fuel n ≤ n ∧ n < 2 ^ (log2Fuel fuel n + 1) := by
  induction fuel with
  | zero => intro n h1 h2; omega
  | succ f ih =>
    intro n h1 h2
    unfold log2Fuel
    by_cases h : n < 2
    · simp only [h, if_true]
      omega
    · simp only [h, if_false]
      have hd := ih (n / 2) (by omega) (by omega)
      have hm := Nat.div_add_mod n 2
      have hlt := Nat.mod_lt n (by decide : 2 > 0)
      rw [Nat.pow_succ, Nat.pow_succ]
      omega

theorem log2_spec (n : Nat) (h : 1 ≤ n) : 2 ^ log2 n ≤ n ∧ n < 2 ^ (log2 n + 1) :=
  log2Fuel_spec n n h (Nat.le_refl n)

theorem shiftOf_spec (t : Nat) :
    (shiftOf t = 0 ∧ t < 2 ^ 53) ∨ (2 ^ (shiftOf t + 52) ≤ t ∧ t < 2 ^ (shiftOf t + 53)) := by
  unfold shiftOf
  by_cases h : t < 2 ^ 53
  · left; rw [if_pos h]; exact ⟨rfl, h⟩
  · right
    rw [if_neg h]
    have hs := log2_spec t (by have : 0 < 2 ^ 53 := by positivity
                               omega)
    have h53 : 53 ≤ log2 t := by
      by_contra hc
      have : log2 t + 1 ≤ 53 := by omega
      have := Nat.pow_le_pow_right (by decide : 2 > 0) this
      omega
    have e1 : log2 t - 52 + 52 = log2 t := by omega
    have e2 : log2 t - 52 + 53 = log2 t + 1 := by omega
    rw [e1, e2]; exact hs

theorem round_cases (neg : Bool) (n d : Nat) :
    ∃ m, (m = n / (d * 2 ^ shiftOf (n / d)) ∨
        (m = n / (d * 2 ^ shiftOf (n / d)) + 1 ∧ 0 < n % (d * 2 ^ shiftOf (n / d)))) ∧
      round neg n d = if m * 2 ^ shiftOf (n / d) < overflowAt
        then fin neg (m * 2 ^ shiftOf (n / d)) else inf neg := by
  unfold round
  by_cases hc : d * 2 ^ shiftOf (n / d) < 2 * (n % (d * 2 ^ shiftOf (n / d))) ∨
      (2 * (n % (d * 2 ^ shiftOf (n / d))) = d * 2 ^ shiftOf (n / d) ∧
        n / (d * 2 ^ shiftOf (n / d)) % 2 = 1)
  · refine ⟨n / (d * 2 ^ shiftOf (n / d)) + 1, Or.inr ⟨rfl, ?_⟩, ?_⟩
    · rcases hc with h | ⟨h, h1⟩
      · omega
      · by_contra h0
        have hr : n % (d * 2 ^ shiftOf (n / d)) = 0 := by omega
        rw [hr] at h
        have he : d * 2 ^ shiftOf (n / d) = 0 := by omega
        rw [he, Nat.div_zero] at h1
        omega
    · simp only [hc, if_true]
  · exact ⟨n / (d * 2 ^ shiftOf (n / d)), Or.inl rfl, by simp only [hc, if_false]⟩

theorem pow_split (a b : Nat) (h : b ≤ a) : 2 ^ a = 2 ^ (a - b) * 2 ^ b := by
  rw [← Nat.pow_add]; congr 1; omega

theorem shiftOf_le (t hi : Nat) (ht : t ≤ 2 ^ hi) : shiftOf t ≤ hi := by
  rcases shiftOf_spec t with ⟨h0, _⟩ | ⟨h1, _⟩
  · omega
  · by_contra hc
    have : hi + 1 ≤ shiftOf t + 52 := by omega
    have := Nat.pow_le_pow_right (by decide : 2 > 0) this
    have : 2 ^ hi < 2 ^ (hi + 1) := Nat.pow_lt_pow_right (by decide) (by omega)
    omega

theorem round_le (neg : Bool) (n d hi : Nat) (hd : 0 < d) (hhi : n ≤ 2 ^ hi * d)
    (hov : hi < 2098) : ∃ v, round neg n d = fin neg v ∧ v ≤ 2 ^ hi := by
  have ht : n / d ≤ 2 ^ hi := Nat.div_le_of_le_mul (by rw [Nat.mul_comm]; exact hhi)
  have hk := shiftOf_le _ _ ht
  obtain ⟨m, hm, hr⟩ := round_cases neg n d
  generalize shiftOf (n / d) = k at hk hm hr
  have hpk : 0 < 2 ^ k := Nat.pow_pos (by decide)
  have he : 0 < d * 2 ^ k := Nat.mul_pos hd hpk
  have hne : n ≤ 2 ^ (hi - k) * (d * 2 ^ k) := by
    calc n ≤ 2 ^ hi * d := hhi
      _ = 2 ^ (hi - k) * (d * 2 ^ k) := by rw [pow_split hi k hk]; ring
  have hmle : m ≤ 2 ^ (hi - k) := by
    rcases hm with h | ⟨h, hpos⟩
    · rw [h]; exact Nat.div_le_of_le_mul (by rw [Nat.mul_comm]; exact hne)
    · have hdm := Nat.div_add_mod n (d * 2 ^ k)
      have hlt : (d * 2 ^ k) * (n / (d * 2 ^ k)) < (d * 2 ^ k) * 2 ^ (hi - k) := by
        rw [Nat.mul_comm (d * 2 ^ k) (2 ^ (hi - k))]; omega
      have := Nat.lt_of_mul_lt_mul_left hlt
      omega
  have hv : m * 2 ^ k ≤ 2 ^ hi := by
    rw [pow_split hi k hk]; exact Nat.mul_le_mul_right _ hmle
  have hlt : m * 2 ^ k < overflowAt := by
    exact lt_of_le_of_lt hv (Nat.pow_lt_pow_right (by decide) hov)
  exact ⟨m * 2 ^ k, by rw [hr, if_pos hlt], hv⟩

theorem round_ge (neg : Bool) (n d lo v : Nat) (hd : 0 < d) (hlo : 2 ^ lo * d ≤ n)
    (hr : round neg n d = fin neg v) : 2 ^ lo ≤ v := by
  obtain ⟨m, hm, hr2⟩ := round_cases neg n d
  have hsp := shiftOf_spec (n / d)
  rw [hr] at hr2
  generalize shiftOf (n / d) = k at hsp hm hr2
  have hv : v = m * 2 ^ k := by
    by_cases hlt : m * 2 ^ k < overflowAt
    · rw [if_pos hlt] at hr2; injection hr2
    · rw [if_neg hlt] at hr2; cases hr2
  have hpk : 0 < 2 ^ k := Nat.pow_pos (by decide)
  have hq : n / (d * 2 ^ k) ≤ m := by rcases hm with h | ⟨h, _⟩ <;> omega
  rw [hv]
  by_cases hkl : k ≤ lo
  · have h1 : 2 ^ (lo - k) ≤ n / (d * 2 ^ k) := by
      rw [Nat.le_div_iff_mul_le (Nat.mul_pos hd hpk)]
      calc 2 ^ (lo - k) * (d * 2 ^ k) = 2 ^ lo * d := by rw [pow_split lo k hkl]; ring
        _ ≤ n := hlo
    calc 2 ^ lo = 2 ^ (lo - k) * 2 ^ k := pow_split lo k hkl
      _ ≤ m * 2 ^ k := Nat.mul_le_mul_right _ (le_trans h1 hq)
  · have hk1 : 2 ^ (k + 52) ≤ n / d := by
      rcases hsp with ⟨h0, _⟩ | ⟨h1, _⟩
      · omega
      · exact h1
    have h2 : 2 ^ 52 ≤ n / (d * 2 ^ k) := by
      rw [← Nat.div_div_eq_div_mul, Nat.le_div_iff_mul_le hpk, ← Nat.pow_add, Nat.add_comm]
      exact hk1
    have h3 : 2 ^ lo ≤ 2 ^ k := Nat.pow_le_pow_right (by decide) (by omega)
    have h4 : 1 ≤ m := by
      have : 0 < 2 ^ 52 := Nat.pow_pos (by decide)
      omega
    calc 2 ^ lo ≤ 2 ^ k := h3
      _ = 1 * 2 ^ k := by rw [Nat.one_mul]
      _ ≤ m * 2 ^ k := Nat.mul_le_mul_right _ h4

theorem unit_def : unit = 2 ^ 1074 := by unfold unit; rfl

theorem unit_pos : 0 < unit := by rw [unit_def]; exact Nat.pow_pos (by decide)

theorem MagLe.mono {a b : Nat} {x : F64} (h : MagLe a x) (hab : a ≤ b) : MagLe b x := by
  obtain ⟨s, v, rfl, hv⟩ := h
  exact ⟨s, v, rfl, le_trans hv (Nat.pow_le_pow_right (by decide) hab)⟩

theorem MagLe.isFinite {a : Nat} {x : F64} (h : MagLe a x) : isFinite x = true := by
  obtain ⟨s, v, rfl, _⟩ := h; rfl

theorem round_magLe (neg : Bool) (n d hi : Nat) (hd : 0 < d) (hhi : n ≤ 2 ^ hi * d)
    (hov : hi < 2098) : MagLe hi (round neg n d) := by
  obtain ⟨v, hv, hle⟩ := round_le neg n d hi hd hhi hov
  exact ⟨neg, v, hv, hle⟩

theorem add_magLe {a : Nat} {x y : F64} (hx : MagLe a x) (hy : MagLe a y)
    (hov : a + 1 < 2098) : MagLe (a + 1) (add x y) := by
  obtain ⟨s, v, rfl, hv⟩ := hx
  obtain ⟨s2, w, rfl, hw⟩ := hy
  have h2 : 2 ^ (a + 1) = 2 ^ a + 2 ^ a := by rw [Nat.pow_succ]; omega
  simp only [add]
  split_ifs
  · exact round_magLe _ _ _ _ (by decide) (by omega) hov
  · exact round_magLe _ _ _ _ (by decide) (by omega) hov
  · exact round_magLe _ _ _ _ (by decide) (by omega) hov
  · exact ⟨false, 0, rfl, Nat.zero_le _⟩

theorem mul_magLe {a b p : Nat} {x y : F64} (hx : MagLe a x) (hy : MagLe b y)
    (hp : a + b = p + 1074) (hov : p < 2098) : MagLe p (mul x y) := by
  obtain ⟨s, v, rfl, hv⟩ := hx
  obtain ⟨s2, w, rfl, hw⟩ := hy
  simp only [mul]
  refine round_magLe _ _ _ _ unit_pos ?_ hov
  calc v * w ≤ 2 ^ a * 2 ^ b := Nat.mul_le_mul hv hw
    _ = 2 ^ p * unit := by rw [← Nat.pow_add, hp, Nat.pow_add, unit_def]

theorem mul_magGe {a b p : Nat} {x y : F64} (hx : MagGe a x) (hy : MagGe b y)
    (hp : a + b = p + 1074) (hfin : isFinite (mul x y) = true) : MagGe p (mul x y) := by
  obtain ⟨s, v, rfl, hv⟩ := hx
  obtain ⟨s2, w, rfl, hw⟩ := hy
  simp only [mul] at hfin ⊢
  obtain ⟨m, _, hm2⟩ := round_cases (xor s s2) (v * w) unit
  by_cases h : m * 2 ^ shiftOf (v * w / unit) < overflowAt
  · rw [if_pos h] at hm2
    refine ⟨_, _, hm2, round_ge _ _ _ _ _ unit_pos ?_ hm2⟩
    calc 2 ^ p * unit = 2 ^ a * 2 ^ b := by rw [← Nat.pow_add, hp, Nat.pow_add, unit_def]
      _ ≤ v * w := Nat.mul_le_mul hv hw
  · rw [if_neg h] at hm2
    rw [hm2] at hfin
    cases hfin

theorem div_magLe {a b p : Nat} {x y : F64} (hx : MagLe a x) (hy : MagGe b y)
    (hp : a + 1074 ≤ p + b) (hov : p < 2098) : MagLe p (div x y) := by
  obtain ⟨s, v, rfl, hv⟩ := hx
  obtain ⟨s2, w, rfl, hw⟩ := hy
  have hw0 : 0 < w := lt_of_lt_of_le (Nat.pow_pos (by decide)) hw
  have hd : div (fin s v) (fin s2 w) = round (xor s s2) (v * unit) w := by
    simp only [div]; rw [if_neg (by omega)]
  rw [hd]
  refine round_magLe _ _ _ _ hw0 ?_ hov
  calc v * unit ≤ 2 ^ a * 2 ^ 1074 := by rw [unit_def]; exact Nat.mul_le_mul_right _ hv
    _ = 2 ^ (a + 1074) := by rw [Nat.pow_add]
    _ ≤ 2 ^ (p + b) := Nat.pow_le_pow_right (by decide) hp
    _ = 2 ^ p * 2 ^ b := by rw [Nat.pow_add]
    _ ≤ 2 ^ p * w := Nat.mul_le_mul_left _ hw

theorem inWindow_magLe {x : F64} (h : inWindow x = true) : MagLe 1174 x := by
  cases x with
  | nan => cases h
  | inf _ => cases h
  | fin s v =>
    simp only [inWindow, Bool.or_eq_true, Bool.and_eq_true, decide_eq_true_eq, beq_iff_eq] at h
    refine ⟨s, v, rfl, ?_⟩
    rcases h with h | ⟨_, h⟩
    · rw [h]; exact Nat.zero_le _
    · exact h

theorem inWindow_magGe {x : F64} (h : inWindow x = true) (hz : eq x zero = false) :
    MagGe 974 x := by
  cases x with
  | nan => cases h
  | inf _ => cases h
  | fin s v =>
    simp only [inWindow, Bool.or_eq_true, Bool.and_eq_true, decide_eq_true_eq, beq_iff_eq] at h
    refine ⟨s, v, rfl, ?_⟩
    rcases h with h | ⟨h, _⟩
    · subst h
      simp [eq, zero] at hz
    · exact h

theorem one_eq : one = fin false (2 ^ 1074) := by decide!

theorem one_magLe : MagLe 1074 one := ⟨false, _, one_eq, Nat.le_refl _⟩

theorem round_exact (neg : Bool) (a : Nat) (ha : a ≤ 2 ^ 53) :
    round neg (a * unit) 1 = fin neg (a * unit) := by
  have hle : a * unit ≤ 2 ^ 1127 := by
    rw [unit_def, pow_split 1127 1074 (by decide)]
    exact Nat.mul_le_mul_right _ ha
  have hk : shiftOf (a * unit) ≤ 1127 := shiftOf_le _ _ hle
  obtain ⟨m, hm, hr⟩ := round_cases neg (a * unit) 1
  simp only [Nat.div_one, Nat.one_mul] at hm hr
  have hdvd : 2 ^ shiftOf (a * unit) ∣ a * unit := by
    rcases shiftOf_spec (a * unit) with ⟨h0, _⟩ | ⟨h1, _⟩
    · rw [h0]; exact one_dvd _
    · by_cases hk2 : shiftOf (a * unit) ≤ 1074
      · rw [unit_def]
        exact Dvd.dvd.mul_left (pow_dvd_pow 2 hk2) a
      · have h52 : shiftOf (a * unit) + 52 ≤ 1127 := by
          by_contra hc
          have h3 : 1127 + 1 ≤ shiftOf (a * unit) + 52 := by omega
          have h4 := Nat.pow_le_pow_right (by decide : 2 > 0) h3
          have h5 : 2 ^ 1127 < 2 ^ (1127 + 1) := Nat.pow_lt_pow_right (by decide) (by omega)
          omega
        have hk3 : shiftOf (a * unit) = 1075 := by omega
        have ha2 : a = 2 ^ 53 := by
          by_contra hne
          have hlt : a < 2 ^ 53 := lt_of_le_of_ne ha hne
          have h6 : a * unit < 2 ^ 1127 := by
            rw [unit_def, pow_split 1127 1074 (by decide)]
            exact Nat.mul_lt_mul_of_pos_right hlt (Nat.pow_pos (by decide))
          rw [hk3] at h1
          omega
        rw [hk3, ha2, unit_def, ← Nat.pow_add]
        exact pow_dvd_pow 2 (by decide)
  have hmod : a * unit % 2 ^ shiftOf (a * unit) = 0 := Nat.mod_eq_zero_of_dvd hdvd
  have hm2 : m * 2 ^ shiftOf (a * unit) = a * unit := by
    rcases hm with h | ⟨_, hpos⟩
    · rw [h]; exact Nat.div_mul_cancel hdvd
    · omega
  rw [hr, hm2, if_pos]
  exact lt_of_le_of_lt hle (Nat.pow_lt_pow_right (by decide) (by decide))

/-- The conversion `float64(n)` is exact for `|n| ≤ 2^53`. -/
theorem toRat_ofInt (n : Int) (h : n.natAbs ≤ 2 ^ 53) : toRat (ofInt n) = n := by
  unfold ofInt
  rw [round_exact _ _ h]
  have h2 : ((2 : ℚ) ^ 1074) ≠ 0 := pow_ne_zero _ (by norm_num)
  have hu : ((unit : Nat) : ℚ) = (2 : ℚ) ^ 1074 := by
    simp only [unit_def, Nat.cast_pow, Nat.cast_ofNat]
  simp only [toRat, Nat.cast_mul, hu]
  rw [mul_div_assoc, div_self h2, mul_one]
  by_cases hn : n < 0
  · simp only [hn, decide_True, if_true]
    rw [Nat.cast_natAbs, abs_of_neg hn]; push_cast; ring
  · simp only [hn, decide_False, Bool.false_eq_true, if_false]
    rw [Nat.cast_natAbs, abs_of_nonneg (not_lt.1 hn)]; ring

theorem c4096_magLe : MagLe 1086 (ofNat 4096) :=
  round_magLe _ _ _ _ (by decide)
    (by rw [unit_def, Nat.mul_one, pow_split 1086 1074 (by decide)]
        exact Nat.mul_le_mul_right _ (by decide)) (by decide)

theorem c093_magLe : MagLe 1074 (ofRatio 93 100) :=
  round_magLe _ _ _ _ (by decide)
    (by rw [unit_def, Nat.mul_comm]; exact Nat.mul_le_mul_left _ (by decide)) (by decide)

theorem c093_aux (k : Nat) : 2 ^ k * 100 ≤ 93 * 2 ^ (k + 1) := by
  rw [Nat.pow_succ]; omega

theorem c093_magGe : MagGe 1073 (ofRatio 93 100) := by
  obtain ⟨v, hv, _⟩ := round_le false (93 * unit) 100 1074 (by decide)
    (by rw [unit_def, Nat.mul_comm]; exact Nat.mul_le_mul_left _ (by decide)) (by decide)
  exact ⟨false, v, hv, round_ge false (93 * unit) 100 1073 v (by decide)
    (by rw [unit_def]; exact c093_aux 1073) hv⟩

end F64

theorem thin_magLe (cluster : ClusterCapacity)
    (h1 : F64.inWindow cluster.NonZeroBlocks = true)
    (h2 : F64.inWindow cluster.ZeroBlocks = true) :
    F64.MagLe 1275 (clusterThinProvisioningFactor cluster) := by
  unfold clusterThinProvisioningFactor
  cases hz : F64.eq cluster.NonZeroBlocks F64.zero
  · simp only [Bool.false_eq_true, if_false]
    exact F64.div_magLe
      (F64.add_magLe (F64.inWindow_magLe h1) (F64.inWindow_magLe h2) (by decide))
      (F64.inWindow_magGe h1 hz) (by decide) (by decide)
  · simp only [if_true]
    exact F64.one_magLe.mono (by decide)

theorem dedup_magLe (cluster : ClusterCapacity)
    (h1 : F64.inWindow cluster.NonZeroBlocks = true)
    (h3 : F64.inWindow cluster.SnapshotNonZeroBlocks = true)
    (h4 : F64.inWindow cluster.UniqueBlocks = true) :
    F64.MagLe 1275 (clusterDeDuplicationFactor cluster) := by
  unfold clusterDeDuplicationFactor
  cases hz : F64.eq cluster.UniqueBlocks F64.zero
  · simp only [Bool.false_eq_true, if_false]
    exact F64.div_magLe
      (F64.add_magLe (F64.inWindow_magLe h1) (F64.inWindow_magLe h3) (by decide))
      (F64.inWindow_magGe h4 hz) (by decide) (by decide)
  · simp only [if_true]
    exact F64.one_magLe.mono (by decide)

theorem comp_magLe (cluster : ClusterCapacity)
    (h4 : F64.inWindow cluster.UniqueBlocks = true)
    (h5 : F64.inWindow cluster.UniqueBlocksUsedSpace = true) :
    F64.MagLe 1287 (clusterCompressionFactor cluster) := by
  unfold clusterCompressionFactor
  cases hz : F64.eq cluster.UniqueBlocksUsedSpace F64.zero
  · simp only [Bool.false_eq_true, if_false]
    have hden : F64.MagLe 1174 (F64.mul cluster.UniqueBlocksUsedSpace (F64.ofRatio 93 100)) :=
      F64.mul_magLe (F64.inWindow_magLe h5) F64.c093_magLe (by decide) (by decide)
    exact F64.div_magLe
      (F64.mul_magLe (F64.inWindow_magLe h4) F64.c4096_magLe
        (show 1174 + 1086 = 1186 + 1074 from rfl) (by decide))
      (F64.mul_magGe (F64.inWindow_magGe h5 hz) F64.c093_magGe
        (show 974 + 1073 = 973 + 1074 from rfl) hden.isFinite) (by decide) (by decide)
  · simp only [if_true]
    exact F64.one_magLe.mono (by decide)

/-! ## Theorems: collectClusterCapacity -/

/-- The samples of `collectClusterCapacity` for the four derived ratios are the
values of the three locals and their product, one sample each. -/
theorem collectClusterCapacity_ok (cluster : ClusterCapacity) :
    ∃ ms, collectClusterCapacity (.ok cluster) = .ok ms ∧ ms.length = 26 ∧
      valuesOf .ClusterThinProvisioningFactor ms = [clusterThinProvisioningFactor cluster] ∧
      valuesOf .ClusterDeDuplicationFactor ms = [clusterDeDuplicationFactor cluster] ∧
      valuesOf .ClusterCompressionFactor ms = [clusterCompressionFactor cluster] ∧
      valuesOf .ClusterEfficiencyFactor ms =
        [F64.mul (F64.mul (clusterThinProvisioningFactor cluster)
          (clusterDeDuplicationFactor cluster)) (clusterCompressionFactor cluster)] :=
  ⟨_, rfl, rfl, rfl, rfl, rfl, rfl⟩

/-- C1: for every cluster-capacity snapshot `collectClusterCapacity` sends exactly
one ThinProvisioningFactor sample; its value is `1` when `NonZeroBlocks == 0`
(whatever `ZeroBlocks` is) and the float64 quotient
`(NonZeroBlocks + ZeroBlocks) / NonZeroBlocks` otherwise. -/
theorem C1_thinProvisioningFactor (cluster : ClusterCapacity) :
    ∃ ms v, collectClusterCapacity (.ok cluster) = .ok ms ∧
      valuesOf .ClusterThinProvisioningFactor ms = [v] ∧
      (F64.eq cluster.NonZeroBlocks F64.zero = true → v = F64.one) ∧
      (F64.eq cluster.NonZeroBlocks F64.zero = false →
        v = F64.div (F64.add cluster.NonZeroBlocks cluster.ZeroBlocks) cluster.NonZeroBlocks) := by
  refine ⟨_, _, rfl, rfl, ?_, ?_⟩ <;> intro h <;> simp [clusterThinProvisioningFactor, h]

/-- C2: for every cluster-capacity snapshot `collectClusterCapacity` sends exactly
one DeduplicationFactor sample; its value is `1` when `UniqueBlocks == 0` and the
float64 quotient `(NonZeroBlocks + SnapshotNonZeroBlocks) / UniqueBlocks`
otherwise. -/
theorem C2_deDuplicationFactor (cluster : ClusterCapacity) :
    ∃ ms v, collectClusterCapacity (.ok cluster) = .ok ms ∧
      valuesOf .ClusterDeDuplicationFactor ms = [v] ∧
      (F64.eq cluster.UniqueBlocks F64.zero = true → v = F64.one) ∧
      (F64.eq cluster.UniqueBlocks F64.zero = false →
        v = F64.div (F64.add cluster.NonZeroBlocks cluster.SnapshotNonZeroBlocks)
          cluster.UniqueBlocks) := by
  refine ⟨_, _, rfl, rfl, ?_, ?_⟩ <;> intro h <;> simp [clusterDeDuplicationFactor, h]

/-- C3: for every cluster-capacity snapshot `collectClusterCapacity` sends exactly
one CompressionFactor sample; its value is `1` when `UniqueBlocksUsedSpace == 0`
and the float64 quotient `(UniqueBlocks * 4096) / (UniqueBlocksUsedSpace * 0.93)`
otherwise. -/
theorem C3_compressionFactor (cluster : ClusterCapacity) :
    ∃ ms v, collectClusterCapacity (.ok cluster) = .ok ms ∧
      valuesOf .ClusterCompressionFactor ms = [v] ∧
      (F64.eq cluster.UniqueBlocksUsedSpace F64.zero = true → v = F64.one) ∧
      (F64.eq cluster.UniqueBlocksUsedSpace F64.zero = false →
        v = F64.div (F64.mul cluster.UniqueBlocks (F64.ofNat 4096))
          (F64.mul cluster.UniqueBlocksUsedSpace (F64.ofRatio 93 100))) := by
  refine ⟨_, _, rfl, rfl, ?_, ?_⟩ <;> intro h <;> simp [clusterCompressionFactor, h]

/-- C4: the EfficiencyFactor sample is the float64 product of the
ThinProvisioningFactor, DeduplicationFactor and CompressionFactor samples sent
in the same call (the guarded values), and it is `1` when all three
denominators are `0`. -/
theorem C4_efficiencyFactor (cluster : ClusterCapacity) :
    ∃ ms t d c, collectClusterCapacity (.ok cluster) = .ok ms ∧
      valuesOf .ClusterThinProvisioningFactor ms = [t] ∧
      valuesOf .ClusterDeDuplicationFactor ms = [d] ∧
      valuesOf .ClusterCompressionFactor ms = [c] ∧
      valuesOf .ClusterEfficiencyFactor ms = [F64.mul (F64.mul t d) c] ∧
      (F64.eq cluster.NonZeroBlocks F64.zero = true →
        F64.eq cluster.UniqueBlocks F64.zero = true →
        F64.eq cluster.UniqueBlocksUsedSpace F64.zero = true →
        F64.mul (F64.mul t d) c = F64.one) := by
  refine ⟨_, _, _, _, rfl, rfl, rfl, rfl, rfl, ?_⟩
  intro h1 h2 h3
  simp only [clusterThinProvisioningFactor, clusterDeDuplicationFactor,
    clusterCompressionFactor, h1, h2, h3, if_true]
  decide!

/-- C5 (as stated, refuted): for the snapshot whose NonZeroBlocks and ZeroBlocks
are both the largest finite float64, the sum overflows, and the
ThinProvisioningFactor and EfficiencyFactor samples are `+Inf`. -/
theorem C5_overflow_counterexample :
    F64.isRepr F64.maxFloat = true ∧
    ∃ ms t e, collectClusterCapacity (.ok hugeCapacity) = .ok ms ∧
      valuesOf .ClusterThinProvisioningFactor ms = [t] ∧
      valuesOf .ClusterEfficiencyFactor ms = [e] ∧
      t = F64.inf false ∧ e = F64.inf false ∧
      F64.isFinite t = false ∧ F64.isFinite e = false := by
  refine ⟨by decide!, _, _, _, rfl, rfl, rfl, ?_, ?_, ?_, ?_⟩ <;> decide!

/-- C5 (amended): for every cluster-capacity snapshot whose NonZeroBlocks,
ZeroBlocks, SnapshotNonZeroBlocks, UniqueBlocks and UniqueBlocksUsedSpace are
finite and each zero or of magnitude between `2^-100` and `2^100`, every
zero-denominator case included, the four derived ratios sent are finite:
none is NaN or an infinity. -/
theorem C5_ratios_finite (cluster : ClusterCapacity)
    (h1 : F64.inWindow cluster.NonZeroBlocks = true)
    (h2 : F64.inWindow cluster.ZeroBlocks = true)
    (h3 : F64.inWindow cluster.SnapshotNonZeroBlocks = true)
    (h4 : F64.inWindow cluster.UniqueBlocks = true)
    (h5 : F64.inWindow cluster.UniqueBlocksUsedSpace = true) :
    ∃ ms t d c e, collectClusterCapacity (.ok cluster) = .ok ms ∧
      valuesOf .ClusterThinProvisioningFactor ms = [t] ∧
      valuesOf .ClusterDeDuplicationFactor ms = [d] ∧
      valuesOf .ClusterCompressionFactor ms = [c] ∧
      valuesOf .ClusterEfficiencyFactor ms = [e] ∧
      F64.isFinite t = true ∧ F64.isFinite d = true ∧ F64.isFinite c = true ∧
      F64.isFinite e = true := by
  have ht := thin_magLe cluster h1 h2
  have hd := dedup_magLe cluster h1 h3 h4
  have hc := comp_magLe cluster h4 h5
  have htd : F64.MagLe 1476 (F64.mul (clusterThinProvisioningFactor cluster)
      (clusterDeDuplicationFactor cluster)) :=
    F64.mul_magLe ht hd (show 1275 + 1275 = 1476 + 1074 from rfl) (by decide)
  have he := F64.mul_magLe htd hc (show 1476 + 1287 = 1689 + 1074 from rfl) (by decide)
  exact ⟨_, _, _, _, _, rfl, rfl, rfl, rfl, rfl, ht.isFinite, hd.isFinite, hc.isFinite,
    he.isFinite⟩

/-- C5 (amended), at the snapshot NonZeroBlocks=100, ZeroBlocks=50,
SnapshotNonZeroBlocks=20, UniqueBlocks=40, UniqueBlocksUsedSpace=30: the
hypotheses hold and the four ratios are finite. -/
theorem C5_ratios_finite_witness :
    (F64.inWindow exampleCapacity.NonZeroBlocks = true ∧
      F64.inWindow exampleCapacity.ZeroBlocks = true ∧
      F64.inWindow exampleCapacity.SnapshotNonZeroBlocks = true ∧
      F64.inWindow exampleCapacity.UniqueBlocks = true ∧
      F64.inWindow exampleCapacity.UniqueBlocksUsedSpace = true) ∧
    ∃ ms t d c e, collectClusterCapacity (.ok exampleCapacity) = .ok ms ∧
      valuesOf .ClusterThinProvisioningFactor ms = [t] ∧
      valuesOf .ClusterDeDuplicationFactor ms = [d] ∧
      valuesOf .ClusterCompressionFactor ms = [c] ∧
      valuesOf .ClusterEfficiencyFactor ms = [e] ∧
      F64.isFinite t = true ∧ F64.isFinite d = true ∧ F64.isFinite c = true ∧
      F64.isFinite e = true :=
  ⟨⟨by decide!, by decide!, by decide!, by decide!, by decide!⟩,
    C5_ratios_finite exampleCapacity (by decide!) (by decide!) (by decide!) (by decide!)
      (by decide!)⟩

theorem F64.toRat_scaled (m k : Nat) (hk : k ≤ 1074) :
    F64.toRat (F64.fin false (m * 2 ^ k)) = (m : ℚ) / 2 ^ (1074 - k) := by
  simp only [F64.toRat, Bool.false_eq_true, if_false, one_mul]
  have h2 : (2 : ℚ) ^ 1074 = 2 ^ (1074 - k) * 2 ^ k := by
    rw [← pow_add]; congr 1; omega
  rw [h2]
  push_cast
  field_simp
  ring

theorem exampleCapacity_compression :
    clusterCompressionFactor exampleCapacity = F64.fin false (6456773659312539 * 2 ^ 1034) := by
  decide!

/-- C6 (as stated, refuted): for the snapshot NonZeroBlocks=100, ZeroBlocks=50,
SnapshotNonZeroBlocks=20, UniqueBlocks=40, UniqueBlocksUsedSpace=30 the
CompressionFactor sample is the float64 `(40*4096)/(30*0.93)`, and neither it
nor the exact quotient is 5864.52 to two decimal places: both lie above 5872. -/
theorem C6_compression_counterexample :
    ∃ ms c, collectClusterCapacity (.ok exampleCapacity) = .ok ms ∧
      valuesOf .ClusterCompressionFactor ms = [c] ∧
      c = F64.div (F64.mul (F64.ofNat 40) (F64.ofNat 4096))
        (F64.mul (F64.ofNat 30) (F64.ofRatio 93 100)) ∧
      ¬ ((586452 : ℚ) / 100 - 1 / 200 ≤ F64.toRat c ∧ F64.toRat c < 586452 / 100 + 1 / 200) ∧
      ¬ ((586452 : ℚ) / 100 - 1 / 200 ≤ (40 * 4096) / (30 * (93 / 100)) ∧
        ((40 : ℚ) * 4096) / (30 * (93 / 100)) < 586452 / 100 + 1 / 200) := by
  refine ⟨_, _, rfl, rfl, by decide!, ?_, by norm_num⟩
  rw [exampleCapacity_compression, F64.toRat_scaled _ _ (by norm_num)]
  norm_num

/-- C6 (amended): for the snapshot NonZeroBlocks=100, ZeroBlocks=50,
SnapshotNonZeroBlocks=20, UniqueBlocks=40, UniqueBlocksUsedSpace=30,
`collectClusterCapacity` sends ThinProvisioningFactor = 1.5,
DeduplicationFactor = 3.0, CompressionFactor = the float64 `(40*4096)/(30*0.93)`,
which is 5872.40 to two decimal places, and EfficiencyFactor equal to the
float64 product of the three. -/
theorem C6_example_snapshot :
    ∃ ms t d c, collectClusterCapacity (.ok exampleCapacity) = .ok ms ∧
      valuesOf .ClusterThinProvisioningFactor ms = [t] ∧
      valuesOf .ClusterDeDuplicationFactor ms = [d] ∧
      valuesOf .ClusterCompressionFactor ms = [c] ∧
      valuesOf .ClusterEfficiencyFactor ms = [F64.mul (F64.mul t d) c] ∧
      t = F64.ofRatio 3 2 ∧ F64.toRat t = 3 / 2 ∧
      d = F64.ofNat 3 ∧ F64.toRat d = 3 ∧
      c = F64.div (F64.mul (F64.ofNat 40) (F64.ofNat 4096))
        (F64.mul (F64.ofNat 30) (F64.ofRatio 93 100)) ∧
      (587240 : ℚ) / 100 - 1 / 200 ≤ F64.toRat c ∧ F64.toRat c < 587240 / 100 + 1 / 200 := by
  have ht : clusterThinProvisioningFactor exampleCapacity = F64.fin false (3 * 2 ^ 1073) := by
    decide!
  have hd : clusterDeDuplicationFactor exampleCapacity = F64.fin false (3 * 2 ^ 1074) := by
    decide!
  refine ⟨_, _, _, _, rfl, rfl, rfl, rfl, rfl, by decide!, ?_, by decide!, ?_, by decide!, ?_, ?_⟩
  · rw [ht, F64.toRat_scaled _ _ (by norm_num)]; norm_num
  · rw [hd, F64.toRat_scaled _ _ (by norm_num)]; norm_num
  · rw [exampleCapacity_compression, F64.toRat_scaled _ _ (by norm_num)]; norm_num
  · rw [exampleCapacity_compression, F64.toRat_scaled _ _ (by norm_num)]; norm_num

/-! ## Theorems: the counting maps -/

theorem mapGet_mapIncr (m : List (String × Int)) (k k2 : String) :
    mapGet (mapIncr m k) k2 =
      if k = k2 then some ((mapGet m k2).getD 0 + 1) else mapGet m k2 := by
  induction m with
  | nil =>
    by_cases h : k = k2 <;> simp [mapIncr, mapGet, h]
  | cons p rest ih =>
    obtain ⟨k0, v⟩ := p
    by_cases h0 : k0 = k
    · subst h0
      by_cases h : k0 = k2 <;> simp [mapIncr, mapGet, h]
    · by_cases h : k = k2
      · subst h
        simp [mapIncr, mapGet, h0, ih]
      · by_cases h3 : k0 = k2
        · subst h3; simp [mapIncr, mapGet, h0, h]
        · simp [mapIncr, mapGet, h0, h, h3, ih]

theorem mapGet_mapEnsure (m : List (String × Int)) (k k2 : String) :
    mapGet (mapEnsure m k) k2 =
      if k = k2 then some ((mapGet m k2).getD 0) else mapGet m k2 := by
  induction m with
  | nil =>
    by_cases h : k = k2 <;> simp [mapEnsure, mapGet, h]
  | cons p rest ih =>
    obtain ⟨k0, v⟩ := p
    by_cases h0 : k0 = k
    · subst h0
      by_cases h : k0 = k2 <;> simp [mapEnsure, mapGet, h]
    · by_cases h : k = k2
      · subst h
        simp [mapEnsure, mapGet, h0, ih]
      · by_cases h3 : k0 = k2
        · subst h3; simp [mapEnsure, mapGet, h0, h]
        · simp [mapEnsure, mapGet, h0, h, h3, ih]

theorem keys_mapIncr (m : List (String × Int)) (k : String) :
    (mapIncr m k).map Prod.fst =
      if k ∈ m.map Prod.fst then m.map Prod.fst else m.map Prod.fst ++ [k] := by
  induction m with
  | nil => simp [mapIncr]
  | cons p rest ih =>
    obtain ⟨k0, v⟩ := p
    by_cases h0 : k0 = k
    · subst h0; simp [mapIncr]
    · have h1 : ¬ k = k0 := fun h => h0 h.symm
      by_cases hm : k ∈ rest.map Prod.fst
      · simp only [mapIncr, if_neg h0, List.map_cons, ih, if_pos hm, List.mem_cons, hm, or_true,
          if_true]
      · simp only [mapIncr, if_neg h0, List.map_cons, ih, if_neg hm, List.mem_cons, h1, hm,
          or_self, if_false, List.cons_append]

theorem keys_mapEnsure (m : List (String × Int)) (k : String) :
    (mapEnsure m k).map Prod.fst =
      if k ∈ m.map Prod.fst then m.map Prod.fst else m.map Prod.fst ++ [k] := by
  induction m with
  | nil => simp [mapEnsure]
  | cons p rest ih =>
    obtain ⟨k0, v⟩ := p
    by_cases h0 : k0 = k
    · subst h0; simp [mapEnsure]
    · have h1 : ¬ k = k0 := fun h => h0 h.symm
      by_cases hm : k ∈ rest.map Prod.fst
      · simp only [mapEnsure, if_neg h0, List.map_cons, ih, if_pos hm, List.mem_cons, hm, or_true,
          if_true]
      · simp only [mapEnsure, if_neg h0, List.map_cons, ih, if_neg hm, List.mem_cons, h1, hm,
          or_self, if_false, List.cons_append]

theorem nodup_keys_mapIncr (m : List (String × Int)) (k : String)
    (h : (m.map Prod.fst).Nodup) : ((mapIncr m k).map Prod.fst).Nodup := by
  rw [keys_mapIncr]
  split_ifs with hk
  · exact h
  · exact List.Nodup.append h (List.nodup_singleton k) (by simpa using hk)

theorem nodup_keys_mapEnsure (m : List (String × Int)) (k : String)
    (h : (m.map Prod.fst).Nodup) : ((mapEnsure m k).map Prod.fst).Nodup := by
  rw [keys_mapEnsure]
  split_ifs with hk
  · exact h
  · exact List.Nodup.append h (List.nodup_singleton k) (by simpa using hk)

theorem sum_mapIncr (m : List (String × Int)) (k : String) :
    ((mapIncr m k).map Prod.snd).sum = (m.map Prod.snd).sum + 1 := by
  induction m with
  | nil => simp [mapIncr]
  | cons p rest ih =>
    obtain ⟨k0, v⟩ := p
    by_cases h0 : k0 = k
    · simp [mapIncr, h0]; ring
    · simp [mapIncr, h0, ih]; ring

theorem mem_iff_mapGet (m : List (String × Int)) (h : (m.map Prod.fst).Nodup) (k : String)
    (v : Int) : (k, v) ∈ m ↔ mapGet m k = some v := by
  induction m with
  | nil => simp [mapGet]
  | cons p rest ih =>
    obtain ⟨k0, v0⟩ := p
    simp only [List.map_cons, List.nodup_cons] at h
    by_cases h0 : k0 = k
    · subst h0
      have hn : ∀ w, (k0, w) ∉ rest := fun w hw => h.1 (List.mem_map_of_mem Prod.fst hw)
      simp only [List.mem_cons, Prod.mk.injEq, true_and, mapGet, if_true, Option.some.injEq]
      constructor
      · rintro (h1 | h1)
        · exact h1.symm
        · exact absurd h1 (hn v)
      · intro h1; exact Or.inl h1.symm
    · have h1 : ¬ k = k0 := fun h => h0 h.symm
      simp only [List.mem_cons, Prod.mk.injEq, h1, false_and, false_or, mapGet, if_neg h0]
      exact ih h.2

theorem mapGet_foldl_incr (ks : List String) : ∀ (m : List (String × Int)) (k : String),
    mapGet (ks.foldl mapIncr m) k =
      if ks.count k = 0 then mapGet m k else some ((mapGet m k).getD 0 + (ks.count k : Nat)) := by
  induction ks with
  | nil => intro m k; simp
  | cons a rest ih =>
    intro m k
    rw [List.foldl_cons, ih, mapGet_mapIncr]
    by_cases h : a = k
    · subst h
      by_cases hc : rest.count a = 0
      · simp [hc]
      · simp [hc]; ring
    · have h2 : ¬ (a == k) = true := by simpa using h
      simp [List.count_cons, h, h2]

theorem nodup_foldl_incr (ks : List String) : ∀ (m : List (String × Int)),
    (m.map Prod.fst).Nodup → ((ks.foldl mapIncr m).map Prod.fst).Nodup := by
  induction ks with
  | nil => intro m h; exact h
  | cons a rest ih => intro m h; exact ih _ (nodup_keys_mapIncr m a h)

theorem sum_foldl_incr (ks : List String) : ∀ (m : List (String × Int)),
    ((ks.foldl mapIncr m).map Prod.snd).sum = (m.map Prod.snd).sum + (ks.length : Nat) := by
  induction ks with
  | nil => intro m; simp
  | cons a rest ih =>
    intro m
    rw [List.foldl_cons, ih, sum_mapIncr, List.length_cons]
    push_cast; ring

theorem mapGet_foldl_ensure (ts : List String) : ∀ (m : List (String × Int)) (k : String),
    mapGet (ts.foldl mapEnsure m) k =
      if k ∈ ts then some ((mapGet m k).getD 0) else mapGet m k := by
  induction ts with
  | nil => intro m k; simp
  | cons a rest ih =>
    intro m k
    rw [List.foldl_cons, ih, mapGet_mapEnsure]
    by_cases h : a = k
    · subst h; simp
    · have h2 : ¬ k = a := fun e => h e.symm
      simp [h, h2]

theorem nodup_foldl_ensure (ts : List String) : ∀ (m : List (String × Int)),
    (m.map Prod.fst).Nodup → ((ts.foldl mapEnsure m).map Prod.fst).Nodup := by
  induction ts with
  | nil => intro m h; exact h
  | cons a rest ih => intro m h; exact ih _ (nodup_keys_mapEnsure m a h)

theorem volumeMetaLoop_snd (vols : List Volume) : ∀ (c : SolidfireCollector)
    (m : List (String × Int)),
    (volumeMetaLoop c m vols).2 = (vols.map (fun v => v.Status)).foldl mapIncr m := by
  induction vols with
  | nil => intro c m; rfl
  | cons v rest ih => intro c m; simp only [volumeMetaLoop, List.map_cons, List.foldl_cons, ih]

theorem asyncStep_all (handles : List AsyncHandle) : ∀ st : AsyncState,
    (handles.foldl asyncStep st).allAsyncResults =
      (handles.map (fun h => h.ResultType)).foldl mapIncr st.allAsyncResults := by
  induction handles with
  | nil => intro st; rfl
  | cons v rest ih => intro st; simp only [List.foldl_cons, List.map_cons, ih, asyncStep]

theorem asyncStep_active (handles : List AsyncHandle) : ∀ st : AsyncState,
    (handles.foldl asyncStep st).activeAsyncResults =
      ((handles.filter (fun h => !h.Completed && !h.Success)).map
        (fun h => h.ResultType)).foldl mapIncr st.activeAsyncResults := by
  induction handles with
  | nil => intro st; rfl
  | cons v rest ih =>
    intro st
    by_cases h : (!v.Completed && !v.Success) = true
    · simp only [List.foldl_cons, ih, asyncStep, h, if_true, List.filter_cons_of_pos,
        List.map_cons]
    · simp only [List.foldl_cons, ih, asyncStep, h, if_false, List.filter_cons_of_neg,
        Bool.false_eq_true, not_false_eq_true]

theorem asyncEnsure_all (ts : List String) : ∀ st : AsyncState,
    (ts.foldl asyncEnsure st).allAsyncResults = ts.foldl mapEnsure st.allAsyncResults := by
  induction ts with
  | nil => intro st; rfl
  | cons v rest ih => intro st; simp only [List.foldl_cons, ih, asyncEnsure]

theorem asyncEnsure_active (ts : List String) : ∀ st : AsyncState,
    (ts.foldl asyncEnsure st).activeAsyncResults = ts.foldl mapEnsure st.activeAsyncResults := by
  induction ts with
  | nil => intro st; rfl
  | cons v rest ih => intro st; simp only [List.foldl_cons, ih, asyncEnsure]

theorem samplesOf_append (d : Desc) (xs ys : List Metric) :
    samplesOf d (xs ++ ys) = samplesOf d xs ++ samplesOf d ys := by
  induction xs with
  | nil => rfl
  | cons m rest ih =>
    cases m with
    | const d0 vt v l =>
      by_cases h : d0 = d <;> simp [samplesOf, h, ih]
    | histogram d0 c sm b l => simp [samplesOf, ih]

theorem samplesOf_map_same (d : Desc) (vt : ValueType) (xs : List (String × Int)) :
    samplesOf d (xs.map fun (k, v) => Metric.const d vt (F64.ofInt v) [k]) =
      xs.map fun p => ([p.1], F64.ofInt p.2) := by
  induction xs with
  | nil => rfl
  | cons p rest ih => simp [samplesOf, ih]

theorem samplesOf_map_other (d d0 : Desc) (h : d0 ≠ d) (vt : ValueType)
    (xs : List (String × Int)) :
    samplesOf d (xs.map fun (k, v) => Metric.const d0 vt (F64.ofInt v) [k]) = [] := by
  induction xs with
  | nil => rfl
  | cons p rest ih => simp [samplesOf, ih, h]

theorem entry_iff (ks ts : List String) (t : String) (n : Int) :
    (t, n) ∈ ts.foldl mapEnsure (ks.foldl mapIncr []) ↔
      n = (ks.count t : Nat) ∧ (0 < n ∨ t ∈ ts) := by
  rw [mem_iff_mapGet _ (nodup_foldl_ensure _ _ (nodup_foldl_incr _ _ (by simp))),
    mapGet_foldl_ensure, mapGet_foldl_incr]
  by_cases hc : ks.count t = 0
  · by_cases ht : t ∈ ts
    · simp only [hc, ht, if_true, mapGet, Option.getD_none, Option.some.injEq, Nat.cast_zero,
        or_true, and_true]
      exact eq_comm
    · simp only [hc, ht, if_true, if_false, mapGet, Nat.cast_zero, or_false]
      constructor
      · intro h; cases h
      · rintro ⟨h1, h2⟩; omega
  · have hpos : (0 : Int) < (ks.count t : Nat) := by omega
    by_cases ht : t ∈ ts
    · simp only [hc, ht, if_true, if_false, mapGet, Option.getD_none, Option.getD_some,
        Option.some.injEq, zero_add, or_true, and_true]
      exact eq_comm
    · simp only [hc, ht, if_false, mapGet, Option.getD_none, Option.some.injEq, zero_add,
        or_false]
      constructor
      · intro h; subst h; exact ⟨rfl, hpos⟩
      · rintro ⟨h1, _⟩; exact h1.symm

/-! ## Theorems: the volume exclusion filter -/

namespace Regex

theorem matchPrefix_fail (l : List Char) : matchPrefix fail l = false := by
  induction l with
  | nil => rfl
  | cons c cs ih => simp [matchPrefix, nullable, deriv, ih]

theorem matchPrefix_alt (l : List Char) : ∀ a b : Regex,
    matchPrefix (alt a b) l = (matchPrefix a l || matchPrefix b l) := by
  induction l with
  | nil => intro a b; rfl
  | cons c cs ih =>
    intro a b
    simp only [matchPrefix, nullable, deriv, ih]
    cases nullable a <;> cases nullable b <;> simp

theorem matchPrefix_cat_fail (b : Regex) (l : List Char) : matchPrefix (cat fail b) l = false := by
  induction l with
  | nil => rfl
  | cons c cs ih => simp [matchPrefix, nullable, deriv, ih]

theorem matchPrefix_cat_empty (b : Regex) (l : List Char) :
    matchPrefix (cat empty b) l = matchPrefix b l := by
  cases l with
  | nil => simp [matchPrefix, nullable]
  | cons c cs => simp [matchPrefix, nullable, deriv, matchPrefix_alt, matchPrefix_cat_fail]

theorem matchPrefix_cat_char (a : Char) (b : Regex) (l : List Char) :
    matchPrefix (cat (char a) b) l = true ↔ ∃ t, l = a :: t ∧ matchPrefix b t = true := by
  cases l with
  | nil => simp [matchPrefix, nullable]
  | cons c cs =>
    by_cases h : a = c
    · subst h
      simp [matchPrefix, nullable, deriv, matchPrefix_cat_empty]
    · have h2 : ¬ c = a := fun e => h e.symm
      simp [matchPrefix, nullable, deriv, h, h2, matchPrefix_cat_fail]

theorem matchPrefix_lit (w : List Char) (r : Regex) : ∀ l : List Char,
    matchPrefix (lit w r) l = true ↔ ∃ t, l = w ++ t ∧ matchPrefix r t = true := by
  induction w with
  | nil => intro l; simp [lit]
  | cons a rest ih =>
    intro l
    have e : lit (a :: rest) r = cat (char a) (lit rest r) := rfl
    rw [e, matchPrefix_cat_char]
    constructor
    · rintro ⟨t, rfl, ht⟩
      obtain ⟨u, rfl, hu⟩ := (ih t).1 ht
      exact ⟨u, rfl, hu⟩
    · rintro ⟨u, rfl, hu⟩
      exact ⟨rest ++ u, rfl, (ih _).2 ⟨u, rfl, hu⟩⟩

theorem matchPrefix_of_nullable (r : Regex) (h : nullable r = true) (l : List Char) :
    matchPrefix r l = true := by
  cases l <;> simp [matchPrefix, h]

theorem find_iff (r : Regex) (s : List Char) :
    find r s = true ↔ ∃ p l, s = p ++ l ∧ matchPrefix r l = true := by
  induction s with
  | nil =>
    simp only [find]
    constructor
    · intro h; exact ⟨[], [], rfl, h⟩
    · rintro ⟨p, l, h, hm⟩
      have hl : l = [] := (List.append_eq_nil.1 h.symm).2
      rw [hl] at hm; exact hm
  | cons c cs ih =>
    simp only [find, Bool.or_eq_true, ih]
    constructor
    · rintro (h | ⟨p, l, rfl, hm⟩)
      · exact ⟨[], c :: cs, rfl, h⟩
      · exact ⟨c :: p, l, rfl, hm⟩
    · rintro ⟨p, l, h, hm⟩
      cases p with
      | nil => left; rw [List.nil_append] at h; rw [h]; exact hm
      | cons a p2 =>
        right
        rw [List.cons_append, List.cons.injEq] at h
        exact ⟨p2, l, h.2, hm⟩

end Regex

theorem parse_volumeExclusionPattern :
    Regex.parse volumeExclusionPattern =
      Regex.alt
        (Regex.lit "snapshot-clone-src".data (Regex.cat (Regex.star (Regex.char '-')) Regex.empty))
        (Regex.lit "replica-vol".data (Regex.cat (Regex.star (Regex.char '-')) Regex.empty)) := by
  decide

/-- What the exclusion test of the code decides: the pattern matches a name
exactly when the name contains `snapshot-clone-src` or `replica-vol` somewhere,
with or without a dash after it. -/
theorem matchString_iff_contains (name : String) :
    MatchString volumeExclusionPattern name = true ↔
      "snapshot-clone-src".data <:+: name.data ∨ "replica-vol".data <:+: name.data := by
  unfold MatchString
  rw [parse_volumeExclusionPattern, Regex.find_iff]
  constructor
  · rintro ⟨p, l, hs, hm⟩
    rw [Regex.matchPrefix_alt, Bool.or_eq_true, Regex.matchPrefix_lit, Regex.matchPrefix_lit] at hm
    rcases hm with ⟨t, rfl, _⟩ | ⟨t, rfl, _⟩
    · left; exact ⟨p, t, by rw [hs, List.append_assoc]⟩
    · right; exact ⟨p, t, by rw [hs, List.append_assoc]⟩
  · rintro (⟨p, t, h⟩ | ⟨p, t, h⟩)
    · refine ⟨p, "snapshot-clone-src".data ++ t, by rw [← h, List.append_assoc], ?_⟩
      rw [Regex.matchPrefix_alt, Bool.or_eq_true, Regex.matchPrefix_lit]
      exact Or.inl ⟨t, rfl, Regex.matchPrefix_of_nullable
        (Regex.cat (Regex.star (Regex.char '-')) Regex.empty) rfl _⟩
    · refine ⟨p, "replica-vol".data ++ t, by rw [← h, List.append_assoc], ?_⟩
      rw [Regex.matchPrefix_alt, Bool.or_eq_true, Regex.matchPrefix_lit, Regex.matchPrefix_lit]
      exact Or.inr ⟨t, rfl, Regex.matchPrefix_of_nullable
        (Regex.cat (Regex.star (Regex.char '-')) Regex.empty) rfl _⟩

theorem matchString_replica (name : String) (h : HasPrefix name "replica-vol-" = true) :
    MatchString volumeExclusionPattern name = true := by
  unfold HasPrefix at h
  rw [List.isPrefixOf_iff_prefix] at h
  obtain ⟨t, ht⟩ := h
  unfold MatchString
  rw [← ht]
  rfl

theorem matchString_snapshot (name : String) (h : HasPrefix name "snapshot-clone-src-" = true) :
    MatchString volumeExclusionPattern name = true := by
  unfold HasPrefix at h
  rw [List.isPrefixOf_iff_prefix] at h
  obtain ⟨t, ht⟩ := h
  unfold MatchString
  rw [← ht]
  rfl

/-- C7 (the code at the failing inputs): the names `my-replica-vol-7`, which only
contains `replica-vol-` later in the name, and `replica-vol` and
`snapshot-clone-src`, which lack the trailing dash, begin with neither
`snapshot-clone-src-` nor `replica-vol-`, yet the pattern matches them and
`collectVolumeStats` and `collectVolumeQosHistograms` send nothing for a volume
so named; the match is case-sensitive (`REPLICA-VOL-7` is not excluded). -/
theorem C7_exclusion_matches_beyond_prefix :
    (∀ name ∈ ["my-replica-vol-7", "replica-vol", "snapshot-clone-src"],
      HasPrefix name "snapshot-clone-src-" = false ∧ HasPrefix name "replica-vol-" = false ∧
      MatchString volumeExclusionPattern name = true ∧
      collectVolumeStats (cacheWithName name) (.ok [zeroVolumeStats 1]) = .ok [] ∧
      collectVolumeQosHistograms (cacheWithName name) (.ok [zeroQosHistogram 1]) = .ok []) ∧
    MatchString volumeExclusionPattern "REPLICA-VOL-7" = false ∧
    MatchString volumeExclusionPattern "replica-vol-7" = true := by
  refine ⟨?_, by decide, by decide⟩
  intro name h
  simp only [List.mem_cons, List.mem_singleton, List.not_mem_nil, or_false] at h
  rcases h with rfl | rfl | rfl <;> exact ⟨by decide, by decide, by decide, rfl, rfl⟩

theorem volumeStatsBody_labels (c : SolidfireCollector) (vol : VolumeStats) (m : Metric)
    (hm : m ∈ volumeStatsBody c vol) :
    m.labelValues = (c.volumeMetadataAt vol.VolumeID).Values ∧
      MatchString volumeExclusionPattern (c.volumeMetadataAt vol.VolumeID).Name = false := by
  unfold volumeStatsBody at hm
  cases hx : MatchString volumeExclusionPattern (c.volumeMetadataAt vol.VolumeID).Name
  · simp only [hx, Bool.false_eq_true, if_false, List.mem_cons, List.mem_singleton,
      List.not_mem_nil, or_false] at hm
    refine ⟨?_, rfl⟩
    rcases hm with h | h | h | h | h | h | h | h | h | h | h | h | h | h | h | h | h | h <;>
      rw [h] <;> rfl
  · simp [hx] at hm

theorem volumeQosBody_labels (c : SolidfireCollector) (h : QosHistogram) (m : Metric)
    (hm : m ∈ volumeQosBody c h) :
    m.labelValues = (c.volumeMetadataAt h.VolumeID).Values ∧
      MatchString volumeExclusionPattern (c.volumeMetadataAt h.VolumeID).Name = false := by
  unfold volumeQosBody at hm
  cases hx : MatchString volumeExclusionPattern (c.volumeMetadataAt h.VolumeID).Name
  · simp only [hx, Bool.false_eq_true, if_false, List.mem_cons, List.mem_singleton,
      List.not_mem_nil, or_false] at hm
    refine ⟨?_, rfl⟩
    rcases hm with h | h | h | h | h | h <;> rw [h] <;> rfl
  · simp [hx] at hm

theorem not_hasPrefix_of_not_match (name : String)
    (h : MatchString volumeExclusionPattern name = false) :
    HasPrefix name "replica-vol-" = false ∧ HasPrefix name "snapshot-clone-src-" = false := by
  constructor
  · cases hp : HasPrefix name "replica-vol-"
    · rfl
    · rw [matchString_replica name hp] at h; cases h
  · cases hp : HasPrefix name "snapshot-clone-src-"
    · rfl
    · rw [matchString_snapshot name hp] at h; cases h

theorem volumeCnt_entry_iff (volumes : List Volume) (c : SolidfireCollector) (status : String)
    (n : Int) :
    (status, n) ∈ (volumeMetaLoop c [] volumes).2 ↔
      n = (volumes.countP (fun v => v.Status == status) : Nat) ∧ 0 < n := by
  have h := entry_iff (volumes.map (fun v => v.Status)) [] status n
  rw [volumeMetaLoop_snd]
  simp only [List.foldl_nil, List.not_mem_nil, or_false] at h
  rw [h, List.count_eq_countP, List.countP_map]
  rfl

/-- C8: for every cache, volume list and stats/QoS result, an element whose
cached name begins with `replica-vol-` (such as `replica-vol-7`) or with
`snapshot-clone-src-` makes `collectVolumeStats` and
`collectVolumeQosHistograms` send nothing, so no sample they send carries such
a name; `collectVolumeMeta` counts every volume whatever its name: it sends one
VolumeCount sample per status present, whose value is `float64` of the number
of volumes of the list with that status, and the counts sum to the length of
the list. -/
theorem C8_excluded_volume_still_counted (c : SolidfireCollector)
    (volumeStats : List VolumeStats) (qosHistograms : List QosHistogram)
    (volumes : List Volume) :
    MatchString volumeExclusionPattern "replica-vol-7" = true ∧
    (∀ vol : VolumeStats,
      (HasPrefix (c.volumeMetadataAt vol.VolumeID).Name "replica-vol-" = true ∨
        HasPrefix (c.volumeMetadataAt vol.VolumeID).Name "snapshot-clone-src-" = true) →
      volumeStatsBody c vol = []) ∧
    (∀ h : QosHistogram,
      (HasPrefix (c.volumeMetadataAt h.VolumeID).Name "replica-vol-" = true ∨
        HasPrefix (c.volumeMetadataAt h.VolumeID).Name "snapshot-clone-src-" = true) →
      volumeQosBody c h = []) ∧
    (∃ ms, collectVolumeStats c (.ok volumeStats) = .ok ms ∧
      ∀ m ∈ ms, ∃ vol ∈ volumeStats,
        m.labelValues = (c.volumeMetadataAt vol.VolumeID).Values ∧
        HasPrefix (c.volumeMetadataAt vol.VolumeID).Name "replica-vol-" = false ∧
        HasPrefix (c.volumeMetadataAt vol.VolumeID).Name "snapshot-clone-src-" = false) ∧
    (∃ ms, collectVolumeQosHistograms c (.ok qosHistograms) = .ok ms ∧
      ∀ m ∈ ms, ∃ h ∈ qosHistograms,
        m.labelValues = (c.volumeMetadataAt h.VolumeID).Values ∧
        HasPrefix (c.volumeMetadataAt h.VolumeID).Name "replica-vol-" = false ∧
        HasPrefix (c.volumeMetadataAt h.VolumeID).Name "snapshot-clone-src-" = false) ∧
    (∃ (c1 : SolidfireCollector) (ms : List Metric) (cnt : List (String × Int)),
      collectVolumeMeta c (.ok volumes) = .ok (c1, ms) ∧
      ms = cnt.map (fun p => Metric.const .VolumeCount .CounterValue (F64.ofInt p.2) [p.1]) ∧
      (cnt.map Prod.fst).Nodup ∧
      (∀ status n, (status, n) ∈ cnt ↔
        n = (volumes.countP (fun v => v.Status == status) : Nat) ∧ 0 < n) ∧
      (cnt.map Prod.snd).sum = (volumes.length : Nat)) := by
  refine ⟨by decide, ?_, ?_, ⟨_, rfl, ?_⟩, ⟨_, rfl, ?_⟩,
    ⟨(volumeMetaLoop c [] volumes).1, _, (volumeMetaLoop c [] volumes).2, rfl, rfl, ?_, ?_, ?_⟩⟩
  · intro vol h
    have hm : MatchString volumeExclusionPattern (c.volumeMetadataAt vol.VolumeID).Name = true := by
      rcases h with h | h
      · exact matchString_replica _ h
      · exact matchString_snapshot _ h
    simp [volumeStatsBody, hm]
  · intro q h
    have hm : MatchString volumeExclusionPattern (c.volumeMetadataAt q.VolumeID).Name = true := by
      rcases h with h | h
      · exact matchString_replica _ h
      · exact matchString_snapshot _ h
    simp [volumeQosBody, hm]
  · intro m hm
    rw [List.mem_flatMap] at hm
    obtain ⟨vol, hvol, hmv⟩ := hm
    obtain ⟨h1, h2⟩ := volumeStatsBody_labels c vol m hmv
    exact ⟨vol, hvol, h1, not_hasPrefix_of_not_match _ h2⟩
  · intro m hm
    rw [List.mem_flatMap] at hm
    obtain ⟨q, hq, hmq⟩ := hm
    obtain ⟨h1, h2⟩ := volumeQosBody_labels c q m hmq
    exact ⟨q, hq, h1, not_hasPrefix_of_not_match _ h2⟩
  · rw [volumeMetaLoop_snd]
    exact nodup_foldl_incr _ _ (by simp)
  · intro status n
    exact volumeCnt_entry_iff volumes c status n
  · rw [volumeMetaLoop_snd, sum_foldl_incr]
    simp

/-! ## Theorems: collectClusterFullThreshold -/

theorem ofInt_strCompare (f : Char → Char) (a b : String) :
    F64.ofInt (strCompare f a b) = if ToLower f a = ToLower f b then F64.one else F64.zero := by
  unfold strCompare Compare
  by_cases h : ToLower f a = ToLower f b
  · simp only [h, if_true]
    decide!
  · simp only [h, if_false]
    have h2 : (if ToLower f a < ToLower f b then (-1 : Int) else 1) ≠ 0 := by
      split_ifs <;> decide
    simp only [h2, if_false]
    decide!

theorem toLower_ascii (f : Char → Char) (hf : ∀ ch : Char, ch.val < 128 → f ch = ch.toLower)
    (s : String) (hs : ∀ ch ∈ s.data, ch.val < 128) :
    ToLower f s = String.mk (s.data.map Char.toLower) := by
  unfold ToLower
  congr 1
  exact List.map_congr_left (fun ch hch => hf ch (hs ch hch))

/-- C9: for every observed BlockFullness label, and likewise for every
MetadataFullness label, `collectClusterFullThreshold` sends exactly five
samples, one per member of stage1Happy, stage2Aware, stage3Low, stage4Critical,
stage5CompletelyConsumed in that order, and the sample for a member is `1.0`
when the member equals the label after `strings.ToLower` of both and `0.0`
otherwise; a label that equals no member that way gives five `0.0` samples and
no error; and for the label `stage3Low` exactly the stage3Low sample is `1.0`
(given that `unicode.ToLower` lowers ASCII letters and leaves other ASCII
characters unchanged). -/
theorem C9_fullness_one_hot (toLowerRune : Char → Char) (r : ClusterFullThreshold) :
    ∃ ms, collectClusterFullThreshold toLowerRune (.ok r) = .ok ms ∧
      samplesOf .ClusterBlockFullness ms = fullnessStages.map (fun m =>
        ([m], if ToLower toLowerRune r.BlockFullness = ToLower toLowerRune m
          then F64.one else F64.zero)) ∧
      samplesOf .ClusterMetadataFullness ms = fullnessStages.map (fun m =>
        ([m], if ToLower toLowerRune r.MetadataFullness = ToLower toLowerRune m
          then F64.one else F64.zero)) ∧
      ((∀ m ∈ fullnessStages,
          ToLower toLowerRune r.BlockFullness ≠ ToLower toLowerRune m) →
        (samplesOf .ClusterBlockFullness ms).map Prod.snd =
          [F64.zero, F64.zero, F64.zero, F64.zero, F64.zero]) ∧
      ((∀ m ∈ fullnessStages,
          ToLower toLowerRune r.MetadataFullness ≠ ToLower toLowerRune m) →
        (samplesOf .ClusterMetadataFullness ms).map Prod.snd =
          [F64.zero, F64.zero, F64.zero, F64.zero, F64.zero]) ∧
      ((∀ ch : Char, ch.val < 128 → toLowerRune ch = ch.toLower) →
        (r.BlockFullness = "stage3Low" →
          (samplesOf .ClusterBlockFullness ms).map Prod.snd =
            [F64.zero, F64.zero, F64.one, F64.zero, F64.zero]) ∧
        (r.MetadataFullness = "stage3Low" →
          (samplesOf .ClusterMetadataFullness ms).map Prod.snd =
            [F64.zero, F64.zero, F64.one, F64.zero, F64.zero])) := by
  obtain ⟨ms, hms, hB, hM⟩ : ∃ ms, collectClusterFullThreshold toLowerRune (.ok r) = .ok ms ∧
      samplesOf .ClusterBlockFullness ms = fullnessStages.map (fun m =>
        ([m], if ToLower toLowerRune r.BlockFullness = ToLower toLowerRune m
          then F64.one else F64.zero)) ∧
      samplesOf .ClusterMetadataFullness ms = fullnessStages.map (fun m =>
        ([m], if ToLower toLowerRune r.MetadataFullness = ToLower toLowerRune m
          then F64.one else F64.zero)) := by
    refine ⟨_, rfl, ?_, ?_⟩
    · simp only [samplesOf, fullnessStages, List.map, ofInt_strCompare]
      simp
    · simp only [samplesOf, fullnessStages, List.map, ofInt_strCompare]
      simp
  refine ⟨ms, hms, hB, hM, ?_, ?_, ?_⟩
  · intro h
    simp only [fullnessStages, List.mem_cons, List.mem_singleton, List.not_mem_nil, or_false,
      forall_eq_or_imp, forall_eq] at h
    obtain ⟨h1, h2, h3, h4, h5⟩ := h
    rw [hB]
    simp [fullnessStages, h1, h2, h3, h4, h5]
  · intro h
    simp only [fullnessStages, List.mem_cons, List.mem_singleton, List.not_mem_nil, or_false,
      forall_eq_or_imp, forall_eq] at h
    obtain ⟨h1, h2, h3, h4, h5⟩ := h
    rw [hM]
    simp [fullnessStages, h1, h2, h3, h4, h5]
  · intro hf
    have hl : ∀ s : String, (∀ ch ∈ s.data, ch.val < 128) →
        ToLower toLowerRune s = String.mk (s.data.map Char.toLower) :=
      toLower_ascii toLowerRune hf
    have e1 := hl "stage1Happy" (by decide)
    have e2 := hl "stage2Aware" (by decide)
    have e3 := hl "stage3Low" (by decide)
    have e4 := hl "stage4Critical" (by decide)
    have e5 := hl "stage5CompletelyConsumed" (by decide)
    constructor
    · intro hr
      rw [hB, hr]
      simp only [fullnessStages, List.map, e1, e2, e3, e4, e5]
      decide!
    · intro hr
      rw [hM, hr]
      simp only [fullnessStages, List.map, e1, e2, e3, e4, e5]
      decide!

/-! ## Theorems: collectAsyncResults -/

/-- C10: for every list of async handles, the AsyncResults samples are the
entries of the total map and the AsyncResultsActive samples the entries of the
active map, each result-type at most once, the value being `float64` of the
count; the total count sent for `t` is the number of handles whose ResultType
is `t`, the active count sent for `t` is the number of handles of type `t` with
`Completed = false` and `Success = false`, and a type is sent when its count is
positive or it is one of the five known types. -/
theorem C10_async_counts (handles : List AsyncHandle) :
    ∃ (ms : List Metric) (active all : List (String × Int)),
      collectAsyncResults (.ok handles) = .ok ms ∧
      samplesOf .AsyncResultsActive ms = active.map (fun p => ([p.1], F64.ofInt p.2)) ∧
      samplesOf .AsyncResults ms = all.map (fun p => ([p.1], F64.ofInt p.2)) ∧
      (active.map Prod.fst).Nodup ∧ (all.map Prod.fst).Nodup ∧
      (∀ t n, (t, n) ∈ all ↔
        n = (handles.countP (fun h => h.ResultType == t) : Nat) ∧ (0 < n ∨ t ∈ asyncTypes)) ∧
      (∀ t n, (t, n) ∈ active ↔
        n = (handles.countP (fun h => h.ResultType == t && (!h.Completed && !h.Success)) : Nat) ∧
          (0 < n ∨ t ∈ asyncTypes)) := by
  refine ⟨_, (asyncMaps handles).activeAsyncResults, (asyncMaps handles).allAsyncResults, rfl,
    ?_, ?_, ?_, ?_, ?_, ?_⟩
  · simp only [samplesOf_append, samplesOf_map_same,
      samplesOf_map_other .AsyncResultsActive .AsyncResults (by decide), samplesOf,
      List.append_nil]
    simp
  · simp only [samplesOf_append, samplesOf_map_same,
      samplesOf_map_other .AsyncResults .AsyncResultsActive (by decide), samplesOf,
      List.nil_append]
    simp
  · unfold asyncMaps
    rw [asyncEnsure_active, asyncStep_active]
    exact nodup_foldl_ensure _ _ (nodup_foldl_incr _ _ (by simp))
  · unfold asyncMaps
    rw [asyncEnsure_all, asyncStep_all]
    exact nodup_foldl_ensure _ _ (nodup_foldl_incr _ _ (by simp))
  · intro t n
    unfold asyncMaps
    rw [asyncEnsure_all, asyncStep_all, entry_iff, List.count_eq_countP, List.countP_map]
    rfl
  · intro t n
    unfold asyncMaps
    rw [asyncEnsure_active, asyncStep_active, entry_iff, List.count_eq_countP, List.countP_map,
      List.countP_filter]
    rfl

theorem asyncStep_max (handles : List AsyncHandle) : ∀ st : AsyncState,
    st.maxAsyncResultID ≤ (handles.foldl asyncStep st).maxAsyncResultID ∧
    (∀ h ∈ handles, h.AsyncResultID ≤ (handles.foldl asyncStep st).maxAsyncResultID) ∧
    ((handles.foldl asyncStep st).maxAsyncResultID = st.maxAsyncResultID ∨
      ∃ h ∈ handles, h.AsyncResultID = (handles.foldl asyncStep st).maxAsyncResultID) := by
  induction handles with
  | nil => intro st; simp
  | cons v rest ih =>
    intro st
    obtain ⟨h1, h2, h3⟩ := ih (asyncStep st v)
    have hs : (asyncStep st v).maxAsyncResultID =
        if v.AsyncResultID > st.maxAsyncResultID then v.AsyncResultID
        else st.maxAsyncResultID := rfl
    rw [List.foldl_cons]
    refine ⟨?_, ?_, ?_⟩
    · rw [hs] at h1; split_ifs at h1 <;> omega
    · intro h hh
      rcases List.mem_cons.1 hh with rfl | hh
      · rw [hs] at h1; split_ifs at h1 <;> omega
      · exact h2 h hh
    · rcases h3 with h3 | ⟨h, hh, he⟩
      · rw [hs] at h3
        split_ifs at h3
        · exact Or.inr ⟨v, List.mem_cons_self _ _, h3.symm⟩
        · exact Or.inl h3
      · exact Or.inr ⟨h, List.mem_cons_of_mem _ hh, he⟩

theorem asyncEnsure_max (ts : List String) : ∀ st : AsyncState,
    (ts.foldl asyncEnsure st).maxAsyncResultID = st.maxAsyncResultID := by
  induction ts with
  | nil => intro st; rfl
  | cons v rest ih => intro st; simp only [List.foldl_cons, ih, asyncEnsure]

theorem valuesOf_append (d : Desc) (xs ys : List Metric) :
    valuesOf d (xs ++ ys) = valuesOf d xs ++ valuesOf d ys := by
  induction xs with
  | nil => rfl
  | cons m rest ih =>
    cases m with
    | const d0 vt v l => by_cases h : d0 = d <;> simp [valuesOf, h, ih]
    | histogram d0 c sm b l => simp [valuesOf, ih]

theorem valuesOf_map_other (d d0 : Desc) (h : d0 ≠ d) (vt : ValueType)
    (xs : List (String × Int)) :
    valuesOf d (xs.map fun (k, v) => Metric.const d0 vt (F64.ofInt v) [k]) = [] := by
  induction xs with
  | nil => rfl
  | cons p rest ih => simp [valuesOf, ih, h]

theorem asyncMaps_all_iff (handles : List AsyncHandle) (t : String) (n : Int) :
    (t, n) ∈ (asyncMaps handles).allAsyncResults ↔
      n = (handles.countP (fun h => h.ResultType == t) : Nat) ∧ (0 < n ∨ t ∈ asyncTypes) := by
  unfold asyncMaps
  rw [asyncEnsure_all, asyncStep_all, entry_iff, List.count_eq_countP, List.countP_map]
  rfl

theorem asyncMaps_active_iff (handles : List AsyncHandle) (t : String) (n : Int) :
    (t, n) ∈ (asyncMaps handles).activeAsyncResults ↔
      n = (handles.countP (fun h => h.ResultType == t && (!h.Completed && !h.Success)) : Nat) ∧
        (0 < n ∨ t ∈ asyncTypes) := by
  unfold asyncMaps
  rw [asyncEnsure_active, asyncStep_active, entry_iff, List.count_eq_countP, List.countP_map,
    List.countP_filter]
  rfl

theorem asyncSamples (handles : List AsyncHandle) :
    ∃ ms, collectAsyncResults (.ok handles) = .ok ms ∧
      samplesOf .AsyncResultsActive ms =
        (asyncMaps handles).activeAsyncResults.map (fun p => ([p.1], F64.ofInt p.2)) ∧
      samplesOf .AsyncResults ms =
        (asyncMaps handles).allAsyncResults.map (fun p => ([p.1], F64.ofInt p.2)) ∧
      valuesOf .MaxAsyncResultID ms = [F64.ofInt (asyncMaps handles).maxAsyncResultID] := by
  refine ⟨_, rfl, ?_, ?_, ?_⟩
  · simp only [samplesOf_append, samplesOf_map_same,
      samplesOf_map_other .AsyncResultsActive .AsyncResults (by decide), samplesOf,
      List.append_nil]
    simp
  · simp only [samplesOf_append, samplesOf_map_same,
      samplesOf_map_other .AsyncResults .AsyncResultsActive (by decide), samplesOf,
      List.nil_append]
    simp
  · simp only [valuesOf_append,
      valuesOf_map_other .MaxAsyncResultID .AsyncResults (by decide),
      valuesOf_map_other .MaxAsyncResultID .AsyncResultsActive (by decide), valuesOf,
      List.nil_append]
    simp

/-- C11: for every list of async handles, each of the five known result-types
DriveAdd, BulkVolume, Clone, DriveRemoval and RtfiPendingNode has an entry in
the total map and in the active map, whose value is the count of the handles
that contribute (so `0` when none does), and a sample is sent for it; for the
empty list `collectAsyncResults` sends exactly the five types with value `0`
for each map, and the watermark `0`. -/
theorem C11_known_types_always_sent (handles : List AsyncHandle) :
    (∃ (ms : List Metric) (active all : List (String × Int)),
      collectAsyncResults (.ok handles) = .ok ms ∧
      samplesOf .AsyncResultsActive ms = active.map (fun p => ([p.1], F64.ofInt p.2)) ∧
      samplesOf .AsyncResults ms = all.map (fun p => ([p.1], F64.ofInt p.2)) ∧
      (∀ t ∈ asyncTypes,
        (t, ((handles.countP (fun h => h.ResultType == t) : Nat) : Int)) ∈ all ∧
        (t, ((handles.countP
          (fun h => h.ResultType == t && (!h.Completed && !h.Success)) : Nat) : Int)) ∈ active) ∧
      (∀ t ∈ asyncTypes, handles.countP (fun h => h.ResultType == t) = 0 →
        ([t], F64.zero) ∈ samplesOf .AsyncResults ms) ∧
      (∀ t ∈ asyncTypes,
        handles.countP (fun h => h.ResultType == t && (!h.Completed && !h.Success)) = 0 →
        ([t], F64.zero) ∈ samplesOf .AsyncResultsActive ms)) ∧
    (∃ ms, collectAsyncResults (.ok []) = .ok ms ∧
      ms = asyncTypes.map (fun t => Metric.const .AsyncResultsActive .GaugeValue F64.zero [t]) ++
        asyncTypes.map (fun t => Metric.const .AsyncResults .GaugeValue F64.zero [t]) ++
        [Metric.const .MaxAsyncResultID .GaugeValue F64.zero []]) := by
  have hzero : F64.ofInt 0 = F64.zero := by decide!
  obtain ⟨ms, hms, hact, hall, _⟩ := asyncSamples handles
  have hA : ∀ t ∈ asyncTypes,
      (t, ((handles.countP (fun h => h.ResultType == t) : Nat) : Int)) ∈
        (asyncMaps handles).allAsyncResults :=
    fun t ht => (asyncMaps_all_iff handles t _).2 ⟨rfl, Or.inr ht⟩
  have hB : ∀ t ∈ asyncTypes,
      (t, ((handles.countP
        (fun h => h.ResultType == t && (!h.Completed && !h.Success)) : Nat) : Int)) ∈
        (asyncMaps handles).activeAsyncResults :=
    fun t ht => (asyncMaps_active_iff handles t _).2 ⟨rfl, Or.inr ht⟩
  refine ⟨⟨ms, _, _, hms, hact, hall, fun t ht => ⟨hA t ht, hB t ht⟩, ?_, ?_⟩, ⟨_, rfl, ?_⟩⟩
  · intro t ht h0
    rw [hall]
    have := hA t ht
    rw [h0] at this
    exact List.mem_map.2 ⟨_, this, by simp [hzero]⟩
  · intro t ht h0
    rw [hact]
    have := hB t ht
    rw [h0] at this
    exact List.mem_map.2 ⟨_, this, by simp [hzero]⟩
  · decide!

/-- C12 (as stated, refuted): for the non-empty list with the single handle of
AsyncResultID `-5` the watermark sent is `0`, which is not the maximum
AsyncResultID observed, `-5`. -/
theorem C12_negative_id_counterexample :
    ∃ ms, collectAsyncResults (.ok [negativeHandle]) = .ok ms ∧
      valuesOf .MaxAsyncResultID ms = [F64.zero] ∧
      F64.toRat F64.zero = 0 ∧
      F64.ofInt (-5) ≠ F64.zero ∧ F64.toRat (F64.ofInt (-5)) = -5 := by
  refine ⟨_, rfl, by decide!, ?_, by decide!, ?_⟩
  · simp [F64.toRat, F64.zero]
  · exact F64.toRat_ofInt (-5) (by decide)

/-- C12 (amended): for every list of async handles the watermark sent as
MaxAsyncResultID is `float64` of the largest of `0` and the AsyncResultIDs
observed: it is at least `0` and at least every AsyncResultID, and it is `0` or
the AsyncResultID of a handle; so whenever some handle has a non-negative
AsyncResultID it is `float64` of the maximum AsyncResultID observed among the
handles, and the conversion is exact up to `2^53`. -/
theorem C12_watermark (handles : List AsyncHandle) :
    ∃ (ms : List Metric) (w : Int), collectAsyncResults (.ok handles) = .ok ms ∧
      valuesOf .MaxAsyncResultID ms = [F64.ofInt w] ∧
      0 ≤ w ∧ (∀ h ∈ handles, h.AsyncResultID ≤ w) ∧
      (w = 0 ∨ ∃ h ∈ handles, h.AsyncResultID = w) ∧
      ((∃ h ∈ handles, 0 ≤ h.AsyncResultID) →
        (∃ h ∈ handles, h.AsyncResultID = w) ∧ ∀ h ∈ handles, h.AsyncResultID ≤ w) ∧
      (w ≤ 2 ^ 53 → F64.toRat (F64.ofInt w) = w) := by
  obtain ⟨ms, hms, _, _, hmax⟩ := asyncSamples handles
  have hw : (asyncMaps handles).maxAsyncResultID =
      (handles.foldl asyncStep
        { maxAsyncResultID := 0, activeAsyncResults := [], allAsyncResults := [] }
        ).maxAsyncResultID := by
    unfold asyncMaps; rw [asyncEnsure_max]
  obtain ⟨h1, h2, h3⟩ := asyncStep_max handles
    { maxAsyncResultID := 0, activeAsyncResults := [], allAsyncResults := [] }
  rw [← hw] at h1 h2 h3
  simp only at h1 h3
  refine ⟨ms, (asyncMaps handles).maxAsyncResultID, hms, hmax, h1, h2, h3, ?_, ?_⟩
  · rintro ⟨h, hh, h0⟩
    refine ⟨?_, h2⟩
    rcases h3 with h3 | h3
    · have := h2 h hh
      exact ⟨h, hh, by rw [h3] at this ⊢; omega⟩
    · exact h3
  · intro hle
    apply F64.toRat_ofInt
    have h0 : (0 : Int) ≤ (asyncMaps handles).maxAsyncResultID := h1
    omega

/-! ## Theorems: the metadata cache -/

theorem volumeMetaLoop_nodes (vols : List Volume) : ∀ (c : SolidfireCollector)
    (m : List (String × Int)), (volumeMetaLoop c m vols).1.nodesNamesByID = c.nodesNamesByID := by
  induction vols with
  | nil => intro c m; rfl
  | cons v rest ih => intro c m; simp only [volumeMetaLoop, ih]; rfl

theorem volumeMetaLoop_absent (vols : List Volume) (id : Int) : ∀ (c : SolidfireCollector)
    (m : List (String × Int)), (∀ w ∈ vols, w.VolumeID ≠ id) →
    (volumeMetaLoop c m vols).1.volumeMetadataByID id = c.volumeMetadataByID id := by
  induction vols with
  | nil => intro c m _; rfl
  | cons v rest ih =>
    intro c m h
    have hv : ¬ id = v.VolumeID := fun e => h v (List.mem_cons_self _ _) e.symm
    simp only [volumeMetaLoop]
    rw [ih _ _ (fun w hw => h w (List.mem_cons_of_mem _ hw))]
    simp [SolidfireCollector.setVolumeMetadata, hv]

theorem volumeMetaLoop_last (pre : List Volume) (vol : Volume) (post : List Volume)
    (hpost : ∀ w ∈ post, w.VolumeID ≠ vol.VolumeID) : ∀ (c : SolidfireCollector)
    (m : List (String × Int)),
    (volumeMetaLoop c m (pre ++ vol :: post)).1.volumeMetadataByID vol.VolumeID =
      some (volumeMetadataOf vol) := by
  induction pre with
  | nil =>
    intro c m
    simp only [List.nil_append, volumeMetaLoop]
    rw [volumeMetaLoop_absent post vol.VolumeID _ _ hpost]
    simp [SolidfireCollector.setVolumeMetadata]
  | cons p rest ih => intro c m; exact ih _ _

theorem volumeMetaLoop_keeps (vols : List Volume) (id : Int) : ∀ (c : SolidfireCollector)
    (m : List (String × Int)), (c.volumeMetadataByID id).isSome = true →
    ((volumeMetaLoop c m vols).1.volumeMetadataByID id).isSome = true := by
  induction vols with
  | nil => intro c m h; exact h
  | cons v rest ih =>
    intro c m h
    simp only [volumeMetaLoop]
    apply ih
    by_cases e : id = v.VolumeID <;> simp [SolidfireCollector.setVolumeMetadata, e, h]

theorem nodeMetaLoop_volumes (nodes : List Node) : ∀ c : SolidfireCollector,
    (nodeMetaLoop c nodes).1.volumeMetadataByID = c.volumeMetadataByID := by
  induction nodes with
  | nil => intro c; rfl
  | cons v rest ih => intro c; simp only [nodeMetaLoop, ih]; rfl

theorem nodeMetaLoop_absent (nodes : List Node) (id : Int) : ∀ c : SolidfireCollector,
    (∀ w ∈ nodes, w.NodeID ≠ id) →
    (nodeMetaLoop c nodes).1.nodesNamesByID id = c.nodesNamesByID id := by
  induction nodes with
  | nil => intro c _; rfl
  | cons v rest ih =>
    intro c h
    have hv : ¬ id = v.NodeID := fun e => h v (List.mem_cons_self _ _) e.symm
    simp only [nodeMetaLoop]
    rw [ih _ (fun w hw => h w (List.mem_cons_of_mem _ hw))]
    simp [SolidfireCollector.setNodeName, hv]

theorem nodeMetaLoop_last (pre : List Node) (node : Node) (post : List Node)
    (hpost : ∀ w ∈ post, w.NodeID ≠ node.NodeID) : ∀ c : SolidfireCollector,
    (nodeMetaLoop c (pre ++ node :: post)).1.nodesNamesByID node.NodeID = some node.Name := by
  induction pre with
  | nil =>
    intro c
    simp only [List.nil_append, nodeMetaLoop]
    rw [nodeMetaLoop_absent post node.NodeID _ hpost]
    simp [SolidfireCollector.setNodeName]
  | cons p rest ih => intro c; exact ih _

theorem nodeMetaLoop_keeps (nodes : List Node) (id : Int) : ∀ c : SolidfireCollector,
    (c.nodesNamesByID id).isSome = true →
    ((nodeMetaLoop c nodes).1.nodesNamesByID id).isSome = true := by
  induction nodes with
  | nil => intro c h; exact h
  | cons v rest ih =>
    intro c h
    simp only [nodeMetaLoop]
    apply ih
    by_cases e : id = v.NodeID <;> simp [SolidfireCollector.setNodeName, e, h]

theorem nodeMetaLoop_congr (nodes : List Node) : ∀ c d : SolidfireCollector,
    c.nodesNamesByID = d.nodesNamesByID →
    (nodeMetaLoop c nodes).1.nodesNamesByID = (nodeMetaLoop d nodes).1.nodesNamesByID := by
  induction nodes with
  | nil => intro c d h; exact h
  | cons v rest ih =>
    intro c d h
    simp only [nodeMetaLoop]
    apply ih
    simp only [SolidfireCollector.setNodeName, h]

theorem collect_collector (tl : Char → Char) (sf : F64 → String) (c : SolidfireCollector)
    (client : Client) : (Collect tl sf c client).collector = (metadataGroup c client).1 := by
  unfold Collect
  simp only
  split_ifs <;> rfl

theorem metadataGroup_volumes (c : SolidfireCollector) (client : Client) (id : Int) :
    (metadataGroup c client).1.volumeMetadataByID id =
      match client.ListVolumes with
      | .ok volumes => (volumeMetaLoop c [] volumes).1.volumeMetadataByID id
      | .error _ => c.volumeMetadataByID id := by
  unfold metadataGroup
  cases hv : client.ListVolumes <;> cases hn : client.ListAllNodes <;>
    simp [collectVolumeMeta, collectNodeMeta, nodeMetaLoop_volumes]

theorem metadataGroup_nodes (c : SolidfireCollector) (client : Client) (id : Int) :
    (metadataGroup c client).1.nodesNamesByID id =
      match client.ListAllNodes with
      | .ok nodes => (nodeMetaLoop c nodes).1.nodesNamesByID id
      | .error _ => c.nodesNamesByID id := by
  unfold metadataGroup
  cases hv : client.ListVolumes <;> cases hn : client.ListAllNodes <;>
    simp [collectVolumeMeta, collectNodeMeta, volumeMetaLoop_nodes,
      nodeMetaLoop_congr _ _ _ (volumeMetaLoop_nodes _ c [])]

theorem metadataGroup_keeps_volumes (c : SolidfireCollector) (client : Client) (id : Int)
    (h : (c.volumeMetadataByID id).isSome = true) :
    ((metadataGroup c client).1.volumeMetadataByID id).isSome = true := by
  rw [metadataGroup_volumes]
  cases client.ListVolumes with
  | error e => exact h
  | ok volumes => exact volumeMetaLoop_keeps volumes id c [] h

theorem metadataGroup_keeps_nodes (c : SolidfireCollector) (client : Client) (id : Int)
    (h : (c.nodesNamesByID id).isSome = true) :
    ((metadataGroup c client).1.nodesNamesByID id).isSome = true := by
  rw [metadataGroup_nodes]
  cases client.ListAllNodes with
  | error e => exact h
  | ok nodes => exact nodeMetaLoop_keeps nodes id c h

theorem scrapes_keeps (tl : Char → Char) (sf : F64 → String) (clients : List Client) (id : Int) :
    ∀ c : SolidfireCollector,
      ((c.volumeMetadataByID id).isSome = true →
        ((scrapes tl sf c clients).volumeMetadataByID id).isSome = true) ∧
      ((c.nodesNamesByID id).isSome = true →
        ((scrapes tl sf c clients).nodesNamesByID id).isSome = true) := by
  induction clients with
  | nil => intro c; exact ⟨fun h => h, fun h => h⟩
  | cons client rest ih =>
    intro c
    simp only [scrapes, collect_collector]
    exact ⟨fun h => (ih _).1 (metadataGroup_keeps_volumes c client id h),
      fun h => (ih _).2 (metadataGroup_keeps_nodes c client id h)⟩

/-- C13: the metadata cache only accumulates.  After `collectVolumeMeta` each
id of the fetched list maps to the metadata of its last list entry (that
entry's name, its `owner_id` attribute or the empty string, and the decimal
id), and every id absent from the list keeps its prior entry; after
`collectNodeMeta` each node id of the list maps to the name of its last entry
and every other id keeps its prior name; over any sequence of scrapes an id
that is cached stays cached; and a volume whose last entry in the list of
scrape 1 has name `n`, and which is absent from the list of scrape 2, still
resolves to `n` in scrape 2. -/
theorem C13_cache_accumulates (toLowerRune : Char → Char) (sprintfF : F64 → String)
    (c : SolidfireCollector) (volumes : List Volume) (nodes : List Node) :
    (∃ c1 ms, collectVolumeMeta c (.ok volumes) = .ok (c1, ms) ∧
      (∀ pre vol post, volumes = pre ++ vol :: post →
        (∀ w ∈ post, w.VolumeID ≠ vol.VolumeID) →
        c1.volumeMetadataByID vol.VolumeID = some (volumeMetadataOf vol) ∧
        (volumeMetadataOf vol).Name = vol.Name ∧
        (volumeMetadataOf vol).AccountId = (vol.Attributes "owner_id").getD "" ∧
        (volumeMetadataOf vol).VolumeId = Itoa vol.VolumeID) ∧
      (∀ id, (∀ w ∈ volumes, w.VolumeID ≠ id) →
        c1.volumeMetadataByID id = c.volumeMetadataByID id)) ∧
    (∃ c1 ms, collectNodeMeta c (.ok nodes) = .ok (c1, ms) ∧
      (∀ pre node post, nodes = pre ++ node :: post →
        (∀ w ∈ post, w.NodeID ≠ node.NodeID) →
        c1.nodesNamesByID node.NodeID = some node.Name) ∧
      (∀ id, (∀ w ∈ nodes, w.NodeID ≠ id) → c1.nodesNamesByID id = c.nodesNamesByID id)) ∧
    (∀ (clients : List Client) (id : Int),
      ((c.volumeMetadataByID id).isSome = true →
        ((scrapes toLowerRune sprintfF c clients).volumeMetadataByID id).isSome = true) ∧
      ((c.nodesNamesByID id).isSome = true →
        ((scrapes toLowerRune sprintfF c clients).nodesNamesByID id).isSome = true)) ∧
    (∀ (client1 client2 : Client) (pre : List Volume) (vol : Volume) (post volumes2 : List Volume),
      client1.ListVolumes = .ok (pre ++ vol :: post) →
      (∀ w ∈ post, w.VolumeID ≠ vol.VolumeID) →
      client2.ListVolumes = .ok volumes2 →
      (∀ w ∈ volumes2, w.VolumeID ≠ vol.VolumeID) →
      ((scrapes toLowerRune sprintfF c [client1, client2]).volumeMetadataAt vol.VolumeID).Name =
        vol.Name) := by
  have hmeta : ∀ vol : Volume, (volumeMetadataOf vol).Name = vol.Name ∧
      (volumeMetadataOf vol).AccountId = (vol.Attributes "owner_id").getD "" ∧
      (volumeMetadataOf vol).VolumeId = Itoa vol.VolumeID := by
    intro vol
    unfold volumeMetadataOf
    cases vol.Attributes "owner_id" <;> simp
  refine ⟨⟨(volumeMetaLoop c [] volumes).1, _, rfl, ?_, ?_⟩,
    ⟨(nodeMetaLoop c nodes).1, (nodeMetaLoop c nodes).2, rfl, ?_, ?_⟩, ?_, ?_⟩
  · intro pre vol post hv hpost
    rw [hv]
    exact ⟨volumeMetaLoop_last pre vol post hpost c [], hmeta vol⟩
  · intro id h
    exact volumeMetaLoop_absent volumes id c [] h
  · intro pre node post hv hpost
    rw [hv]
    exact nodeMetaLoop_last pre node post hpost c
  · intro id h
    exact nodeMetaLoop_absent nodes id c h
  · intro clients id
    exact scrapes_keeps toLowerRune sprintfF clients id c
  · intro client1 client2 pre vol post volumes2 h1 hpost h2 habs
    simp only [scrapes, collect_collector, SolidfireCollector.volumeMetadataAt]
    rw [metadataGroup_volumes, h2]
    simp only
    rw [volumeMetaLoop_absent volumes2 vol.VolumeID _ [] habs, metadataGroup_volumes, h1]
    simp only
    rw [volumeMetaLoop_last pre vol post hpost c []]
    exact (hmeta vol).1

/-- C14: a cache lookup is total.  It returns the entry stored for an id that
was upserted, by an assignment or by `collectVolumeMeta` and `collectNodeMeta`;
for a volume id with no entry it returns the zero value, whose VolumeId, Name
and AccountId are empty, and for a node id with no entry the empty name; and
`collectVolumeStats` sends the eighteen samples of a volume with no entry, each
with the three label values empty. -/
theorem C14_lookup_total (c : SolidfireCollector) :
    (∀ id metadata, (c.setVolumeMetadata id metadata).volumeMetadataAt id = metadata) ∧
    (∀ id name, (c.setNodeName id name).nodeNameAt id = name) ∧
    (∀ (pre : List Volume) (vol : Volume) (post : List Volume),
      (∀ w ∈ post, w.VolumeID ≠ vol.VolumeID) →
      ∃ c1 ms, collectVolumeMeta c (.ok (pre ++ vol :: post)) = .ok (c1, ms) ∧
        c1.volumeMetadataAt vol.VolumeID = volumeMetadataOf vol) ∧
    (∀ (pre : List Node) (node : Node) (post : List Node),
      (∀ w ∈ post, w.NodeID ≠ node.NodeID) →
      ∃ c1 ms, collectNodeMeta c (.ok (pre ++ node :: post)) = .ok (c1, ms) ∧
        c1.nodeNameAt node.NodeID = node.Name) ∧
    (∀ id, c.volumeMetadataByID id = none →
      c.volumeMetadataAt id = volumeMetadata.zeroValue ∧
      (c.volumeMetadataAt id).Name = "" ∧ (c.volumeMetadataAt id).AccountId = "" ∧
      (c.volumeMetadataAt id).VolumeId = "" ∧ (c.volumeMetadataAt id).Values = ["", "", ""]) ∧
    (∀ id, c.nodesNamesByID id = none → c.nodeNameAt id = "") ∧
    (∀ id, NewCollector.volumeMetadataAt id = volumeMetadata.zeroValue ∧
      NewCollector.nodeNameAt id = "") ∧
    (∀ vol : VolumeStats, c.volumeMetadataByID vol.VolumeID = none →
      ∃ ms, collectVolumeStats c (.ok [vol]) = .ok ms ∧ ms.length = 18 ∧
        ∀ m ∈ ms, m.labelValues = ["", "", ""]) := by
  refine ⟨?_, ?_, ?_, ?_, ?_, ?_, ?_, ?_⟩
  · intro id metadata
    simp [SolidfireCollector.setVolumeMetadata, SolidfireCollector.volumeMetadataAt]
  · intro id name
    simp [SolidfireCollector.setNodeName, SolidfireCollector.nodeNameAt]
  · intro pre vol post hpost
    refine ⟨(volumeMetaLoop c [] (pre ++ vol :: post)).1, _, rfl, ?_⟩
    simp only [SolidfireCollector.volumeMetadataAt]
    rw [volumeMetaLoop_last pre vol post hpost c []]
    rfl
  · intro pre node post hpost
    refine ⟨(nodeMetaLoop c (pre ++ node :: post)).1, _, rfl, ?_⟩
    simp only [SolidfireCollector.nodeNameAt]
    rw [nodeMetaLoop_last pre node post hpost c]
    rfl
  · intro id h
    simp only [SolidfireCollector.volumeMetadataAt, h]
    exact ⟨rfl, rfl, rfl, rfl, rfl⟩
  · intro id h
    simp only [SolidfireCollector.nodeNameAt, h]
    rfl
  · intro id
    exact ⟨rfl, rfl⟩
  · intro vol h
    have hz : c.volumeMetadataAt vol.VolumeID = volumeMetadata.zeroValue := by
      simp only [SolidfireCollector.volumeMetadataAt, h]; rfl
    have hnm : MatchString volumeExclusionPattern volumeMetadata.zeroValue.Name = false := by
      decide
    refine ⟨_, rfl, ?_, ?_⟩
    · simp [volumeStatsBody, hz, hnm]
    · intro m hm
      simp only [List.flatMap_cons, List.flatMap_nil, List.append_nil] at hm
      obtain ⟨h1, _⟩ := volumeStatsBody_labels c vol m hm
      rw [h1, hz]
      rfl

/-! ## Theorems: collectDriveDetails -/

theorem one_ne_zero64 : F64.one ≠ F64.zero := by decide!

theorem driveStatus_values (c : SolidfireCollector) (d : Drive) :
    valuesOf .DriveStatus (driveBody c d) =
      possibleDriveStatuses.map (fun s => if s = d.Status then F64.one else F64.zero) := by
  simp [driveBody, possibleDriveStatuses, driveStatusSample, valuesOf]

theorem oneHot_count (st : String) :
    ((possibleDriveStatuses.map
        (fun s => if s = st then F64.one else F64.zero)).count F64.one ≤ 1) ∧
    (st ∈ possibleDriveStatuses ↔
      (possibleDriveStatuses.map
        (fun s => if s = st then F64.one else F64.zero)).count F64.one = 1) := by
  by_cases h : st ∈ possibleDriveStatuses
  · simp only [h, true_iff]
    simp only [possibleDriveStatuses, List.mem_cons, List.mem_singleton, List.not_mem_nil,
      or_false] at h
    rcases h with rfl | rfl | rfl | rfl | rfl <;> decide!
  · simp only [h, false_iff]
    have hz : possibleDriveStatuses.map (fun s => if s = st then F64.one else F64.zero) =
        [F64.zero, F64.zero, F64.zero, F64.zero, F64.zero] := by
      simp only [possibleDriveStatuses, List.mem_cons, List.mem_singleton, List.not_mem_nil,
        or_false, not_or] at h
      obtain ⟨h1, h2, h3, h4, h5⟩ := h
      simp [possibleDriveStatuses, Ne.symm h1, Ne.symm h2, Ne.symm h3, Ne.symm h4, Ne.symm h5]
    rw [hz]
    constructor <;> decide!

theorem length_flatMap_driveBody (c : SolidfireCollector) (drives : List Drive) :
    (drives.flatMap (driveBody c)).length = 6 * drives.length := by
  induction drives with
  | nil => rfl
  | cons d rest ih =>
    simp only [List.flatMap_cons, List.length_append, ih, List.length_cons]
    have : (driveBody c d).length = 6 := rfl
    omega

/-- C20: for every drive list `collectDriveDetails` sends, drive after drive,
five DriveStatus samples, one per member of active, available, erasing, failed,
removing in that order (the member is the sixth label value), followed by one
DriveCapacityBytes sample; the status sample of member `s` is `1.0` when `s`
equals the drive's Status and `0.0` otherwise, so at most one of the five is
`1.0`, and exactly one is if and only if the Status is in the vocabulary. -/
theorem C20_drive_status_one_hot (c : SolidfireCollector) (drives : List Drive) :
    ∃ ms, collectDriveDetails c (.ok drives) = .ok ms ∧
      ms = drives.flatMap (driveBody c) ∧ ms.length = 6 * drives.length ∧
      ∀ d : Drive,
        (driveBody c d).map Metric.desc =
          [Desc.DriveStatus, Desc.DriveStatus, Desc.DriveStatus, Desc.DriveStatus,
           Desc.DriveStatus, Desc.DriveCapacityBytes] ∧
        samplesOf .DriveStatus (driveBody c d) =
          possibleDriveStatuses.map (fun s =>
            ([Itoa d.NodeID, c.nodeNameAt d.NodeID, Itoa d.DriveID, d.Serial, Itoa d.Slot, s,
              d.Type_], if s = d.Status then F64.one else F64.zero)) ∧
        possibleDriveStatuses = ["active", "available", "erasing", "failed", "removing"] ∧
        samplesOf .DriveCapacityBytes (driveBody c d) =
          [([Itoa d.NodeID, c.nodeNameAt d.NodeID, Itoa d.DriveID, d.Serial, Itoa d.Slot,
            d.Type_], d.Capacity)] ∧
        (valuesOf .DriveStatus (driveBody c d)).count F64.one ≤ 1 ∧
        (d.Status ∈ possibleDriveStatuses ↔
          (valuesOf .DriveStatus (driveBody c d)).count F64.one = 1) := by
  refine ⟨_, rfl, rfl, length_flatMap_driveBody c drives, ?_⟩
  intro d
  refine ⟨rfl, ?_, rfl, ?_, ?_, ?_⟩
  · simp [driveBody, possibleDriveStatuses, driveStatusSample, samplesOf]
  · simp [driveBody, possibleDriveStatuses, driveStatusSample, samplesOf]
  · rw [driveStatus_values]; exact (oneHot_count d.Status).1
  · rw [driveStatus_values]; exact (oneHot_count d.Status).2

/-! ## Theorems: the histograms -/

theorem foldl_sumHistogram (m : List (F64 × Nat)) : ∀ a : Nat, a < 2 ^ 64 →
    m.foldl (fun r kv => (r + kv.2) % 2 ^ 64) a = (a + (m.map Prod.snd).sum) % 2 ^ 64 := by
  induction m with
  | nil => intro a ha; simpa using (Nat.mod_eq_of_lt ha).symm
  | cons kv rest ih =>
    intro a _
    rw [List.foldl_cons, ih _ (Nat.mod_lt _ (by decide)), List.map_cons, List.sum_cons,
      Nat.add_mod, Nat.mod_mod, ← Nat.add_mod, Nat.add_assoc]

theorem sumHistogram_eq (m : List (F64 × Nat)) :
    sumHistogram m = (m.map Prod.snd).sum % 2 ^ 64 := by
  unfold sumHistogram
  rw [foldl_sumHistogram m 0 (by decide), Nat.zero_add]

theorem volumeQosBody_shape (c : SolidfireCollector) (h : QosHistogram) (m : Metric)
    (hm : m ∈ volumeQosBody c h) :
    ∃ d buckets labels,
      m = Metric.histogram d 0 (F64.ofNat (sumHistogram buckets)) buckets labels := by
  unfold volumeQosBody at hm
  cases hx : MatchString volumeExclusionPattern (c.volumeMetadataAt h.VolumeID).Name
  · simp only [hx, Bool.false_eq_true, if_false, List.mem_cons, List.mem_singleton,
      List.not_mem_nil, or_false] at hm
    rcases hm with h | h | h | h | h | h <;> exact ⟨_, _, _, h⟩
  · simp [hx] at hm

theorem nodeStatsBody_shape (c : SolidfireCollector) (stats : NodeStats) :
    ∃ rest, nodeStatsBody c stats =
        Metric.histogram .NodeLoadHistogram stats.Count
          (F64.ofNat (sumHistogram (ssLoadHistogramMap stats.SsLoadHistogram)))
          (ssLoadHistogramMap stats.SsLoadHistogram)
          [Itoa stats.NodeID, c.nodeNameAt stats.NodeID] :: rest ∧
      histogramCounts rest = [] :=
  ⟨_, rfl, rfl⟩

theorem histogramCounts_append (xs ys : List Metric) :
    histogramCounts (xs ++ ys) = histogramCounts xs ++ histogramCounts ys := by
  induction xs with
  | nil => rfl
  | cons m rest ih => cases m <;> simp [histogramCounts, ih]

theorem histogramCounts_nodeStats (c : SolidfireCollector) (nodes : List NodeStats) :
    histogramCounts (nodes.flatMap (nodeStatsBody c)) =
      nodes.map (fun stats => (stats.Count, ssLoadHistogramMap stats.SsLoadHistogram)) := by
  induction nodes with
  | nil => rfl
  | cons stats rest ih =>
    obtain ⟨r, hr, hr2⟩ := nodeStatsBody_shape c stats
    rw [List.flatMap_cons, histogramCounts_append, ih, hr]
    simp [histogramCounts, hr2]

/-- C18 (as stated, refuted): for a volume with no cached name and the QoS
element whose histograms each hold `5` in one bucket, every one of the six
histogram samples `collectVolumeQosHistograms` sends has the sample count `0`,
while the bucket counts of its map sum to `5`. -/
theorem C18_qos_count_counterexample :
    ∃ ms, collectVolumeQosHistograms NewCollector (.ok [fiveQosHistogram 1]) = .ok ms ∧
      (histogramCounts ms).length = 6 ∧
      ∀ h ∈ histogramCounts ms, h.1 = 0 ∧ (h.2.map Prod.snd).sum = 5 := by
  refine ⟨_, rfl, by decide, ?_⟩
  decide!

/-- C18 (amended): every sample `collectVolumeQosHistograms` sends is a
histogram whose sample count is `0` and whose sample sum is `float64` of the
`uint64` sum of the bucket counts of its map; `collectClusterNodeStats` sends
one histogram sample per node, whose sample count is the Count field of the
node stats and whose sample sum is `float64` of the `uint64` sum of the bucket
counts of its map; the `uint64` sum is the sum of the counts modulo `2^64`. -/
theorem C18_histogram_count_and_sum (c : SolidfireCollector) (qosHistograms : List QosHistogram)
    (nodes : List NodeStats) :
    (∃ ms, collectVolumeQosHistograms c (.ok qosHistograms) = .ok ms ∧
      ∀ m ∈ ms, ∃ d buckets labels,
        m = Metric.histogram d 0 (F64.ofNat (sumHistogram buckets)) buckets labels) ∧
    (∃ ms, collectClusterNodeStats c (.ok nodes) = .ok ms ∧
      histogramCounts ms =
        nodes.map (fun stats => (stats.Count, ssLoadHistogramMap stats.SsLoadHistogram)) ∧
      ∀ stats ∈ nodes,
        Metric.histogram .NodeLoadHistogram stats.Count
          (F64.ofNat (sumHistogram (ssLoadHistogramMap stats.SsLoadHistogram)))
          (ssLoadHistogramMap stats.SsLoadHistogram)
          [Itoa stats.NodeID, c.nodeNameAt stats.NodeID] ∈ ms) ∧
    (∀ buckets : List (F64 × Nat),
      sumHistogram buckets = (buckets.map Prod.snd).sum % 2 ^ 64 ∧
      ((buckets.map Prod.snd).sum < 2 ^ 64 → sumHistogram buckets = (buckets.map Prod.snd).sum)) := by
  refine ⟨⟨_, rfl, ?_⟩, ⟨_, rfl, histogramCounts_nodeStats c nodes, ?_⟩, ?_⟩
  · intro m hm
    rw [List.mem_flatMap] at hm
    obtain ⟨h, _, hmh⟩ := hm
    exact volumeQosBody_shape c h m hmh
  · intro stats hs
    rw [List.mem_flatMap]
    obtain ⟨r, hr, _⟩ := nodeStatsBody_shape c stats
    exact ⟨stats, hs, by rw [hr]; exact List.mem_cons_self _ _⟩
  · intro buckets
    refine ⟨sumHistogram_eq buckets, fun h => ?_⟩
    rw [sumHistogram_eq, Nat.mod_eq_of_lt h]

/-- C19: whatever the counts are, the bucket map of each histogram family has
that family's fixed upper bounds as its keys, each exactly once, and every key
maps to the raw count of its own source bucket: node load has the bounds 0, 19,
39, 59, 79, 100; QoS below-min 19 to 100; min-to-max 19 to 100 and `+Inf`;
target-utilization 0 to 100 and `+Inf`; throttle 0 to 100; read and write block
sizes 8191, 16383, 32767, 65535, 131071 and `+Inf`. -/
theorem C19_bucket_maps (c : SolidfireCollector) (h : QosHistogram) (stats : NodeStats) :
    bucketsOf .NodeLoadHistogram (nodeStatsBody c stats) =
      [List.zip ([0, 19, 39, 59, 79, 100].map F64.ofNat)
        [stats.SsLoadHistogram.Bucket0, stats.SsLoadHistogram.Bucket1To19,
         stats.SsLoadHistogram.Bucket20To39, stats.SsLoadHistogram.Bucket40To59,
         stats.SsLoadHistogram.Bucket60To79, stats.SsLoadHistogram.Bucket80To100]] ∧
    (MatchString volumeExclusionPattern (c.volumeMetadataAt h.VolumeID).Name = false →
      bucketsOf .VolumeQoSBelowMinIopsPercentagesHistogram (volumeQosBody c h) =
        [List.zip ([19, 39, 59, 79, 100].map F64.ofNat)
          [h.Histograms.BelowMinIopsPercentages.Bucket1To19,
           h.Histograms.BelowMinIopsPercentages.Bucket20To39,
           h.Histograms.BelowMinIopsPercentages.Bucket40To59,
           h.Histograms.BelowMinIopsPercentages.Bucket60To79,
           h.Histograms.BelowMinIopsPercentages.Bucket80To100]] ∧
      bucketsOf .VolumeQoSMinToMaxIopsPercentagesHistogram (volumeQosBody c h) =
        [List.zip ([19, 39, 59, 79, 100].map F64.ofNat ++ [F64.posInf])
          [h.Histograms.MinToMaxIopsPercentages.Bucket1To19,
           h.Histograms.MinToMaxIopsPercentages.Bucket20To39,
           h.Histograms.MinToMaxIopsPercentages.Bucket40To59,
           h.Histograms.MinToMaxIopsPercentages.Bucket60To79,
           h.Histograms.MinToMaxIopsPercentages.Bucket80To100,
           h.Histograms.MinToMaxIopsPercentages.Bucket101Plus]] ∧
      bucketsOf .VolumeQoSTargetUtilizationPercentagesHistogram (volumeQosBody c h) =
        [List.zip ([0, 19, 39, 59, 79, 100].map F64.ofNat ++ [F64.posInf])
          [h.Histograms.TargetUtilizationPercentages.Bucket0,
           h.Histograms.TargetUtilizationPercentages.Bucket1To19,
           h.Histograms.TargetUtilizationPercentages.Bucket20To39,
           h.Histograms.TargetUtilizationPercentages.Bucket40To59,
           h.Histograms.TargetUtilizationPercentages.Bucket60To79,
           h.Histograms.TargetUtilizationPercentages.Bucket80To100,
           h.Histograms.TargetUtilizationPercentages.Bucket101Plus]] ∧
      bucketsOf .VolumeQoSThrottlePercentagesHistogram (volumeQosBody c h) =
        [List.zip ([0, 19, 39, 59, 79, 100].map F64.ofNat)
          [h.Histograms.ThrottlePercentages.Bucket0,
           h.Histograms.ThrottlePercentages.Bucket1To19,
           h.Histograms.ThrottlePercentages.Bucket20To39,
           h.Histograms.ThrottlePercentages.Bucket40To59,
           h.Histograms.ThrottlePercentages.Bucket60To79,
           h.Histograms.ThrottlePercentages.Bucket80To100]] ∧
      bucketsOf .VolumeQoSReadBlockSizesHistogram (volumeQosBody c h) =
        [List.zip ([8191, 16383, 32767, 65535, 131071].map F64.ofNat ++ [F64.posInf])
          [h.Histograms.ReadBlockSizes.Bucket4096To8191,
           h.Histograms.ReadBlockSizes.Bucket8192To16383,
           h.Histograms.ReadBlockSizes.Bucket16384To32767,
           h.Histograms.ReadBlockSizes.Bucket32768To65535,
           h.Histograms.ReadBlockSizes.Bucket65536To131071,
           h.Histograms.ReadBlockSizes.Bucket131072Plus]] ∧
      bucketsOf .VolumeQoSWriteBlockSizesHistogram (volumeQosBody c h) =
        [List.zip ([8191, 16383, 32767, 65535, 131071].map F64.ofNat ++ [F64.posInf])
          [h.Histograms.WriteBlockSizes.Bucket4096To8191,
           h.Histograms.WriteBlockSizes.Bucket8192To16383,
           h.Histograms.WriteBlockSizes.Bucket16384To32767,
           h.Histograms.WriteBlockSizes.Bucket32768To65535,
           h.Histograms.WriteBlockSizes.Bucket65536To131071,
           h.Histograms.WriteBlockSizes.Bucket131072Plus]]) ∧
    ([0, 19, 39, 59, 79, 100].map F64.ofNat ++ [F64.posInf]).Nodup ∧
    ([8191, 16383, 32767, 65535, 131071].map F64.ofNat ++ [F64.posInf]).Nodup := by
  refine ⟨rfl, ?_, by decide!, by decide!⟩
  intro hx
  unfold volumeQosBody
  simp only [hx, Bool.false_eq_true, if_false]
  exact ⟨rfl, rfl, rfl, rfl, rfl, rfl⟩

/-! ## Theorems: Collect -/

theorem interleaving_mem_of {ls : List (List Metric)} {out : List Metric}
    (h : Interleaving ls out) : ∀ m ∈ out, ∃ l ∈ ls, m ∈ l := by
  induction h with
  | done _ => intro m hm; cases hm
  | @step pre post x xs out _ ih =>
    intro m hm
    rcases List.mem_cons.mp hm with rfl | hm
    · exact ⟨m :: xs, by simp, List.mem_cons_self _ _⟩
    · obtain ⟨l, hl, hml⟩ := ih m hm
      rcases List.mem_append.mp hl with hl | hl
      · exact ⟨l, List.mem_append_left _ hl, hml⟩
      · rcases List.mem_cons.mp hl with rfl | hl
        · exact ⟨x :: l, by simp, List.mem_cons_of_mem _ hml⟩
        · exact ⟨l, by simp [hl], hml⟩

theorem interleaving_mem {ls : List (List Metric)} {out : List Metric}
    (h : Interleaving ls out) : ∀ l ∈ ls, ∀ m ∈ l, m ∈ out := by
  induction h with
  | done hnil => intro l hl m hm; rw [hnil l hl] at hm; cases hm
  | @step pre post x xs out _ ih =>
    intro l hl m hm
    rcases List.mem_append.mp hl with hl | hl
    · exact List.mem_cons_of_mem _ (ih l (List.mem_append_left _ hl) m hm)
    · rcases List.mem_cons.mp hl with rfl | hl
      · rcases List.mem_cons.mp hm with rfl | hm
        · exact List.mem_cons_self _ _
        · exact List.mem_cons_of_mem _ (ih xs (by simp) m hm)
      · exact List.mem_cons_of_mem _ (ih l (by simp [hl]) m hm)

theorem interleaving_nil {out : List Metric} (h : Interleaving [] out) : out = [] := by
  rw [List.eq_nil_iff_forall_not_mem]
  intro m hm
  obtain ⟨l, hl, _⟩ := interleaving_mem_of h m hm
  cases hl

theorem interleaving_cons_nil {ls : List (List Metric)} {out : List Metric}
    (h : Interleaving ls out) : Interleaving ([] :: ls) out := by
  induction h with
  | done hnil =>
    refine Interleaving.done ?_
    intro l hl
    rcases List.mem_cons.mp hl with rfl | hl
    · rfl
    · exact hnil l hl
  | @step pre post x xs out _ ih => exact @Interleaving.step ([] :: pre) post x xs out ih

theorem interleaving_flatten (ls : List (List Metric)) : Interleaving ls ls.flatten := by
  induction ls with
  | nil => exact Interleaving.done (by simp)
  | cons l rest ih =>
    induction l with
    | nil => exact interleaving_cons_nil ih
    | cons x xs ihx => exact @Interleaving.step [] rest x xs _ ihx

theorem sends_sentInOrder (r : CollectRun) : r.Sends r.sentInOrder :=
  ⟨_, _, interleaving_flatten _, interleaving_flatten _, rfl⟩

theorem noUp_of_all (ms : List Metric) (m : Metric) (hm : m ∈ ms)
    (h : ms.all (fun m => decide (m.desc ≠ Desc.upDesc)) = true) : m.desc ≠ Desc.upDesc :=
  of_decide_eq_true (List.all_eq_true.mp h m hm)

theorem volumeStatsBody_noUp (c : SolidfireCollector) (s : VolumeStats) (m : Metric)
    (hm : m ∈ volumeStatsBody c s) : m.desc ≠ Desc.upDesc := by
  unfold volumeStatsBody at hm
  cases hx : MatchString volumeExclusionPattern (c.volumeMetadataAt s.VolumeID).Name
  · simp only [hx, Bool.false_eq_true, if_false] at hm
    exact noUp_of_all _ m hm rfl
  · simp [hx] at hm

theorem volumeQosBody_noUp (c : SolidfireCollector) (h : QosHistogram) (m : Metric)
    (hm : m ∈ volumeQosBody c h) : m.desc ≠ Desc.upDesc := by
  unfold volumeQosBody at hm
  cases hx : MatchString volumeExclusionPattern (c.volumeMetadataAt h.VolumeID).Name
  · simp only [hx, Bool.false_eq_true, if_false] at hm
    exact noUp_of_all _ m hm rfl
  · simp [hx] at hm

theorem nodeMetaLoop_descs (nodes : List Node) : ∀ (c : SolidfireCollector) (m : Metric),
    m ∈ (nodeMetaLoop c nodes).2 →
      m.desc = Desc.NodeInfo ∨ m.desc = Desc.NodeTotalMemoryBytes := by
  induction nodes with
  | nil => intro c m hm; cases hm
  | cons node rest ih =>
    intro c m hm
    simp only [nodeMetaLoop, List.mem_append] at hm
    rcases hm with hm | hm
    · simp only [nodeMetaSamples, List.mem_cons, List.mem_singleton, List.not_mem_nil,
        or_false] at hm
      rcases hm with rfl | rfl
      · exact Or.inl rfl
      · exact Or.inr rfl
    · exact ih _ m hm

theorem sent_mk (q : RPC) (r : Except GoError (List Metric)) (m : Metric)
    (hm : m ∈ Task.sent { query := q, result := r }) : ∃ ms, r = .ok ms ∧ m ∈ ms := by
  cases r with
  | error e => simp [Task.sent] at hm
  | ok ms => exact ⟨ms, rfl, hm⟩

theorem metricsGroup_noUp (tl : Char → Char) (sf : F64 → String) (c : SolidfireCollector)
    (client : Client) :
    ∀ t ∈ metricsGroup tl sf c client, ∀ m ∈ t.sent, m.desc ≠ Desc.upDesc := by
  intro t ht m hm
  simp only [metricsGroup, List.mem_cons, List.mem_singleton, List.not_mem_nil, or_false] at ht
  rcases ht with rfl | rfl | rfl | rfl | rfl | rfl | rfl | rfl | rfl | rfl | rfl | rfl | rfl |
    rfl | rfl <;> obtain ⟨ms, hr, hm⟩ := sent_mk _ _ m hm
  · cases hc : client.ListVolumeStats <;> simp only [hc, collectVolumeStats] at hr
    · cases hr
    · cases hr
      obtain ⟨s, _, hs⟩ := List.mem_flatMap.mp hm
      exact volumeStatsBody_noUp c s m hs
  · cases hc : client.GetClusterCapacity <;> simp only [hc, collectClusterCapacity] at hr
    · cases hr
    · cases hr
      exact noUp_of_all _ m hm rfl
  · cases hc : client.ListClusterFaults <;> simp only [hc, collectClusterFaults] at hr
    · cases hr
    · cases hr
      obtain ⟨f, _, rfl⟩ := List.mem_map.mp hm
      exact fun h => by cases h
  · cases hc : client.ListNodeStats <;> simp only [hc, collectClusterNodeStats] at hr
    · cases hr
    · cases hr
      obtain ⟨s, _, hs⟩ := List.mem_flatMap.mp hm
      exact noUp_of_all _ m hs rfl
  · cases hc : client.ListVolumeQoSHistograms <;>
      simp only [hc, collectVolumeQosHistograms] at hr
    · cases hr
    · cases hr
      obtain ⟨s, _, hs⟩ := List.mem_flatMap.mp hm
      exact volumeQosBody_noUp c s m hs
  · cases hc : client.GetClusterStats <;> simp only [hc, collectClusterStats] at hr
    · cases hr
    · cases hr
      exact noUp_of_all _ m hm rfl
  · cases hc : client.GetClusterFullThreshold <;>
      simp only [hc, collectClusterFullThreshold] at hr
    · cases hr
    · cases hr
      exact noUp_of_all _ m hm rfl
  · cases hc : client.ListDrives <;> simp only [hc, collectDriveDetails] at hr
    · cases hr
    · cases hr
      obtain ⟨s, _, hs⟩ := List.mem_flatMap.mp hm
      exact noUp_of_all _ m hs rfl
  · cases hc : client.ListISCSISessions <;> simp only [hc, collectISCSISessions] at hr
    · cases hr
    · cases hr
      obtain ⟨f, _, rfl⟩ := List.mem_map.mp hm
      exact fun h => by cases h
  · cases hc : client.ListAccounts <;> simp only [hc, collectAccounts, collectCount] at hr
    · cases hr
    · cases hr
      exact noUp_of_all _ m hm rfl
  · cases hc : client.ListInitiators <;> simp only [hc, collectInitiators, collectCount] at hr
    · cases hr
    · cases hr
      exact noUp_of_all _ m hm rfl
  · cases hc : client.ListVolumeAccessGroups <;>
      simp only [hc, collectVolumeAccessGroups, collectCount] at hr
    · cases hr
    · cases hr
      exact noUp_of_all _ m hm rfl
  · cases hc : client.ListVirtualVolumeTasks <;>
      simp only [hc, collectVirtualVolumeTasks, collectCount] at hr
    · cases hr
    · cases hr
      exact noUp_of_all _ m hm rfl
  · cases hc : client.ListBulkVolumeJobs <;>
      simp only [hc, collectBulkVolumeJobs, collectCount] at hr
    · cases hr
    · cases hr
      exact noUp_of_all _ m hm rfl
  · cases hc : client.ListAsyncResults <;> simp only [hc, collectAsyncResults] at hr
    · cases hr
    · cases hr
      simp only [List.mem_append, List.mem_map, List.mem_singleton] at hm
      rcases hm with (⟨f, _, rfl⟩ | ⟨f, _, rfl⟩) | rfl <;> exact fun h => by cases h

theorem metadataGroup_descs (c : SolidfireCollector) (client : Client) :
    ∀ t ∈ (metadataGroup c client).2, ∀ m ∈ t.sent,
      m.desc = Desc.VolumeCount ∨ m.desc = Desc.NodeInfo ∨
        m.desc = Desc.NodeTotalMemoryBytes := by
  intro t ht m hm
  simp only [metadataGroup, List.mem_cons, List.mem_singleton, List.not_mem_nil, or_false] at ht
  rcases ht with rfl | rfl <;> obtain ⟨ms, hr, hm⟩ := sent_mk _ _ m hm
  · cases hc : client.ListVolumes <;> simp only [hc, collectVolumeMeta, Except.map] at hr
    · cases hr
    · cases hr
      obtain ⟨f, _, rfl⟩ := List.mem_map.mp hm
      exact Or.inl rfl
  · cases hc : client.ListAllNodes <;> simp only [hc, collectNodeMeta, Except.map] at hr
    · cases hr
    · cases hr
      exact Or.inr (nodeMetaLoop_descs _ _ m hm)

theorem metadataGroup_failed (c : SolidfireCollector) (client : Client) :
    (metadataGroup c client).2.map Task.query = [RPC.ListVolumes, RPC.ListAllNodes] ∧
    (metadataGroup c client).2.map Task.failed =
      [!client.ListVolumes.toBool, !client.ListAllNodes.toBool] := by
  unfold metadataGroup
  cases client.ListVolumes <;> cases client.ListAllNodes <;> exact ⟨rfl, rfl⟩

theorem collect_cases (tl : Char → Char) (sf : F64 → String) (c : SolidfireCollector)
    (client : Client) :
    (Collect tl sf c client).metadataTasks = (metadataGroup c client).2 ∧
    ((waitFailed (metadataGroup c client).2 = true ∧
        (Collect tl sf c client).metricsTasks = [] ∧
        (Collect tl sf c client).up = F64.zero) ∨
     (waitFailed (metadataGroup c client).2 = false ∧
        (Collect tl sf c client).metricsTasks =
          metricsGroup tl sf (metadataGroup c client).1 client ∧
        ((waitFailed (Collect tl sf c client).metricsTasks = true ∧
            (Collect tl sf c client).up = F64.zero) ∨
         (waitFailed (Collect tl sf c client).metricsTasks = false ∧
            (Collect tl sf c client).up = F64.one)))) := by
  unfold Collect
  simp only
  split_ifs with h1 h2
  · exact ⟨rfl, Or.inl ⟨h1, rfl, rfl⟩⟩
  · exact ⟨rfl, Or.inr ⟨Bool.eq_false_iff.mpr h1, rfl, Or.inl ⟨h2, rfl⟩⟩⟩
  · refine ⟨rfl, Or.inr ⟨Bool.eq_false_iff.mpr h1, rfl, Or.inr ⟨Bool.eq_false_iff.mpr h2, ?_⟩⟩⟩
    simp only

theorem waitFailed_false_iff (g : List Task) :
    waitFailed g = false ↔ ∀ t ∈ g, t.failed = false := by
  unfold waitFailed
  simp [List.any_eq_false]

theorem metricsGroup_failed (tl : Char → Char) (sf : F64 → String) (c : SolidfireCollector)
    (client : Client) :
    (metricsGroup tl sf c client).map Task.failed =
      [!client.ListVolumeStats.toBool, !client.GetClusterCapacity.toBool,
       !client.ListClusterFaults.toBool, !client.ListNodeStats.toBool,
       !client.ListVolumeQoSHistograms.toBool, !client.GetClusterStats.toBool,
       !client.GetClusterFullThreshold.toBool, !client.ListDrives.toBool,
       !client.ListISCSISessions.toBool, !client.ListAccounts.toBool,
       !client.ListInitiators.toBool, !client.ListVolumeAccessGroups.toBool,
       !client.ListVirtualVolumeTasks.toBool, !client.ListBulkVolumeJobs.toBool,
       !client.ListAsyncResults.toBool] := by
  unfold metricsGroup
  simp only [List.map_cons, List.map_nil, List.cons.injEq, and_true]
  refine ⟨?_, ?_, ?_, ?_, ?_, ?_, ?_, ?_, ?_, ?_, ?_, ?_, ?_, ?_, ?_⟩
  · cases client.ListVolumeStats <;> rfl
  · cases client.GetClusterCapacity <;> rfl
  · cases client.ListClusterFaults <;> rfl
  · cases client.ListNodeStats <;> rfl
  · cases client.ListVolumeQoSHistograms <;> rfl
  · cases client.GetClusterStats <;> rfl
  · cases client.GetClusterFullThreshold <;> rfl
  · cases client.ListDrives <;> rfl
  · cases client.ListISCSISessions <;> rfl
  · cases client.ListAccounts <;> rfl
  · cases client.ListInitiators <;> rfl
  · cases client.ListVolumeAccessGroups <;> rfl
  · cases client.ListVirtualVolumeTasks <;> rfl
  · cases client.ListBulkVolumeJobs <;> rfl
  · cases client.ListAsyncResults <;> rfl

theorem waitFailed_eq (g : List Task) : waitFailed g = (g.map Task.failed).any id := by
  unfold waitFailed
  induction g with
  | nil => rfl
  | cons t rest ih => simp [List.any_cons, ih]

theorem collect_noUp (tl : Char → Char) (sf : F64 → String) (c : SolidfireCollector)
    (client : Client) :
    (∀ t ∈ (Collect tl sf c client).metadataTasks, ∀ m ∈ t.sent, m.desc ≠ Desc.upDesc) ∧
    (∀ t ∈ (Collect tl sf c client).metricsTasks, ∀ m ∈ t.sent, m.desc ≠ Desc.upDesc) := by
  obtain ⟨hmeta, hcases⟩ := collect_cases tl sf c client
  constructor
  · intro t ht m hm hd
    rw [hmeta] at ht
    rcases metadataGroup_descs c client t ht m hm with h | h | h <;> rw [hd] at h <;> cases h
  · intro t ht m hm
    rcases hcases with ⟨_, h0, _⟩ | ⟨_, h0, _⟩
    · rw [h0] at ht; cases ht
    · rw [h0] at ht; exact metricsGroup_noUp tl sf _ client t ht m hm

theorem interleaving_sent {P : Metric → Prop} {g : List Task} {p : List Metric}
    (h : Interleaving (g.map Task.sent) p) (hP : ∀ t ∈ g, ∀ m ∈ t.sent, P m) :
    ∀ m ∈ p, P m := by
  intro m hm
  obtain ⟨l, hl, hml⟩ := interleaving_mem_of h m hm
  obtain ⟨t, ht, rfl⟩ := List.mem_map.mp hl
  exact hP t ht m hml

/-- C15: whatever the client calls return and in whatever order the concurrent
tasks of a group send, what a run of `Collect` sends ends with the liveness
sample and holds no other sample of the liveness descriptor; the value of that
sample is `1` exactly when neither of the two metadata tasks failed and the
fifteen metrics tasks were started and none of them failed, that is, exactly
when every one of the seventeen client calls succeeded, and it is `0`
otherwise. -/
theorem C15_liveness_sample (toLowerRune : Char → Char) (sprintfF : F64 → String)
    (c : SolidfireCollector) (client : Client) (out : List Metric)
    (h : (Collect toLowerRune sprintfF c client).Sends out) :
    ∃ pre, out = pre ++ [Metric.const .upDesc .GaugeValue
                          (Collect toLowerRune sprintfF c client).up []] ∧
      (∀ m ∈ pre, m.desc ≠ Desc.upDesc) ∧
      (out.map Metric.desc).count Desc.upDesc = 1 ∧
      ((Collect toLowerRune sprintfF c client).up = F64.one ↔
        ((Collect toLowerRune sprintfF c client).metadataTasks.length = 2 ∧
          ∀ t ∈ (Collect toLowerRune sprintfF c client).metadataTasks, t.failed = false) ∧
        ((Collect toLowerRune sprintfF c client).metricsTasks.length = 15 ∧
          ∀ t ∈ (Collect toLowerRune sprintfF c client).metricsTasks, t.failed = false)) ∧
      ((Collect toLowerRune sprintfF c client).up = F64.one ↔
        (client.ListVolumes.toBool && client.ListAllNodes.toBool &&
          client.ListVolumeStats.toBool && client.GetClusterCapacity.toBool &&
          client.ListClusterFaults.toBool && client.ListNodeStats.toBool &&
          client.ListVolumeQoSHistograms.toBool && client.GetClusterStats.toBool &&
          client.GetClusterFullThreshold.toBool && client.ListDrives.toBool &&
          client.ListISCSISessions.toBool && client.ListAccounts.toBool &&
          client.ListInitiators.toBool && client.ListVolumeAccessGroups.toBool &&
          client.ListVirtualVolumeTasks.toBool && client.ListBulkVolumeJobs.toBool &&
          client.ListAsyncResults.toBool) = true) ∧
      ((Collect toLowerRune sprintfF c client).up ≠ F64.one →
        (Collect toLowerRune sprintfF c client).up = F64.zero) := by
  obtain ⟨p1, p2, h1, h2, rfl⟩ := h
  obtain ⟨hno1, hno2⟩ := collect_noUp toLowerRune sprintfF c client
  have hpre : ∀ m ∈ p1 ++ p2, m.desc ≠ Desc.upDesc := by
    intro m hm
    rcases List.mem_append.mp hm with hm | hm
    · exact interleaving_sent h1 hno1 m hm
    · exact interleaving_sent h2 hno2 m hm
  obtain ⟨hmeta, hcases⟩ := collect_cases toLowerRune sprintfF c client
  have hlen : (metadataGroup c client).2.length = 2 := by
    have := congrArg List.length (metadataGroup_failed c client).1
    simpa using this
  have hw1 := waitFailed_eq (metadataGroup c client).2
  rw [(metadataGroup_failed c client).2] at hw1
  have hw2 := waitFailed_eq (metricsGroup toLowerRune sprintfF (metadataGroup c client).1 client)
  rw [metricsGroup_failed] at hw2
  refine ⟨p1 ++ p2, rfl, hpre, ?_, ?_, ?_, ?_⟩
  · rw [List.map_append, List.count_append, List.count_eq_zero_of_not_mem]
    · rfl
    · intro hmem
      obtain ⟨m, hm, hd⟩ := List.mem_map.mp hmem
      exact hpre m hm hd
  · rw [hmeta]
    rcases hcases with ⟨hf, h0, hup⟩ | ⟨hf, h0, ⟨hf2, hup⟩ | ⟨hf2, hup⟩⟩
    · rw [hup]
      constructor
      · intro h; exact absurd h.symm one_ne_zero64
      · rintro ⟨⟨_, hall⟩, _⟩
        rw [(waitFailed_false_iff _).mpr hall] at hf
        cases hf
    · rw [hup]
      constructor
      · intro h; exact absurd h.symm one_ne_zero64
      · rintro ⟨_, _, hall⟩
        rw [(waitFailed_false_iff _).mpr hall] at hf2
        cases hf2
    · rw [hup]
      refine ⟨fun _ => ⟨⟨hlen, (waitFailed_false_iff _).mp hf⟩, ?_, (waitFailed_false_iff _).mp hf2⟩,
        fun _ => rfl⟩
      rw [h0]
      rfl
  · rcases hcases with ⟨hf, h0, hup⟩ | ⟨hf, h0, ⟨hf2, hup⟩ | ⟨hf2, hup⟩⟩
    · rw [hup]
      rw [hw1] at hf
      constructor
      · intro h; exact absurd h.symm one_ne_zero64
      · intro hall
        simp only [Bool.and_eq_true] at hall
        simp [hall] at hf
    · rw [hup]
      rw [h0, hw2] at hf2
      constructor
      · intro h; exact absurd h.symm one_ne_zero64
      · intro hall
        simp only [Bool.and_eq_true] at hall
        simp [hall] at hf2
    · rw [hup]
      rw [hw1] at hf
      rw [h0, hw2] at hf2
      refine ⟨fun _ => ?_, fun _ => rfl⟩
      simp only [List.any_cons, List.any_nil, id, Bool.or_false, Bool.or_eq_false_iff,
        Bool.not_eq_false_eq_eq_true, Bool.not_eq_eq_eq_not, Bool.not_false] at hf hf2
      simp [hf, hf2]
  · intro hne
    rcases hcases with ⟨_, _, hup⟩ | ⟨_, _, ⟨_, hup⟩ | ⟨_, hup⟩⟩
    · exact hup
    · exact hup
    · exact absurd hup hne

/-- C15 at the quiet cluster, whose seventeen calls succeed, with the tasks of
each group sending one after the other. -/
theorem C15_liveness_sample_witness :
    (Collect Char.toLower (fun _ => "") NewCollector quietClient).Sends
        (Collect Char.toLower (fun _ => "") NewCollector quietClient).sentInOrder ∧
      ∃ pre,
        (Collect Char.toLower (fun _ => "") NewCollector quietClient).sentInOrder =
          pre ++ [Metric.const .upDesc .GaugeValue
                    (Collect Char.toLower (fun _ => "") NewCollector quietClient).up []] ∧
        (∀ m ∈ pre, m.desc ≠ Desc.upDesc) ∧
        (Collect Char.toLower (fun _ => "") NewCollector quietClient).up = F64.one :=
  ⟨sends_sentInOrder _,
    (C15_liveness_sample Char.toLower (fun _ => "") NewCollector quietClient _
      (sends_sentInOrder _)).imp
      fun _ h => ⟨h.1, h.2.1, h.2.2.2.2.1.mpr rfl⟩⟩

theorem metadataGroup_nodeTask (c : SolidfireCollector) (client : Client) (nodes : List Node)
    (hn : client.ListAllNodes = .ok nodes) :
    ∃ c1, (nodeMetaLoop c1 nodes).2 ∈ (metadataGroup c client).2.map Task.sent := by
  refine ⟨match collectVolumeMeta c client.ListVolumes with
    | .ok r => r.1
    | .error _ => c, ?_⟩
  unfold metadataGroup
  rw [hn]
  simp [collectNodeMeta, Task.sent, Except.map]

theorem metricsGroup_qosTask (tl : Char → Char) (sf : F64 → String) (c : SolidfireCollector)
    (client : Client) (qs : List QosHistogram) (hq : client.ListVolumeQoSHistograms = .ok qs) :
    qs.flatMap (volumeQosBody c) ∈ (metricsGroup tl sf c client).map Task.sent := by
  unfold metricsGroup
  rw [hq]
  simp [collectVolumeQosHistograms, Task.sent]

/-- C16: when a task of the metadata group fails, which happens exactly when
the call of `ListVolumes` or of `ListAllNodes` failed, `Collect` starts no task
of the metrics group: the only client methods called are `ListVolumes` and
`ListAllNodes`, and whatever `Collect` sends is samples of the metadata tasks
(volume counts, node info, node total memory) followed by the liveness sample
with the value `0`. -/
theorem C16_metadata_failure_aborts (toLowerRune : Char → Char) (sprintfF : F64 → String)
    (c : SolidfireCollector) (client : Client)
    (h : ∃ t ∈ (Collect toLowerRune sprintfF c client).metadataTasks, t.failed = true) :
    (client.ListVolumes.toBool = false ∨ client.ListAllNodes.toBool = false) ∧
    (Collect toLowerRune sprintfF c client).metricsTasks = [] ∧
    (Collect toLowerRune sprintfF c client).queries = [RPC.ListVolumes, RPC.ListAllNodes] ∧
    (Collect toLowerRune sprintfF c client).up = F64.zero ∧
    ∀ out, (Collect toLowerRune sprintfF c client).Sends out →
      ∃ p1, Interleaving ((Collect toLowerRune sprintfF c client).metadataTasks.map Task.sent) p1 ∧
        out = p1 ++ [Metric.const .upDesc .GaugeValue F64.zero []] ∧
        ∀ m ∈ p1, m.desc = Desc.VolumeCount ∨ m.desc = Desc.NodeInfo ∨
          m.desc = Desc.NodeTotalMemoryBytes := by
  obtain ⟨hmeta, hcases⟩ := collect_cases toLowerRune sprintfF c client
  obtain ⟨t, ht, hft⟩ := h
  have hfail : waitFailed (metadataGroup c client).2 = true := by
    cases hw : waitFailed (metadataGroup c client).2
    · rw [hmeta] at ht
      rw [(waitFailed_false_iff _).mp hw t ht] at hft
      cases hft
    · rfl
  rcases hcases with ⟨_, h0, hup⟩ | ⟨hf, _, _⟩
  · refine ⟨?_, h0, ?_, hup, ?_⟩
    · rw [waitFailed_eq, (metadataGroup_failed c client).2] at hfail
      cases hv : client.ListVolumes.toBool
      · exact Or.inl rfl
      · cases hn : client.ListAllNodes.toBool
        · exact Or.inr rfl
        · simp [hv, hn] at hfail
    · unfold CollectRun.queries
      rw [h0, hmeta, (metadataGroup_failed c client).1]
      rfl
    · rintro out ⟨p1, p2, h1, h2, rfl⟩
      rw [h0] at h2
      rw [interleaving_nil h2, hup, List.append_nil]
      refine ⟨p1, h1, rfl, ?_⟩
      rw [hmeta] at h1
      exact interleaving_sent h1 (metadataGroup_descs c client)
  · rw [hf] at hfail
    cases hfail

/-- C16 at the quiet cluster when the call of `ListAllNodes` fails. -/
theorem C16_metadata_failure_aborts_witness :
    (∃ t ∈ (Collect Char.toLower (fun _ => "") NewCollector nodesDownClient).metadataTasks,
      t.failed = true) ∧
    (Collect Char.toLower (fun _ => "") NewCollector nodesDownClient).metricsTasks = [] ∧
    (Collect Char.toLower (fun _ => "") NewCollector nodesDownClient).queries =
      [RPC.ListVolumes, RPC.ListAllNodes] ∧
    (Collect Char.toLower (fun _ => "") NewCollector nodesDownClient).up = F64.zero :=
  have h : ∃ t ∈ (Collect Char.toLower (fun _ => "") NewCollector nodesDownClient).metadataTasks,
      t.failed = true :=
    ⟨{ query := .ListAllNodes, result := .error { msg := "context deadline exceeded" } },
      List.mem_cons_of_mem _ (List.mem_cons_self _ _), rfl⟩
  have r := C16_metadata_failure_aborts Char.toLower (fun _ => "") NewCollector nodesDownClient h
  ⟨h, r.2.1, r.2.2.1, r.2.2.2.1⟩

/-- C17 (the code departs from the contract): `Describe` sends none of the
descriptors of node total memory and of the six volume QoS histograms, yet a
run of `Collect` in which `ListAllNodes` returns at least one node sends a
sample of the node total-memory descriptor, and one in which both metadata
calls succeed and `ListVolumeQoSHistograms` returns an element of a volume
that is not excluded sends a sample of each of the six histogram descriptors. -/
theorem C17_describe_omits_emitted (toLowerRune : Char → Char) (sprintfF : F64 → String)
    (c : SolidfireCollector) (client : Client) (node : Node) (nodes : List Node)
    (hn : client.ListAllNodes = .ok (node :: nodes)) (out : List Metric)
    (h : (Collect toLowerRune sprintfF c client).Sends out) :
    (∀ d ∈ [Desc.NodeTotalMemoryBytes, Desc.VolumeQoSBelowMinIopsPercentagesHistogram,
            Desc.VolumeQoSMinToMaxIopsPercentagesHistogram,
            Desc.VolumeQoSReadBlockSizesHistogram,
            Desc.VolumeQoSTargetUtilizationPercentagesHistogram,
            Desc.VolumeQoSThrottlePercentagesHistogram,
            Desc.VolumeQoSWriteBlockSizesHistogram], d ∉ Describe) ∧
    (∃ m ∈ out, m.desc = Desc.NodeTotalMemoryBytes) ∧
    (∀ (qs : List QosHistogram) (q : QosHistogram),
      client.ListVolumes.toBool = true → client.ListVolumeQoSHistograms = .ok qs → q ∈ qs →
      MatchString volumeExclusionPattern
        ((Collect toLowerRune sprintfF c client).collector.volumeMetadataAt q.VolumeID).Name
          = false →
      ∀ d ∈ [Desc.VolumeQoSBelowMinIopsPercentagesHistogram,
             Desc.VolumeQoSMinToMaxIopsPercentagesHistogram,
             Desc.VolumeQoSReadBlockSizesHistogram,
             Desc.VolumeQoSTargetUtilizationPercentagesHistogram,
             Desc.VolumeQoSThrottlePercentagesHistogram,
             Desc.VolumeQoSWriteBlockSizesHistogram], ∃ m ∈ out, m.desc = d) := by
  obtain ⟨p1, p2, h1, h2, rfl⟩ := h
  obtain ⟨hmeta, hcases⟩ := collect_cases toLowerRune sprintfF c client
  refine ⟨by decide, ?_, ?_⟩
  · obtain ⟨c1, hmem⟩ := metadataGroup_nodeTask c client _ hn
    rw [← hmeta] at hmem
    refine ⟨Metric.const .NodeTotalMemoryBytes .GaugeValue
      (GigabytesToBytes node.PlatformInfo.NodeMemoryGB) [Itoa node.NodeID, node.Name], ?_, rfl⟩
    refine List.mem_append_left _ (List.mem_append_left _ (interleaving_mem h1 _ hmem _ ?_))
    simp [nodeMetaLoop, nodeMetaSamples]
  · intro qs q hv hq hqs hx d hd
    have hfalse : waitFailed (metadataGroup c client).2 = false := by
      rw [waitFailed_eq, (metadataGroup_failed c client).2, hn, hv]
      rfl
    rcases hcases with ⟨hf, _, _⟩ | ⟨_, h0, _⟩
    · rw [hfalse] at hf; cases hf
    · rw [collect_collector] at hx
      have hmem := metricsGroup_qosTask toLowerRune sprintfF (metadataGroup c client).1 client qs hq
      rw [← h0] at hmem
      have hbody : ∃ m ∈ volumeQosBody (metadataGroup c client).1 q, m.desc = d := by
        unfold volumeQosBody
        simp only [hx, Bool.false_eq_true, if_false]
        simp only [List.mem_cons, List.mem_singleton, List.not_mem_nil, or_false] at hd
        rcases hd with rfl | rfl | rfl | rfl | rfl | rfl
        · exact ⟨_, List.mem_cons_self _ _, rfl⟩
        · exact ⟨_, List.mem_cons_of_mem _ (List.mem_cons_self _ _), rfl⟩
        · exact ⟨_, List.mem_cons_of_mem _ (List.mem_cons_of_mem _ (List.mem_cons_self _ _)), rfl⟩
        · exact ⟨_, List.mem_cons_of_mem _ (List.mem_cons_of_mem _
            (List.mem_cons_of_mem _ (List.mem_cons_self _ _))), rfl⟩
        · exact ⟨_, List.mem_cons_of_mem _ (List.mem_cons_of_mem _
            (List.mem_cons_of_mem _ (List.mem_cons_of_mem _ (List.mem_cons_self _ _)))), rfl⟩
        · exact ⟨_, List.mem_cons_of_mem _ (List.mem_cons_of_mem _ (List.mem_cons_of_mem _
            (List.mem_cons_of_mem _ (List.mem_cons_of_mem _ (List.mem_cons_self _ _))))), rfl⟩
      obtain ⟨m, hm, hmd⟩ := hbody
      refine ⟨m, ?_, hmd⟩
      refine List.mem_append_left _ (List.mem_append_right _ (interleaving_mem h2 _ hmem _ ?_))
      exact List.mem_flatMap.mpr ⟨q, hqs, hm⟩

/-- C17 at the quiet cluster with one node and one QoS element, with the tasks
of each group sending one after the other: the run sends samples of all seven
descriptors. -/
theorem C17_describe_omits_emitted_witness :
    oneNodeClient.ListAllNodes = .ok [exampleNode] ∧
    (Collect Char.toLower (fun _ => "") NewCollector oneNodeClient).Sends
      (Collect Char.toLower (fun _ => "") NewCollector oneNodeClient).sentInOrder ∧
    ∀ d ∈ [Desc.NodeTotalMemoryBytes, Desc.VolumeQoSBelowMinIopsPercentagesHistogram,
           Desc.VolumeQoSMinToMaxIopsPercentagesHistogram,
           Desc.VolumeQoSReadBlockSizesHistogram,
           Desc.VolumeQoSTargetUtilizationPercentagesHistogram,
           Desc.VolumeQoSThrottlePercentagesHistogram,
           Desc.VolumeQoSWriteBlockSizesHistogram],
      d ∉ Describe ∧
      ∃ m ∈ (Collect Char.toLower (fun _ => "") NewCollector oneNodeClient).sentInOrder,
        m.desc = d :=
  have r := C17_describe_omits_emitted Char.toLower (fun _ => "") NewCollector oneNodeClient
    exampleNode [] rfl _ (sends_sentInOrder _)
  ⟨rfl, sends_sentInOrder _, fun d hd =>
    ⟨r.1 d hd, by
      rcases List.mem_cons.mp hd with rfl | hd
      · exact r.2.1
      · exact r.2.2 [fiveQosHistogram 1] (fiveQosHistogram 1) rfl rfl
          (List.mem_cons_self _ _) (by decide!) d hd⟩⟩

/-! ## Theorems: invariants of collectAsyncResults -/

theorem sum_mapEnsure (m : List (String × Int)) (k : String) :
    ((mapEnsure m k).map Prod.snd).sum = (m.map Prod.snd).sum := by
  induction m with
  | nil => simp [mapEnsure]
  | cons p rest ih =>
    obtain ⟨k0, v⟩ := p
    by_cases h0 : k0 = k
    · simp [mapEnsure, h0]
    · simp [mapEnsure, h0, ih]

theorem sum_foldl_ensure (ts : List String) : ∀ (m : List (String × Int)),
    ((ts.foldl mapEnsure m).map Prod.snd).sum = (m.map Prod.snd).sum := by
  induction ts with
  | nil => intro m; rfl
  | cons t rest ih => intro m; rw [List.foldl_cons, ih, sum_mapEnsure]

theorem asyncMaps_nodup (handles : List AsyncHandle) :
    ((asyncMaps handles).activeAsyncResults.map Prod.fst).Nodup ∧
    ((asyncMaps handles).allAsyncResults.map Prod.fst).Nodup := by
  unfold asyncMaps
  rw [asyncEnsure_all, asyncStep_all, asyncEnsure_active, asyncStep_active]
  exact ⟨nodup_foldl_ensure _ _ (nodup_foldl_incr _ _ (by simp)),
    nodup_foldl_ensure _ _ (nodup_foldl_incr _ _ (by simp))⟩

theorem asyncMaps_sum (handles : List AsyncHandle) :
    ((asyncMaps handles).allAsyncResults.map Prod.snd).sum = (handles.length : Nat) := by
  unfold asyncMaps
  rw [asyncEnsure_all, asyncStep_all, sum_foldl_ensure, sum_foldl_incr]
  simp

theorem active_le_all (handles : List AsyncHandle) (t : String) :
    handles.countP (fun h => h.ResultType == t && (!h.Completed && !h.Success)) ≤
      handles.countP (fun h => h.ResultType == t) := by
  apply List.countP_mono_left
  intro h _ hp
  simp only [Bool.and_eq_true] at hp
  exact hp.1

/-- C22: for every list of async handles, the samples `collectAsyncResults`
sends are the entries of the active map and of the total map, each key once;
every key of the active map is a key of the total map, and its active count is
at most its total count; every count of either map is non-negative; and the
counts of the total map sum to the number of handles in the list. -/
theorem C22_async_invariants (handles : List AsyncHandle) :
    ∃ (ms : List Metric) (active all : List (String × Int)),
      collectAsyncResults (.ok handles) = .ok ms ∧
      samplesOf .AsyncResultsActive ms = active.map (fun p => ([p.1], F64.ofInt p.2)) ∧
      samplesOf .AsyncResults ms = all.map (fun p => ([p.1], F64.ofInt p.2)) ∧
      (active.map Prod.fst).Nodup ∧ (all.map Prod.fst).Nodup ∧
      (∀ t ∈ active.map Prod.fst, t ∈ all.map Prod.fst) ∧
      (∀ t n N, (t, n) ∈ active → (t, N) ∈ all → n ≤ N) ∧
      (∀ p ∈ active, 0 ≤ p.2) ∧ (∀ p ∈ all, 0 ≤ p.2) ∧
      (all.map Prod.snd).sum = (handles.length : Nat) := by
  obtain ⟨ms, hms, hact, hall, _⟩ := asyncSamples handles
  refine ⟨ms, (asyncMaps handles).activeAsyncResults, (asyncMaps handles).allAsyncResults,
    hms, hact, hall, (asyncMaps_nodup handles).1, (asyncMaps_nodup handles).2, ?_, ?_, ?_, ?_,
    asyncMaps_sum handles⟩
  · intro t ht
    obtain ⟨⟨t0, n⟩, hp, rfl⟩ := List.mem_map.mp ht
    obtain ⟨hn, hor⟩ := (asyncMaps_active_iff handles t0 n).mp hp
    refine List.mem_map.mpr
      ⟨(t0, ((handles.countP (fun h => h.ResultType == t0) : Nat) : Int)), ?_, rfl⟩
    refine (asyncMaps_all_iff handles t0 _).mpr ⟨rfl, ?_⟩
    rcases hor with hpos | hmem
    · left
      have := active_le_all handles t0
      omega
    · exact Or.inr hmem
  · intro t n N hn hN
    obtain ⟨hn, _⟩ := (asyncMaps_active_iff handles t n).mp hn
    obtain ⟨hN, _⟩ := (asyncMaps_all_iff handles t N).mp hN
    have := active_le_all handles t
    omega
  · rintro ⟨t, n⟩ hp
    obtain ⟨hn, _⟩ := (asyncMaps_active_iff handles t n).mp hp
    simp only [hn]
    exact Int.natCast_nonneg _
  · rintro ⟨t, n⟩ hp
    obtain ⟨hn, _⟩ := (asyncMaps_all_iff handles t n).mp hp
    simp only [hn]
    exact Int.natCast_nonneg _

/-! ## Theorems: rounding is monotone and accurate -/

namespace F64

theorem log2_mono {a b : Nat} (ha : 1 ≤ a) (hab : a ≤ b) : log2 a ≤ log2 b := by
  have h1 := (log2_spec a ha).1
  have h2 := (log2_spec b (le_trans ha hab)).2
  have h3 : 2 ^ log2 a < 2 ^ (log2 b + 1) := lt_of_le_of_lt (le_trans h1 hab) h2
  by_contra hc
  have h4 : log2 b + 1 ≤ log2 a := by omega
  have := Nat.pow_le_pow_right (by decide : 2 > 0) h4
  omega

theorem shiftOf_mono {a b : Nat} (hab : a ≤ b) : shiftOf a ≤ shiftOf b := by
  unfold shiftOf
  by_cases h1 : a < 2 ^ 53
  · rw [if_pos h1]; exact Nat.zero_le _
  · have h2 : ¬ b < 2 ^ 53 := fun h => h1 (lt_of_le_of_lt hab h)
    rw [if_neg h1, if_neg h2]
    have hpos : 0 < 2 ^ 53 := Nat.pow_pos (by decide)
    have := log2_mono (a := a) (b := b) (by omega) hab
    omega

theorem round_half (neg : Bool) (n d : Nat) (hd : 0 < d) :
    ∃ m, (round neg n d = if m * 2 ^ shiftOf (n / d) < overflowAt
        then fin neg (m * 2 ^ shiftOf (n / d)) else inf neg) ∧
      2 * (m * (d * 2 ^ shiftOf (n / d))) ≤ 2 * n + d * 2 ^ shiftOf (n / d) ∧
      2 * n ≤ 2 * (m * (d * 2 ^ shiftOf (n / d))) + d * 2 ^ shiftOf (n / d) := by
  unfold round
  simp only []
  generalize shiftOf (n / d) = k
  have he : 0 < d * 2 ^ k := Nat.mul_pos hd (Nat.pow_pos (by decide))
  have hdm := Nat.div_add_mod n (d * 2 ^ k)
  have hlt := Nat.mod_lt n he
  generalize d * 2 ^ k = e at *
  generalize n / e = q at *
  generalize n % e = r at *
  by_cases hc : e < 2 * r ∨ (2 * r = e ∧ q % 2 = 1)
  · refine ⟨q + 1, by simp only [hc, if_true], ?_, ?_⟩
    · have h1 : (q + 1) * e = e * q + e := by ring
      rw [h1]
      rcases hc with h | ⟨h, _⟩ <;> omega
    · have h1 : (q + 1) * e = e * q + e := by ring
      rw [h1]
      omega
  · refine ⟨q, by simp only [hc, if_false], ?_, ?_⟩
    · have h1 : q * e = e * q := by ring
      rw [h1]
      omega
    · have h1 : q * e = e * q := by ring
      rw [h1]
      have : ¬ e < 2 * r := fun h => hc (Or.inl h)
      omega

theorem round_mono (neg : Bool) (n n' d : Nat) (hd : 0 < d) (h : n ≤ n') :
    ∃ R R', R ≤ R' ∧
      round neg n d = (if R < overflowAt then fin neg R else inf neg) ∧
      round neg n' d = (if R' < overflowAt then fin neg R' else inf neg) := by
  unfold round
  simp only []
  refine ⟨_, _, ?_, rfl, rfl⟩
  have hkk : shiftOf (n / d) ≤ shiftOf (n' / d) := shiftOf_mono (Nat.div_le_div_right h)
  have hsp := shiftOf_spec (n / d)
  have hsp' := shiftOf_spec (n' / d)
  generalize shiftOf (n / d) = k at hkk hsp
  generalize shiftOf (n' / d) = k' at hkk hsp'
  have hpk : 0 < 2 ^ k := Nat.pow_pos (by decide)
  have hpk' : 0 < 2 ^ k' := Nat.pow_pos (by decide)
  rcases Nat.eq_or_lt_of_le hkk with heq | hlt
  · subst heq
    apply Nat.mul_le_mul_right
    have he : 0 < d * 2 ^ k := Nat.mul_pos hd hpk
    have hq : n / (d * 2 ^ k) ≤ n' / (d * 2 ^ k) := Nat.div_le_div_right h
    have hdm := Nat.div_add_mod n (d * 2 ^ k)
    have hdm' := Nat.div_add_mod n' (d * 2 ^ k)
    have hr := Nat.mod_lt n he
    have hr' := Nat.mod_lt n' he
    generalize d * 2 ^ k = e at *
    generalize n / e = q at *
    generalize n' / e = q' at *
    generalize n % e = r at *
    generalize n' % e = r' at *
    rcases Nat.eq_or_lt_of_le hq with hqq | hqq
    · subst hqq
      split_ifs with c1 c2 c2
      · exact Nat.le_refl _
      · exfalso
        apply c2
        rcases c1 with c | ⟨c, c0⟩
        · left; omega
        · by_cases hrr : r = r'
          · right; subst hrr; exact ⟨c, c0⟩
          · left; omega
      · omega
      · exact Nat.le_refl _
    · split_ifs <;> omega
  · have hq' : 2 ^ 52 ≤ n' / (d * 2 ^ k') := by
      have hk1 : 2 ^ (k' + 52) ≤ n' / d := by
        rcases hsp' with ⟨h0, _⟩ | ⟨h1, _⟩
        · omega
        · exact h1
      rw [← Nat.div_div_eq_div_mul, Nat.le_div_iff_mul_le hpk', ← Nat.pow_add, Nat.add_comm]
      exact hk1
    have hq : n / (d * 2 ^ k) < 2 ^ 53 := by
      have hk1 : n / d < 2 ^ (k + 53) := by
        rcases hsp with ⟨h0, h1⟩ | ⟨_, h1⟩
        · rw [h0]; exact h1
        · exact h1
      rw [← Nat.div_div_eq_div_mul, Nat.div_lt_iff_lt_mul hpk, ← Nat.pow_add, Nat.add_comm]
      exact hk1
    have hm : (if d * 2 ^ k < 2 * (n % (d * 2 ^ k)) ∨
          2 * (n % (d * 2 ^ k)) = d * 2 ^ k ∧ n / (d * 2 ^ k) % 2 = 1
        then n / (d * 2 ^ k) + 1 else n / (d * 2 ^ k)) ≤ 2 ^ 53 := by
      split_ifs <;> omega
    have hm' : 2 ^ 52 ≤ (if d * 2 ^ k' < 2 * (n' % (d * 2 ^ k')) ∨
          2 * (n' % (d * 2 ^ k')) = d * 2 ^ k' ∧ n' / (d * 2 ^ k') % 2 = 1
        then n' / (d * 2 ^ k') + 1 else n' / (d * 2 ^ k')) := by
      split_ifs <;> omega
    calc _ ≤ 2 ^ 53 * 2 ^ k := Nat.mul_le_mul_right _ hm
      _ = 2 ^ (53 + k) := by rw [Nat.pow_add]
      _ ≤ 2 ^ (52 + k') := Nat.pow_le_pow_right (by decide) (by omega)
      _ = 2 ^ 52 * 2 ^ k' := by rw [Nat.pow_add]
      _ ≤ _ := Nat.mul_le_mul_right _ hm'

theorem round_zero (neg : Bool) (d : Nat) (hd : 0 < d) : round neg 0 d = fin neg 0 := by
  obtain ⟨v, hv, hle⟩ := round_le neg 0 d 0 hd (Nat.zero_le _) (by decide)
  obtain ⟨m, hr, h1, _⟩ := round_half neg 0 d hd
  rw [hv] at hr
  have hsp : shiftOf (0 / d) = 0 := by rw [Nat.zero_div]; rfl
  rw [hsp] at hr h1
  simp only [pow_zero, Nat.mul_one] at hr h1
  have hm : m = 0 := by
    by_contra hm0
    have h2 : d ≤ m * d := Nat.le_mul_of_pos_left d (Nat.pos_of_ne_zero hm0)
    omega
  subst hm
  rw [hv]
  rw [if_pos (by decide)] at hr
  exact hr

end F64

namespace F64

theorem round_fin_or_inf (neg : Bool) (n d : Nat) :
    (∃ v, round neg n d = fin neg v) ∨ round neg n d = inf neg := by
  obtain ⟨m, _, hr⟩ := round_cases neg n d
  rw [hr]
  split_ifs
  · exact Or.inl ⟨_, rfl⟩
  · exact Or.inr rfl

theorem mul_const_mono (y : Nat) (hy : 0 < y) (v w : F64) (h : le v w = true) :
    le (mul v (fin false y)) (mul w (fin false y)) = true := by
  have hy0 : y ≠ 0 := by omega
  cases v with
  | nan => simp [le] at h
  | inf a =>
    cases w with
    | nan => simp [le] at h
    | inf b => simpa [mul, le, hy0] using h
    | fin b z =>
      simp only [le] at h
      subst h
      simp only [mul, hy0, if_false]
      rcases round_fin_or_inf (xor b false) (z * y) unit with ⟨r, hr⟩ | hr <;> rw [hr] <;>
        simp [le]
  | fin a x =>
    cases w with
    | nan => simp [le] at h
    | inf b =>
      simp only [le, Bool.not_eq_true'] at h
      subst h
      simp only [mul, hy0, if_false]
      rcases round_fin_or_inf (xor a false) (x * y) unit with ⟨r, hr⟩ | hr <;> rw [hr] <;>
        simp [le]
    | fin b z =>
      simp only [mul, Bool.xor_false]
      cases a <;> cases b
      · simp only [le, decide_eq_true_eq] at h
        obtain ⟨R, R', hRR, h1, h2⟩ :=
          round_mono false (x * y) (z * y) unit unit_pos (Nat.mul_le_mul_right y h)
        rw [h1, h2]
        split_ifs <;> simp [le] <;> omega
      · simp only [le, Bool.and_eq_true, beq_iff_eq] at h
        obtain ⟨hx, hz⟩ := h
        subst hx
        subst hz
        simp [round_zero _ _ unit_pos, le]
      · rcases round_fin_or_inf true (x * y) unit with ⟨r, hr⟩ | hr <;>
          rcases round_fin_or_inf false (z * y) unit with ⟨r', hr'⟩ | hr' <;>
          rw [hr, hr'] <;> simp [le]
      · simp only [le, decide_eq_true_eq] at h
        obtain ⟨R, R', hRR, h1, h2⟩ :=
          round_mono true (z * y) (x * y) unit unit_pos (Nat.mul_le_mul_right y h)
        rw [h1, h2]
        split_ifs <;> simp [le] <;> omega

theorem mul_const_zero (y : Nat) (v : F64) (h : eq v zero = true) :
    eq (mul v (fin false y)) zero = true := by
  cases v with
  | nan => simp [eq] at h
  | inf a => simp [eq, zero] at h
  | fin a x =>
    simp only [eq, zero, beq_self_eq_true, Bool.and_true, Bool.or_eq_true, Bool.and_eq_true,
      beq_iff_eq] at h
    have hx : x = 0 := by
      rcases h with h | h
      · exact h
      · exact h.2
    subst hx
    simp [mul, round_zero _ _ unit_pos, eq, zero]

theorem round_relerr (neg : Bool) (n d R : Nat) (hd : 0 < d) (hnorm : 2 ^ 52 * d ≤ n)
    (hr : round neg n d = fin neg R) :
    2 ^ 53 * (R * d) ≤ 2 ^ 53 * n + n ∧ 2 ^ 53 * n ≤ 2 ^ 53 * (R * d) + n := by
  obtain ⟨m, hm, h1, h2⟩ := round_half neg n d hd
  have hsp := shiftOf_spec (n / d)
  rw [hr] at hm
  generalize shiftOf (n / d) = k at hm h1 h2 hsp
  have hR : R = m * 2 ^ k := by
    by_cases hlt : m * 2 ^ k < overflowAt
    · rw [if_pos hlt] at hm; injection hm
    · rw [if_neg hlt] at hm; cases hm
  have he : 2 ^ 52 * (d * 2 ^ k) ≤ n := by
    rcases hsp with ⟨h0, _⟩ | ⟨h3, _⟩
    · rw [h0, pow_zero, Nat.mul_one]; exact hnorm
    · have h4 := (Nat.le_div_iff_mul_le hd).mp h3
      calc 2 ^ 52 * (d * 2 ^ k) = 2 ^ (k + 52) * d := by rw [Nat.pow_add]; ring
        _ ≤ n := h4
  have hRd : R * d = m * (d * 2 ^ k) := by rw [hR]; ring
  rw [hRd]
  generalize m * (d * 2 ^ k) = A at h1 h2
  generalize d * 2 ^ k = e at h1 h2 he
  have e52 : (2 : Nat) ^ 52 = 4503599627370496 := by norm_num
  have e53 : (2 : Nat) ^ 53 = 9007199254740992 := by norm_num
  rw [e52] at he
  rw [e53]
  omega

theorem relerr_rat (a b c U K : ℚ) (hU : 0 < U) (hK : 0 < K)
    (h1 : K * (a * U) ≤ K * (b * c) + b * c) (h2 : K * (b * c) ≤ K * (a * U) + b * c) :
    |a / U - b / U * (c / U)| ≤ b / U * (c / U) / K := by
  have hUU : 0 < U * U := mul_pos hU hU
  have e1 : a / U - b / U * (c / U) = (a * U - b * c) / (U * U) := by
    field_simp
    ring
  have e2 : b / U * (c / U) / K = (b * c / K) / (U * U) := by
    rw [div_mul_div_comm, div_div, div_div, mul_comm K]
  rw [e1, e2, abs_div, abs_of_pos hUU]
  apply div_le_div_of_nonneg_right _ (le_of_lt hUU)
  rw [abs_le]
  constructor
  · rw [neg_le, le_div_iff₀ hK]
    linarith
  · rw [le_div_iff₀ hK]
    linarith

end F64

namespace F64

theorem toRat_fin (s : Bool) (v : Nat) :
    toRat (fin s v) = (if s = true then -1 else 1) * ((v : ℚ) / (2 : ℚ) ^ 1074) := rfl

theorem mul_const_accuracy (s : Bool) (x m k : Nat) (hx1 : 2 ^ 74 ≤ x) (hx2 : x ≤ 2 ^ 2067)
    (hm1 : 2 ^ 52 ≤ m) (hm2 : m ≤ 2 ^ 53) (hk1 : 1002 ≤ k) (hk2 : k ≤ 1051) :
    ∃ r, mul (fin s x) (fin false (m * 2 ^ k)) = fin s r ∧
      |toRat (fin s r) - toRat (fin s x) * toRat (fin false (m * 2 ^ k))| ≤
        |toRat (fin s x)| * toRat (fin false (m * 2 ^ k)) / 2 ^ 53 := by
  have hnorm : 2 ^ 52 * unit ≤ x * (m * 2 ^ k) := by
    rw [unit_def]
    calc 2 ^ 52 * 2 ^ 1074 = 2 ^ 74 * (2 ^ 52 * 2 ^ 1000) := by
          rw [← Nat.pow_add, ← Nat.pow_add, ← Nat.pow_add]
      _ ≤ x * (m * 2 ^ k) :=
          Nat.mul_le_mul hx1
            (Nat.mul_le_mul hm1 (Nat.pow_le_pow_right (by decide) (by omega)))
  have hfin : x * (m * 2 ^ k) ≤ 2 ^ 2097 * unit := by
    rw [unit_def]
    calc x * (m * 2 ^ k) ≤ 2 ^ 2067 * (2 ^ 53 * 2 ^ 1051) :=
          Nat.mul_le_mul hx2 (Nat.mul_le_mul hm2 (Nat.pow_le_pow_right (by decide) hk2))
      _ = 2 ^ 2097 * 2 ^ 1074 := by
          rw [← Nat.pow_add, ← Nat.pow_add, ← Nat.pow_add]
  generalize m * 2 ^ k = y at hnorm hfin
  obtain ⟨r, hr, _⟩ := round_le s (x * y) unit 2097 unit_pos hfin (by decide)
  obtain ⟨h1, h2⟩ := round_relerr s (x * y) unit r unit_pos hnorm hr
  refine ⟨r, by simp only [mul, Bool.xor_false]; exact hr, ?_⟩
  have h1q : (2 : ℚ) ^ 53 * ((r : ℚ) * (2 : ℚ) ^ 1074) ≤
      (2 : ℚ) ^ 53 * ((x : ℚ) * (y : ℚ)) + (x : ℚ) * (y : ℚ) := by
    have h := h1
    rw [unit_def] at h
    exact_mod_cast h
  have h2q : (2 : ℚ) ^ 53 * ((x : ℚ) * (y : ℚ)) ≤
      (2 : ℚ) ^ 53 * ((r : ℚ) * (2 : ℚ) ^ 1074) + (x : ℚ) * (y : ℚ) := by
    have h := h2
    rw [unit_def] at h
    exact_mod_cast h
  have key := relerr_rat (r : ℚ) (x : ℚ) (y : ℚ) ((2 : ℚ) ^ 1074) ((2 : ℚ) ^ 53)
    (by positivity) (by positivity) h1q h2q
  have hxpos : (0 : ℚ) ≤ (x : ℚ) / (2 : ℚ) ^ 1074 := by positivity
  rw [toRat_fin, toRat_fin, toRat_fin]
  cases s
  · simp only [Bool.false_eq_true, if_false, one_mul]
    rw [abs_of_nonneg hxpos]
    exact key
  · simp only [if_true, Bool.false_eq_true, if_false, one_mul]
    have e : -1 * ((r : ℚ) / (2 : ℚ) ^ 1074) -
        -1 * ((x : ℚ) / (2 : ℚ) ^ 1074) * ((y : ℚ) / (2 : ℚ) ^ 1074) =
        -((r : ℚ) / (2 : ℚ) ^ 1074 -
          (x : ℚ) / (2 : ℚ) ^ 1074 * ((y : ℚ) / (2 : ℚ) ^ 1074)) := by ring
    rw [e, abs_neg, neg_one_mul, abs_neg, abs_of_nonneg hxpos]
    exact key

theorem decimal_accuracy (f V c cE : ℚ) (hcE : 0 ≤ cE)
    (h1 : |f - V * c| ≤ |V| * c / 2 ^ 53) (h2 : |c - cE| ≤ cE / 2 ^ 54) :
    |f - V * cE| ≤ |V| * cE / 2 ^ 52 := by
  have hV := abs_nonneg V
  have hc : c ≤ 3 / 2 * cE := by
    have := le_trans (le_abs_self (c - cE)) h2
    have h3 : cE / 2 ^ 54 ≤ cE / 2 := by
      apply div_le_div_of_nonneg_left hcE (by norm_num) (by norm_num)
    linarith
  have hWc : |V| * c ≤ |V| * (3 / 2 * cE) := mul_le_mul_of_nonneg_left hc hV
  have hsplit : f - V * cE = (f - V * c) + V * (c - cE) := by ring
  have h4 : |V * (c - cE)| ≤ |V| * (cE / 2 ^ 54) := by
    rw [abs_mul]
    exact mul_le_mul_of_nonneg_left h2 hV
  have h5 := abs_add (f - V * c) (V * (c - cE))
  rw [hsplit]
  have h6 : |V| * c / 2 ^ 53 + |V| * (cE / 2 ^ 54) ≤ |V| * cE / 2 ^ 52 := by
    have e53 : ((2 : ℚ) ^ 53) = 9007199254740992 := by norm_num
    have e54 : ((2 : ℚ) ^ 54) = 18014398509481984 := by norm_num
    have e52 : ((2 : ℚ) ^ 52) = 4503599627370496 := by norm_num
    rw [e53, e54, e52]
    linarith
  linarith

end F64

theorem const_micro :
    F64.ofRatio 1 1000000 = F64.fin false (4722366482869645 * 2 ^ 1002) := by decide!

theorem const_milli :
    F64.ofRatio 1 1000 = F64.fin false (4611686018427388 * 2 ^ 1012) := by decide!

theorem const_giga :
    F64.ofNat 1000000000 = F64.fin false (8388608000000000 * 2 ^ 1051) := by decide!

theorem toRat_micro :
    F64.toRat (F64.fin false (4722366482869645 * 2 ^ 1002)) =
      4722366482869645 / 4722366482869645213696 := by
  rw [F64.toRat_scaled _ _ (by decide)]
  norm_num

theorem toRat_milli :
    F64.toRat (F64.fin false (4611686018427388 * 2 ^ 1012)) =
      4611686018427388 / 4611686018427387904 := by
  rw [F64.toRat_scaled _ _ (by decide)]
  norm_num

theorem toRat_giga :
    F64.toRat (F64.fin false (8388608000000000 * 2 ^ 1051)) = 1000000000 := by
  rw [F64.toRat_scaled _ _ (by decide)]
  norm_num

theorem micro_eq (v : F64) :
    MicrosecondsToSeconds v = F64.mul v (F64.fin false (4722366482869645 * 2 ^ 1002)) := by
  unfold MicrosecondsToSeconds
  rw [const_micro]

theorem milli_eq (v : F64) :
    MillisecondsToSeconds v = F64.mul v (F64.fin false (4611686018427388 * 2 ^ 1012)) := by
  unfold MillisecondsToSeconds
  rw [const_milli]

theorem giga_eq (v : F64) :
    GigabytesToBytes v = F64.mul v (F64.fin false (8388608000000000 * 2 ^ 1051)) := by
  unfold GigabytesToBytes
  rw [const_giga]

theorem giga_unit : 8388608000000000 * 2 ^ 1051 = 1000000000 * 2 ^ 1074 := by norm_num

theorem pos_micro : 0 < 4722366482869645 * 2 ^ 1002 :=
  Nat.mul_pos (by decide) (Nat.pow_pos (by decide))

theorem pos_milli : 0 < 4611686018427388 * 2 ^ 1012 :=
  Nat.mul_pos (by decide) (Nat.pow_pos (by decide))

theorem pos_giga : 0 < 8388608000000000 * 2 ^ 1051 :=
  Nat.mul_pos (by decide) (Nat.pow_pos (by decide))

/-- C21: each conversion is the `float64` product of its argument with the
`float64` constant nearest to the decimal factor: `4722366482869645 * 2^-72`
for `1e-6` and `4611686018427388 * 2^-62` for `1e-3`, both within relative
error `2^-54` of the decimal, and exactly `10^9` for `1e9`.  Each maps a zero to
a zero, and `+0` to `+0`.  Each is monotone non-decreasing for Go's `<=`.  For a
finite argument of magnitude between `2^-1000` and `2^993` the result is finite,
has the sign of the argument, and differs from the exact real product with
the decimal factor by at most the relative error `2^-52` (`2^-53` for
gigabytes).  The product is rounded once more after the constant was rounded,
so it need not be the `float64` nearest to the exact product: `5` microseconds
give a value other than the `float64` nearest to `5/10^6`. -/
theorem C21_unit_conversions (v w : F64) :
    (MicrosecondsToSeconds v = F64.mul v (F64.fin false (4722366482869645 * 2 ^ 1002)) ∧
      MillisecondsToSeconds v = F64.mul v (F64.fin false (4611686018427388 * 2 ^ 1012)) ∧
      GigabytesToBytes v = F64.mul v (F64.fin false (1000000000 * 2 ^ 1074))) ∧
    (|F64.toRat (F64.fin false (4722366482869645 * 2 ^ 1002)) - 1 / 1000000| ≤
        1 / 1000000 / 2 ^ 54 ∧
      |F64.toRat (F64.fin false (4611686018427388 * 2 ^ 1012)) - 1 / 1000| ≤
        1 / 1000 / 2 ^ 54 ∧
      F64.toRat (F64.fin false (1000000000 * 2 ^ 1074)) = 1000000000) ∧
    (MicrosecondsToSeconds F64.zero = F64.zero ∧ MillisecondsToSeconds F64.zero = F64.zero ∧
      GigabytesToBytes F64.zero = F64.zero) ∧
    (F64.eq v F64.zero = true →
      F64.eq (MicrosecondsToSeconds v) F64.zero = true ∧
      F64.eq (MillisecondsToSeconds v) F64.zero = true ∧
      F64.eq (GigabytesToBytes v) F64.zero = true) ∧
    (F64.le v w = true →
      F64.le (MicrosecondsToSeconds v) (MicrosecondsToSeconds w) = true ∧
      F64.le (MillisecondsToSeconds v) (MillisecondsToSeconds w) = true ∧
      F64.le (GigabytesToBytes v) (GigabytesToBytes w) = true) ∧
    (∀ s x, v = F64.fin s x → 2 ^ 74 ≤ x → x ≤ 2 ^ 2067 →
      (∃ r, MicrosecondsToSeconds v = F64.fin s r ∧
        |F64.toRat (F64.fin s r) - F64.toRat v * (1 / 1000000)| ≤
          |F64.toRat v| * (1 / 1000000) / 2 ^ 52) ∧
      (∃ r, MillisecondsToSeconds v = F64.fin s r ∧
        |F64.toRat (F64.fin s r) - F64.toRat v * (1 / 1000)| ≤
          |F64.toRat v| * (1 / 1000) / 2 ^ 52) ∧
      (∃ r, GigabytesToBytes v = F64.fin s r ∧
        |F64.toRat (F64.fin s r) - F64.toRat v * 1000000000| ≤
          |F64.toRat v| * 1000000000 / 2 ^ 53)) ∧
    (MicrosecondsToSeconds (F64.ofNat 2000000) = F64.ofNat 2 ∧
      MillisecondsToSeconds (F64.ofNat 250) = F64.ofRatio 1 4 ∧
      GigabytesToBytes (F64.ofNat 64) = F64.ofNat 64000000000 ∧
      MicrosecondsToSeconds (F64.ofNat 5) ≠ F64.ofRatio 5 1000000) := by
  have hmicro : |F64.toRat (F64.fin false (4722366482869645 * 2 ^ 1002)) - 1 / 1000000| ≤
      1 / 1000000 / 2 ^ 54 := by
    rw [toRat_micro, abs_le]
    constructor <;> norm_num
  have hmilli : |F64.toRat (F64.fin false (4611686018427388 * 2 ^ 1012)) - 1 / 1000| ≤
      1 / 1000 / 2 ^ 54 := by
    rw [toRat_milli, abs_le]
    constructor <;> norm_num
  refine ⟨⟨micro_eq v, milli_eq v, ?_⟩, ⟨hmicro, hmilli, ?_⟩, ⟨by decide!, by decide!, by decide!⟩,
    ?_, ?_, ?_, ⟨by decide!, by decide!, by decide!, by decide!⟩⟩
  · rw [← giga_unit]; exact giga_eq v
  · rw [← giga_unit]; exact toRat_giga
  · intro h
    rw [micro_eq, milli_eq, giga_eq]
    exact ⟨F64.mul_const_zero _ v h, F64.mul_const_zero _ v h, F64.mul_const_zero _ v h⟩
  · intro h
    rw [micro_eq, milli_eq, giga_eq, micro_eq, milli_eq, giga_eq]
    exact ⟨F64.mul_const_mono _ pos_micro v w h, F64.mul_const_mono _ pos_milli v w h,
      F64.mul_const_mono _ pos_giga v w h⟩
  · intro s x hv hx1 hx2
    subst hv
    rw [micro_eq, milli_eq, giga_eq]
    refine ⟨?_, ?_, ?_⟩
    · obtain ⟨r, hr, hb⟩ := F64.mul_const_accuracy s x 4722366482869645 1002 hx1 hx2
        (by norm_num) (by norm_num) (by decide) (by decide)
      exact ⟨r, hr, F64.decimal_accuracy _ _ _ _ (by norm_num) hb hmicro⟩
    · obtain ⟨r, hr, hb⟩ := F64.mul_const_accuracy s x 4611686018427388 1012 hx1 hx2
        (by norm_num) (by norm_num) (by decide) (by decide)
      exact ⟨r, hr, F64.decimal_accuracy _ _ _ _ (by norm_num) hb hmilli⟩
    · obtain ⟨r, hr, hb⟩ := F64.mul_const_accuracy s x 8388608000000000 1051 hx1 hx2
        (by norm_num) (by norm_num) (by decide) (by decide)
      rw [toRat_giga] at hb
      exact ⟨r, hr, hb⟩

end Solidfire
